import Mathlib

/-!
# git-monitor: a shallow embedding of the ingestion pipeline

The definitions below transcribe the Go sources of `victor-nach/git-monitor`
function by function:

* `pkg/eventbus/simplemq.go`            : `InMemoryEventBus.Publish`, `Subscribe`
* `internal/domain/errors/errors.go`    : `DomainError`, `BatchError`, the sentinels
* `internal/db/store/commits.go`        : `commitStore.CreateBatch`
* `internal/db/store/repo.go`           : `repoStore.UpdateTrackingInfo`
* `internal/worker/saver/saver_worker.go` : `worker.handleSaveCommitEvent`
* `pkg/githubclient/githubclient.go`    : `client.do`, `doWithRetry`, `GetRepository`, `GetCommits`
* `internal/domain/services/github/github.go` : `streamCommits`, `mapCommits`, `mapToCommit`,
  `GetRepository`, `mapToRepository`
* `internal/worker/fetcher/fetcher_worker.go` : `worker.handleFetchCommitEvent`
* `internal/db/store/tasks.go`          : `taskStore.UpdateStatus`
* `internal/domain/services/task/tasks.go` : `StartTasks`, `TriggerTask`, `handleTask`
* `internal/db/store/repo.go`           : `Get`, `CheckExists`, `Create`, `Reset`
* `internal/domain/services/repository/repository.go` : `service.Create`, `service.Reset`
* `internal/db/store/tasks.go`          : `taskStore.Get`
* `internal/http/errors/errors.go`      : `HTTPError`, `NewHTTPError`, `MapError`
* `internal/http/handlers/tasks.go`     : the error path of `Handler.GetTask`
* `pkg/eventbus/simplemq.go`, `pkg/eventbus/rabbitmq.go` : the consumer goroutine of `Subscribe`
* `internal/scheduler/scheduler.go`     : `service.Start`
* `internal/db/store/commits.go`        : `commitStore.List`

Conventions.  A `time.Time` is an integer number of ticks (`Time`), the zero
time being `0`.  Go `error` values are terms of `GoError`; a `nil` error is
`none`.  Everything the code obtains from the outside world (the remote
server, database faults, the clock, fresh UUIDs, context cancellation) is an
explicit argument, so every definition is a computable function.
-/

namespace GitMonitor

/-! ## Go errors (`internal/domain/errors/errors.go`, package `errors`, `fmt.Errorf`) -/

/-- A Go `time.Time`, counted in ticks; `0` is the zero time (`IsZero`). -/
abbrev Time := Int

/-- Go error values that occur in the program.
`plain` is an error without a wrapped cause (`errors.New`, `fmt.Errorf` without `%w`);
`wrap msg e` is `fmt.Errorf(msg + ": %w", e)`;
`domain code message` is a `DomainError` whose `Err` is nil,
`domainWith code message e` one whose `Err` is `e`;
`batch size e` is `NewBatchError(nil, size, e)`. -/
inductive GoError where
  | plain (msg : String)
  | wrap (msg : String) (err : GoError)
  | domain (code message : String)
  | domainWith (code message : String) (err : GoError)
  | batch (batchSize : Int) (err : GoError)
  deriving DecidableEq, Repr

namespace GoError

/-- The `Code` of a `DomainError` value, `none` for any other dynamic type
(the type assertion `target.(DomainError)` of `DomainError.Is`). -/
def domainCode? : GoError → Option String
  | domain code _ => some code
  | domainWith code _ _ => some code
  | _ => none

/-- Go `errors.Is(err, target)` on this error universe.
At each link of the chain: equality with the target, then the link's own `Is`
method (only `DomainError` has one: it compares codes when the target is a
`DomainError` and otherwise asks `errors.Is(e.Err, target)`), then `Unwrap`
(only `fmt.Errorf` wrappers have one; `DomainError` and `BatchError` do not). -/
def errorsIs : GoError → GoError → Bool
  | plain msg, target => decide (plain msg = target)
  | wrap msg err, target => decide (wrap msg err = target) || errorsIs err target
  | domain code message, target =>
      decide (domain code message = target) ||
        (match target.domainCode? with
         | some tcode => decide (code = tcode)
         | none => false)
  | domainWith code message err, target =>
      decide (domainWith code message err = target) ||
        (match target.domainCode? with
         | some tcode => decide (code = tcode)
         | none => errorsIs err target)
  | batch size err, target => decide (batch size err = target)

end GoError

open GoError

def ErrInvalidInput : GoError := domain "InvalidInput" "invalid input provided"
def ErrRepositoryNotFound : GoError :=
  domain "RepositoryNotFound"
    "The repository info provided doesn't exist. Please check the owner and repository name and try again."
def ErrTrackedRepositoryNotFound : GoError :=
  domain "TrackedRepositoryNotFound"
    "The repository you're looking for isn't in your tracked list. Please add it first to continue."
def ErrDuplicateRepository : GoError :=
  domain "DuplicateRepository"
    "The repository name provided already exists in the tracked lists. Please provide a different one or manually trigger a task for this repo."
def ErrUnauthorized : GoError := domain "Unauthorized" "unauthorized access"
def ErrRateLimitExceeded : GoError := domain "RateLimitExceeded" "rate limit exceeded"
def ErrInternalServer : GoError := domain "InternalServer" "internal server error"
def ErrInvalidResponse : GoError := domain "InvalidResponse" "invalid response from GitHub API"
def ErrTaskNotFound : GoError := domain "ErrTaskNotFound" "job not found"

/-- The function `NewBatchError(nil, batchSize, err)`. -/
def NewBatchError (batchSize : Int) (err : GoError) : GoError := GoError.batch batchSize err

/-- The test `rerrors.Is(err, ErrRateLimitExceeded) || rerrors.Is(err, ErrInternalServer)`
of `doWithRetry` (the same test as `IsTransient`). -/
def IsTransient (err : GoError) : Bool :=
  errorsIs err ErrRateLimitExceeded || errorsIs err ErrInternalServer

/-! ## The in-memory event bus (`pkg/eventbus/simplemq.go`) -/

/-- A buffered channel `chan []byte`: the bodies sent and not yet received,
oldest first.  Its capacity is the bus's `bufferSize`. -/
structure Chan where
  queue : List String
  deriving DecidableEq, Repr

/-- The bus: `subscribers` is the `sync.Map` from topic to the slice of
channels registered on it, in registration order. -/
structure InMemoryEventBus where
  subscribers : List (String × List Chan)
  bufferSize : Nat
  deriving DecidableEq, Repr

namespace InMemoryEventBus

/-- The call `bus.subscribers.Load(topic)`. -/
def load (bus : InMemoryEventBus) (topic : String) : Option (List Chan) :=
  (bus.subscribers.find? (fun kv => kv.1 == topic)).map (fun kv => kv.2)

/-- The call `bus.subscribers.Store(topic, chs)`. -/
def store (bus : InMemoryEventBus) (topic : String) (chs : List Chan) : InMemoryEventBus :=
  if bus.subscribers.any (fun kv => kv.1 == topic) then
    { bus with subscribers :=
        bus.subscribers.map (fun kv => if kv.1 == topic then (topic, chs) else kv) }
  else
    { bus with subscribers := bus.subscribers ++ [(topic, chs)] }

/-- The non-blocking send `select { case ch <- body: default: }`: the body is
enqueued when the buffer has a free slot and dropped otherwise. -/
def trySend (bufferSize : Nat) (body : String) (ch : Chan) : Chan :=
  if ch.queue.length < bufferSize then { queue := ch.queue ++ [body] } else ch

/-- The method `Publish(ctx, topic, message)`.  `ctxErr` is `ctx.Err()` when
`ctx.Done()` is ready, `marshal` is `json.Marshal`.  Returns the bus after the
call and the returned error.  A send changes the channel the map refers to;
here the slice of updated channels is stored back under the topic. -/
def Publish {μ : Type} (marshal : μ → Except GoError String) (ctxErr : Option GoError)
    (bus : InMemoryEventBus) (topic : String) (message : μ) :
    InMemoryEventBus × Option GoError :=
  match ctxErr with
  | some e => (bus, some e)
  | none =>
    match marshal message with
    | .error err => (bus, some err)
    | .ok body =>
      match bus.load topic with
      | some chs => (bus.store topic (chs.map (trySend bus.bufferSize body)), none)
      | none => (bus, none)

/-- The method `Subscribe(ctx, topic, handler)` up to the start of the
consumer goroutine: a fresh channel is appended to the topic's slice.
`handlerNil` says that the handler argument is nil. -/
def Subscribe (handlerNil : Bool) (bus : InMemoryEventBus) (topic : String) :
    InMemoryEventBus × Option GoError :=
  if handlerNil then (bus, some (plain "handler function cannot be nil"))
  else
    let chs := (bus.load topic).getD []
    (bus.store topic (chs ++ [{ queue := [] }]), none)

/-- Number of copies of `body` waiting in the queues of `topic`. -/
def copies (bus : InMemoryEventBus) (topic : String) (body : String) : Nat :=
  (((bus.load topic).getD []).map (fun ch => ch.queue.count body)).sum

end InMemoryEventBus

/-- A new bus: `NewInMemoryEventBus(log, bufferSize)`. -/
def NewInMemoryEventBus (bufferSize : Nat) : InMemoryEventBus :=
  { subscribers := [], bufferSize := bufferSize }

/-- A bus with the default buffer size on which two fetch workers have
subscribed to the fetch-request topic. -/
def twoFetchWorkers : InMemoryEventBus :=
  ((((NewInMemoryEventBus 100).Subscribe false "fetch_commit_event").1).Subscribe false
    "fetch_commit_event").1

/-! ## Domain models (`internal/domain/models/models.go`, `internal/domain/events/events.go`) -/

structure RepoInfo where
  Name : String
  Owner : String
  deriving DecidableEq, Repr

structure Commit where
  ID : String
  SHA : String
  RepositoryID : String
  RepoName : String
  RepoOwner : String
  Message : String
  Author : String
  AuthorEmail : String
  Date : Time
  URL : String
  CreatedAt : Time
  UpdatedAt : Option Time
  deriving DecidableEq, Repr

structure Repository where
  ID : String
  RepoID : Int
  Name : String
  Owner : String
  Description : String
  URL : String
  Language : String
  ForksCount : Int
  StarsCount : Int
  OpenIssues : Int
  WatchersCount : Int
  IsSyncedToStartTime : Bool
  IsActive : Bool
  CommitTrackingStartTime : Time
  LastFetchedAt : Option Time
  LastFetchedCommitTime : Option Time
  RepoCreatedAt : Time
  RepoUpdatedAt : Time
  CreatedAt : Time
  UpdatedAt : Option Time
  deriving DecidableEq, Repr

structure SaveCommitEvent where
  RepoInfo : RepoInfo
  TaskID : String
  Commits : List Commit
  deriving DecidableEq, Repr

/-! ## The relational store (`internal/db/store`) -/

/-- The tables the pipeline reads and writes, rows in insertion order. -/
structure DB where
  repositories : List Repository
  commits : List Commit
  deriving DecidableEq, Repr

/-- Failures of the database itself (connection lost, disk full, ...), one
per statement a save-request can issue; `none` means the statement runs.
`count` is the `Count` query and `update` the `Updates` statement of
`UpdateTrackingInfo`, `insert` the `Create` statement of `CreateBatch`, and
`transaction` the begin or commit of its transaction. -/
structure DBFaults where
  count : Option GoError
  update : Option GoError
  insert : Option GoError
  transaction : Option GoError
  deriving DecidableEq, Repr

/-- A database that executes every statement. -/
def noFaults : DBFaults := { count := none, update := none, insert := none, transaction := none }

/-- Modelled from the spec: the unique constraint of the commits table, which
is declared in the SQL migrations and not in the Go sources.  The spec keys a
commit on (repository, SHA); the repository of a commit row is identified, as
in every query of the store, by `repo_owner` and `repo_name`. -/
def commitKey (c : Commit) : String × String × String := (c.RepoOwner, c.RepoName, c.SHA)

/-- The predicate `WHERE repo_name = ? AND repo_owner = ?` on a commit row. -/
def commitOf (info : RepoInfo) (c : Commit) : Bool :=
  c.RepoName == info.Name && c.RepoOwner == info.Owner

/-- The predicate `WHERE name = ? AND owner = ?` on a repository row. -/
def repoMatches (info : RepoInfo) (r : Repository) : Bool :=
  r.Name == info.Name && r.Owner == info.Owner

/-- One row of `INSERT ... ON CONFLICT DO NOTHING`: the row is skipped when a
stored row has its key and appended otherwise. -/
def insertOrIgnore (rows : List Commit) (c : Commit) : List Commit :=
  if rows.any (fun r => commitKey r == commitKey c) then rows else rows ++ [c]

/-- The statement `tx.Clauses(clause.OnConflict{DoNothing: true}).Create(&commits)`. -/
def insertAllOrIgnore (rows : List Commit) (batch : List Commit) : List Commit :=
  batch.foldl insertOrIgnore rows

/-- The sentinel `gorm.ErrEmptySlice`. -/
def gormErrEmptySlice : GoError := plain "empty slice found"

/-- The method `commitStore.CreateBatch(ctx, commits)`
(`commitService.CreateBatch` forwards to it unchanged).  `Create` on an empty
slice fails with `gorm.ErrEmptySlice` before an `INSERT` is sent.  A failed
transaction is rolled back, so the database is unchanged on error. -/
def CreateBatch (faults : DBFaults) (db : DB) (commits : List Commit) : DB × Option GoError :=
  match commits with
  | [] =>
      (db, some (wrap "failed to create commit batch"
        (wrap "failed to insert commits" gormErrEmptySlice)))
  | _ :: _ =>
    match faults.insert with
    | some err =>
        (db, some (wrap "failed to create commit batch" (wrap "failed to insert commits" err)))
    | none =>
      match faults.transaction with
      | some err => (db, some (wrap "failed to create commit batch" err))
      | none => ({ db with commits := insertAllOrIgnore db.commits commits }, none)

/-- Number of commit rows of a repository
(`Model(&models.Commit{}).Where("repo_name = ? AND repo_owner = ?", ...).Count`). -/
def commitCount (db : DB) (info : RepoInfo) : Nat :=
  (db.commits.filter (commitOf info)).length

/-- The `Updates(updates)` statement of `UpdateTrackingInfo` on one row;
`fetchedAt` and `updatedAt` are the two readings of `time.Now()`. -/
def setTrackingInfo (info : RepoInfo) (lastFetchedCommitTime fetchedAt updatedAt : Time)
    (r : Repository) : Repository :=
  if repoMatches info r then
    { r with LastFetchedCommitTime := some lastFetchedCommitTime,
             LastFetchedAt := some fetchedAt,
             UpdatedAt := some updatedAt }
  else r

/-- The method `repoStore.UpdateTrackingInfo(ctx, repoInfo, lastFetchedCommitTime)`. -/
def repoStore_UpdateTrackingInfo (faults : DBFaults) (fetchedAt updatedAt : Time) (db : DB)
    (repoInfo : RepoInfo) (lastFetchedCommitTime : Time) : DB × Option GoError :=
  match faults.count with
  | some err => (db, some (wrap "failed to count commits" err))
  | none =>
    if commitCount db repoInfo != 0 then (db, none)
    else
      match faults.update with
      | some err => (db, some (wrap "failed to update repository" err))
      | none =>
        let rowsAffected := (db.repositories.filter (repoMatches repoInfo)).length
        let rows := db.repositories.map
          (setTrackingInfo repoInfo lastFetchedCommitTime fetchedAt updatedAt)
        let db1 : DB := { db with repositories := rows }
        if rowsAffected == 0 then (db1, some ErrRepositoryNotFound) else (db1, none)

/-- The method `repository.service.UpdateTrackingInfo`, the `repoService` of the save worker. -/
def UpdateTrackingInfo (faults : DBFaults) (fetchedAt updatedAt : Time) (db : DB)
    (repoInfo : RepoInfo) (lastFetchedCommitTime : Time) : DB × Option GoError :=
  match repoStore_UpdateTrackingInfo faults fetchedAt updatedAt db repoInfo
      lastFetchedCommitTime with
  | (db1, some err) => (db1, some (wrap "failed to update repository commit tracking" err))
  | (db1, none) => (db1, none)

/-! ## The save worker (`internal/worker/saver/saver_worker.go`) -/

/-- The method `worker.handleSaveCommitEvent(ctx, event)`: the database after
the call and the returned error. -/
def handleSaveCommitEvent (faults : DBFaults) (fetchedAt updatedAt : Time) (db : DB)
    (event : SaveCommitEvent) : DB × Option GoError :=
  match event.Commits with
  | [] => (db, none)
  | first :: _ =>
    let batchLatestCommitTime := first.Date
    match UpdateTrackingInfo faults fetchedAt updatedAt db event.RepoInfo
        batchLatestCommitTime with
    | (db1, some err) => (db1, some (wrap "failed to update repo tracking info" err))
    | (db1, none) =>
      match CreateBatch faults db1 event.Commits with
      | (db2, some err) => (db2, some (wrap "failed to save commits" err))
      | (db2, none) => (db2, none)

/-- The progress cursor `last_fetched_commit_time` of the repository row
addressed by `info` (`none` when there is no such row or the column is NULL). -/
def cursor (db : DB) (info : RepoInfo) : Option Time :=
  match db.repositories.find? (repoMatches info) with
  | some r => r.LastFetchedCommitTime
  | none => none

/-- The most recent `Date` among the commit rows of a repository. -/
def latestCommitDate (db : DB) (info : RepoInfo) : Option Time :=
  ((db.commits.filter (commitOf info)).map (fun c => c.Date)).max?

/-- Successive deliveries of batches to `CreateBatch` on a database without faults. -/
def deliver (db : DB) (batches : List (List Commit)) : DB :=
  batches.foldl (fun d batch => (CreateBatch noFaults d batch).1) db

/-- The distinct SHAs delivered for a repository. -/
def distinctSHAs (info : RepoInfo) (batches : List (List Commit)) : List String :=
  ((batches.flatten.filter (commitOf info)).map (fun c => c.SHA)).dedup

/-- One handled save-request together with what the outside world did while
it was handled: the database faults and the two clock readings. -/
structure SaveStep where
  faults : DBFaults
  fetchedAt : Time
  updatedAt : Time
  event : SaveCommitEvent
  deriving DecidableEq, Repr

/-- The database before and after each of a sequence of save-requests, all of
them handled successfully; `none` as soon as one handler call returns an error. -/
def handleStates : DB → List SaveStep → Option (List DB)
  | db, [] => some [db]
  | db, step :: rest =>
    match handleSaveCommitEvent step.faults step.fetchedAt step.updatedAt db step.event with
    | (db1, none) => (handleStates db1 rest).map (fun states => db :: states)
    | (_, some _) => none

/-- Order on cursors: an absent cursor is below every time. -/
def cursorLE : Option Time → Option Time → Prop
  | none, _ => True
  | some _, none => False
  | some a, some b => a ≤ b

instance (a b : Option Time) : Decidable (cursorLE a b) := by
  cases a <;> cases b <;> unfold cursorLE <;> infer_instance

/-! ## The GitHub client (`pkg/githubclient`) -/

namespace dto

structure Author where
  Name : String
  Email : String
  Date : Time
  deriving DecidableEq, Repr

structure Commit where
  Message : String
  Author : Author
  deriving DecidableEq, Repr

structure GitHubCommitResponse where
  SHA : String
  Commit : Commit
  HTMLURL : String
  deriving DecidableEq, Repr

structure Owner where
  Login : String
  deriving DecidableEq, Repr

structure GitHubRepositoryResponse where
  ID : Int
  Owner : Owner
  Name : String
  Description : String
  URL : String
  Language : String
  ForksCount : Int
  StarsCount : Int
  OpenIssues : Int
  WatchersCount : Int
  CreatedAt : Time
  UpdatedAt : Time
  deriving DecidableEq, Repr

/-- The zero value `dto.GitHubRepositoryResponse{}`. -/
def GitHubRepositoryResponse.zero : GitHubRepositoryResponse :=
  { ID := 0, Owner := { Login := "" }, Name := "", Description := "", URL := "",
    Language := "", ForksCount := 0, StarsCount := 0, OpenIssues := 0, WatchersCount := 0,
    CreatedAt := 0, UpdatedAt := 0 }

end dto

/-- What one call of `c.httpClient.Do(req)` meets: a transport failure, or a
response with its status code and, for the body, the value `json.Decode`
reads from it into the result (`none` when decoding fails). -/
inductive HTTPOutcome (α : Type) where
  | transportError (err : GoError)
  | response (statusCode : Nat) (decoded : Option α)
  deriving Repr

/-- The fields of `client` the request logic reads.  `newRequestErr` is the
error `http.NewRequestWithContext` returns for URLs built on `baseURL`, `none`
when they are accepted. -/
structure client where
  retryCount : Int
  newRequestErr : Option GoError
  deriving DecidableEq, Repr

/-- The outcome of `doWithRetry`: the value decoded into `result`, the
returned error, and how many requests were sent (calls of `httpClient.Do`). -/
structure RetryResult (α : Type) where
  value : Option α
  err : Option GoError
  requests : Nat
  deriving Repr

namespace client

/-- The method `client.do(ctx, url, result)` on one outcome of the remote. -/
def doOnce {α : Type} (c : client) (outcome : HTTPOutcome α) : Except GoError α :=
  match c.newRequestErr with
  | some err => .error (wrap "failed to create request" err)
  | none =>
    match outcome with
    | .transportError err => .error (wrap "failed to make request" err)
    | .response statusCode decoded =>
      if statusCode = 200 then
        match decoded with
        | some v => .ok v
        | none => .error ErrInvalidResponse
      else if statusCode = 404 then .error ErrRepositoryNotFound
      else if statusCode = 401 then .error ErrUnauthorized
      else if statusCode = 403 then .error ErrRateLimitExceeded
      else if statusCode = 500 then .error ErrInternalServer
      else .error (plain ("unexpected status code: " ++ toString statusCode))

/-- Requests sent by one call of `do`: none when the request cannot be built. -/
def sent (c : client) : Nat :=
  match c.newRequestErr with
  | some _ => 0
  | none => 1

/-- The loop of `doWithRetry`: `remaining` iterations are left, `i` is the
loop variable, `requests` counts the requests sent so far and `lastErr` is the
variable `err`.  `remote i` is what the `i`-th attempt (from 0) meets. -/
def retryLoop {α : Type} (c : client) (remote : Nat → HTTPOutcome α) :
    Nat → Nat → Nat → Option GoError → RetryResult α
  | 0, _, requests, lastErr =>
    let msg := "request failed after " ++ toString c.retryCount ++ " retries"
    { value := none,
      err := some (match lastErr with
        | some err => wrap msg err
        | none => plain msg),
      requests := requests }
  | remaining + 1, i, requests, _ =>
    match c.doOnce (remote i) with
    | .ok v => { value := some v, err := none, requests := requests + c.sent }
    | .error err =>
      if IsTransient err then
        retryLoop c remote remaining (i + 1) (requests + c.sent) (some err)
      else
        { value := none, err := some err, requests := requests + c.sent }

/-- The method `client.doWithRetry(ctx, url, result)`: the loop runs for
`i = 0, ..., retryCount - 1` (not at all when `retryCount <= 0`). -/
def doWithRetry {α : Type} (c : client) (remote : Nat → HTTPOutcome α) : RetryResult α :=
  retryLoop c remote c.retryCount.toNat 0 0 none

/-- The method `client.GetRepository(ctx, owner, repo)`: the returned
repository, the returned error, and the number of requests sent. -/
def GetRepository (c : client)
    (remote : String → String → Nat → HTTPOutcome dto.GitHubRepositoryResponse)
    (owner repo : String) : dto.GitHubRepositoryResponse × Option GoError × Nat :=
  let r := c.doWithRetry (remote owner repo)
  match r.err, r.value with
  | some err, _ => (dto.GitHubRepositoryResponse.zero, some err, r.requests)
  | none, some repoResponse => (repoResponse, none, r.requests)
  | none, none => (dto.GitHubRepositoryResponse.zero, none, r.requests)

end client

/-- The query of the commit-list endpoint as `GetCommits` encodes it: `since`
is sent unless `from` is the zero time, `page` only when it is positive. -/
structure CommitsQuery where
  owner : String
  repoName : String
  since : Option Time
  until_ : Time
  perPage : Int
  page : Option Int
  deriving DecidableEq, Repr

/-- The URL `GetCommits` builds from its arguments. -/
def commitsQuery (owner repoName : String) (from_ to_ : Time) (batchSize page : Int) :
    CommitsQuery :=
  { owner := owner, repoName := repoName,
    since := if from_ = 0 then none else some from_,
    until_ := to_, perPage := batchSize,
    page := if page > 0 then some page else none }

/-- The method `client.GetCommits(ctx, owner, repoName, from, to, batchSize, page)`:
the returned page (`none` is the nil slice), the returned error, and the
number of requests sent. -/
def client.GetCommits (c : client)
    (remote : CommitsQuery → Nat → HTTPOutcome (List dto.GitHubCommitResponse))
    (owner repoName : String) (from_ to_ : Time) (batchSize page : Int) :
    Option (List dto.GitHubCommitResponse) × Option GoError × Nat :=
  match c.newRequestErr with
  | some err => (none, some (wrap "failed to create request" err), 0)
  | none =>
    let r := c.doWithRetry (remote (commitsQuery owner repoName from_ to_ batchSize page))
    match r.err with
    | some err => (none, some err, r.requests)
    | none => (r.value, none, r.requests)

/-! ## The streaming fetch (`internal/domain/services/github/github.go`) -/

/-- The arguments of one call of `githubClient.GetCommits`. -/
structure CommitsCall where
  owner : String
  repoName : String
  since : Time
  until_ : Time
  batchSize : Int
  page : Nat
  deriving DecidableEq, Repr

/-- What `streamCommits` does that its surroundings can observe, in order:
calls of `client.GetCommits`, sends on `dataChan`, sends on `errChan`. -/
inductive StreamEvent where
  | request (call : CommitsCall)
  | batch (commits : List Commit)
  | error (err : GoError)
  deriving DecidableEq, Repr

/-- The outside world of one streaming fetch: `cancelled k` says that
`ctx.Done()` is ready when the loop is about to fetch page `k`; `GetCommits`
is the `githubClient`; `newID k i` and `now k i` are the UUID and the clock
reading taken for item `i` of page `k`. -/
structure StreamEnv where
  cancelled : Nat → Bool
  GetCommits : CommitsCall → List dto.GitHubCommitResponse × Option GoError
  newID : Nat → Nat → String
  now : Nat → Nat → Time

/-- The function `mapToCommit(id, repoInfo, repoID, dto)`; `createdAt` is `time.Now()`. -/
def mapToCommit (id : String) (createdAt : Time) (repoInfo : RepoInfo) (repoID : String)
    (d : dto.GitHubCommitResponse) : Commit :=
  { ID := id, SHA := d.SHA, RepositoryID := repoID, RepoName := repoInfo.Name,
    RepoOwner := repoInfo.Owner, Message := d.Commit.Message, URL := d.HTMLURL,
    Author := d.Commit.Author.Name, AuthorEmail := d.Commit.Author.Email,
    Date := d.Commit.Author.Date, CreatedAt := createdAt, UpdatedAt := none }

/-- The loop of `mapCommits` from index `i` on. -/
def mapCommitsFrom (env : StreamEnv) (page : Nat) (repoInfo : RepoInfo) (repoID : String) :
    Nat → List dto.GitHubCommitResponse → List Commit
  | _, [] => []
  | i, d :: rest =>
    mapToCommit ("commit-" ++ env.newID page i) (env.now page i) repoInfo repoID d ::
      mapCommitsFrom env page repoInfo repoID (i + 1) rest

/-- The function `mapCommits(repoInfo, repoID, dtos)`, called for page `page`. -/
def mapCommits (env : StreamEnv) (page : Nat) (repoInfo : RepoInfo) (repoID : String)
    (dtos : List dto.GitHubCommitResponse) : List Commit :=
  mapCommitsFrom env page repoInfo repoID 0 dtos

/-- The arguments `streamCommits` passes to `GetCommits` for page `page`. -/
def pageCall (repoInfo : RepoInfo) (since until_ : Time) (batchSize : Int) (page : Nat) :
    CommitsCall :=
  { owner := repoInfo.Owner, repoName := repoInfo.Name, since := since, until_ := until_,
    batchSize := batchSize, page := page }

/-- The loop of `streamCommits` from `currentPage` on, for at most `fuel`
iterations.  The result is the trace of the loop and whether the function has
returned (`false`: the fuel ran out first). -/
def streamLoop (env : StreamEnv) (repoInfo : RepoInfo) (repoID : String) (since until_ : Time)
    (batchSize : Int) : Nat → Nat → List StreamEvent × Bool
  | 0, _ => ([], false)
  | fuel + 1, currentPage =>
    if env.cancelled currentPage then ([], true)
    else
      let call := pageCall repoInfo since until_ batchSize currentPage
      match env.GetCommits call with
      | (_, some err) =>
        ([StreamEvent.request call, StreamEvent.error (NewBatchError batchSize err)], true)
      | (commitsDTOs, none) =>
        if commitsDTOs.length = 0 then ([StreamEvent.request call], true)
        else
          let domainCommits := mapCommits env currentPage repoInfo repoID commitsDTOs
          if (commitsDTOs.length : Int) < batchSize then
            ([StreamEvent.request call, StreamEvent.batch domainCommits], true)
          else
            let next := streamLoop env repoInfo repoID since until_ batchSize fuel
              (currentPage + 1)
            (StreamEvent.request call :: StreamEvent.batch domainCommits :: next.1, next.2)

/-- The method `service.streamCommits`: the loop started at `currentPage := 1`. -/
def streamCommits (env : StreamEnv) (batchSize : Int) (repoInfo : RepoInfo) (repoID : String)
    (since until_ : Time) (fuel : Nat) : List StreamEvent × Bool :=
  streamLoop env repoInfo repoID since until_ batchSize fuel 1

/-- The batches of a trace, in order. -/
def batchesOf : List StreamEvent → List (List Commit)
  | [] => []
  | StreamEvent.batch commits :: rest => commits :: batchesOf rest
  | _ :: rest => batchesOf rest

/-- The pages requested in a trace, in order. -/
def requestsOf : List StreamEvent → List CommitsCall
  | [] => []
  | StreamEvent.request call :: rest => call :: requestsOf rest
  | _ :: rest => requestsOf rest

/-- The errors of a trace, in order. -/
def errorsOf : List StreamEvent → List GoError
  | [] => []
  | StreamEvent.error err :: rest => err :: errorsOf rest
  | _ :: rest => errorsOf rest

/-- What the loop does on a page that ends the stream: the request, then one
error for a failed page, nothing for an empty page, the mapped page otherwise. -/
def lastPage (env : StreamEnv) (repoInfo : RepoInfo) (repoID : String) (since until_ : Time)
    (batchSize : Int) (page : Nat) : List StreamEvent :=
  StreamEvent.request (pageCall repoInfo since until_ batchSize page) ::
    (match env.GetCommits (pageCall repoInfo since until_ batchSize page) with
     | (_, some err) => [StreamEvent.error (NewBatchError batchSize err)]
     | (dtos, none) =>
       if dtos.length = 0 then []
       else [StreamEvent.batch (mapCommits env page repoInfo repoID dtos)])

/-- What the loop does on a page after which it goes on: the request and the mapped page. -/
def fullPage (env : StreamEnv) (repoInfo : RepoInfo) (repoID : String) (since until_ : Time)
    (batchSize : Int) (page : Nat) : List StreamEvent :=
  [StreamEvent.request (pageCall repoInfo since until_ batchSize page),
   StreamEvent.batch (mapCommits env page repoInfo repoID
     (env.GetCommits (pageCall repoInfo since until_ batchSize page)).1)]

/-- A page ends the stream when it failed, is empty, or is shorter than the page size. -/
def endsStream (batchSize : Int) (page : List dto.GitHubCommitResponse × Option GoError) : Bool :=
  page.2.isSome || decide (page.1.length = 0) || decide ((page.1.length : Int) < batchSize)

/-! ## The fetch worker (`internal/worker/fetcher/fetcher_worker.go`) -/

def TaskStatusPending : String := "pending"
def TaskStatusInProgress : String := "in_progress"
def TaskStatusCompleted : String := "completed"
def TaskStatusFailed : String := "failed"

structure FetchCommitEvent where
  RepoInfo : RepoInfo
  TaskID : String
  RepoID : String
  Since : Time
  deriving DecidableEq, Repr

structure GetCommitsStreamRequest where
  RepoID : String
  RepoInfo : RepoInfo
  Since : Option Time
  Until : Option Time
  deriving DecidableEq, Repr

/-- What one `select` of the handler's loop receives: a batch on `DataChan`,
`DataChan` closed, an error on `ErrChan`, `ErrChan` closed, a signal on
`DoneChan` (sent or closed), or `ctx.Done()` with `ctx.Err()`. -/
inductive Received where
  | batch (commits : List Commit)
  | dataClosed
  | fetchError (err : GoError)
  | errClosed
  | done
  | cancelled (err : GoError)
  deriving DecidableEq, Repr

/-- What the handler does that its collaborators observe, in order: the call
of `githubService.GetCommitsStream`, calls of `eventBus.Publish` on the
save-request topic, calls of `taskService.UpdateStatus`. -/
inductive FetchAction where
  | startStream (request : GetCommitsStreamRequest)
  | publish (event : SaveCommitEvent)
  | updateStatus (taskID : String) (status : String) (errMsg : Option String)
  deriving DecidableEq, Repr

/-- How a run of the handler ends: it returns (`nil` or an error), or it is
still waiting in its `select` when the deliveries run out. -/
inductive FetchOutcome where
  | returned (err : Option GoError)
  | waiting
  deriving DecidableEq, Repr

/-- The collaborators' answers: `publishErr n` is what the `n`-th call of
`Publish` (from 0) returns, `updateErr` what `UpdateStatus` returns. -/
structure FetchEnv where
  publishErr : Nat → Option GoError
  updateErr : Option GoError

/-- The label `COMPLETE` of `handleFetchCommitEvent`. -/
def fetchComplete (env : FetchEnv) (event : FetchCommitEvent) :
    List FetchAction × FetchOutcome :=
  match env.updateErr with
  | some err =>
    ([FetchAction.updateStatus event.TaskID TaskStatusCompleted none],
      FetchOutcome.returned (some (wrap "failed to update job status" err)))
  | none =>
    ([FetchAction.updateStatus event.TaskID TaskStatusCompleted none],
      FetchOutcome.returned none)

/-- The `for { select { ... } }` loop of `handleFetchCommitEvent`; `published`
counts the calls of `Publish` made so far. -/
def fetchLoop (env : FetchEnv) (event : FetchCommitEvent) :
    Nat → List Received → List FetchAction × FetchOutcome
  | _, [] => ([], FetchOutcome.waiting)
  | published, Received.batch commits :: rest =>
    let saveEvent : SaveCommitEvent :=
      { RepoInfo := event.RepoInfo, TaskID := event.TaskID, Commits := commits }
    match env.publishErr published with
    | some err =>
      ([FetchAction.publish saveEvent],
        FetchOutcome.returned (some (wrap "failed to publish save commit event" err)))
    | none =>
      let next := fetchLoop env event (published + 1) rest
      (FetchAction.publish saveEvent :: next.1, next.2)
  | _, Received.dataClosed :: _ => fetchComplete env event
  | _, Received.fetchError err :: _ =>
    ([], FetchOutcome.returned (some (wrap "error fetching commit batch" err)))
  | _, Received.errClosed :: _ => fetchComplete env event
  | _, Received.done :: _ => fetchComplete env event
  | _, Received.cancelled err :: _ =>
    ([], FetchOutcome.returned (some (wrap "context cancelled" err)))

/-- The method `worker.handleFetchCommitEvent(ctx, event)` on the deliveries
its `select` receives. -/
def handleFetchCommitEvent (env : FetchEnv) (event : FetchCommitEvent)
    (received : List Received) : List FetchAction × FetchOutcome :=
  let req : GetCommitsStreamRequest :=
    { RepoID := event.RepoID, RepoInfo := event.RepoInfo, Since := some event.Since,
      Until := none }
  let run := fetchLoop env event 0 received
  (FetchAction.startStream req :: run.1, run.2)

/-- What the consumer of `GetCommitsStream` receives for a trace of
`streamCommits`: the batches and the error in the order they were sent (the
channels are unbuffered and the producer is sequential), then the completion
signal the producer's deferred function sends once `streamCommits` has returned. -/
def deliveriesOf : List StreamEvent → Bool → List Received
  | [], returned => if returned then [Received.done] else []
  | StreamEvent.request _ :: rest, returned => deliveriesOf rest returned
  | StreamEvent.batch commits :: rest, returned =>
    Received.batch commits :: deliveriesOf rest returned
  | StreamEvent.error err :: rest, returned =>
    Received.fetchError err :: deliveriesOf rest returned

/-- The deliveries of a run of `streamCommits` (its trace, and whether it returned). -/
def deliveries (run : List StreamEvent × Bool) : List Received :=
  deliveriesOf run.1 run.2

/-- The save-requests a run handed to `Publish`, in order. -/
def publishCalls : List FetchAction → List SaveCommitEvent
  | [] => []
  | FetchAction.publish event :: rest => event :: publishCalls rest
  | _ :: rest => publishCalls rest

/-- The status updates a run made, in order. -/
def statusUpdates : List FetchAction → List (String × String × Option String)
  | [] => []
  | FetchAction.updateStatus taskID status errMsg :: rest =>
    (taskID, status, errMsg) :: statusUpdates rest
  | _ :: rest => statusUpdates rest

/-- A delivery that ends the stream without an error: `DoneChan`, or one of
the data and error channels found closed. -/
def Received.isEnd : Received → Bool
  | Received.done => true
  | Received.dataClosed => true
  | Received.errClosed => true
  | _ => false

/-! ## The task store (`internal/db/store/tasks.go`) -/

structure Task where
  ID : String
  RepositoryID : String
  RepoName : String
  RepoOwner : String
  Status : String
  CompletedAt : Option Time
  ErrorMessage : String
  CreatedAt : Time
  UpdatedAt : Option Time
  deriving DecidableEq, Repr

/-- The sentinel `gorm.ErrRecordNotFound`. -/
def gormErrRecordNotFound : GoError := plain "record not found"

/-- The `Updates(updates)` statement of `taskStore.UpdateStatus` on one row;
`updatedAt` and `completedAt` are the two readings of `time.Now()`. -/
def setTaskStatus (taskID status : String) (errMsg : Option String)
    (updatedAt completedAt : Time) (t : Task) : Task :=
  if t.ID == taskID then
    { t with
      Status := status,
      UpdatedAt := some updatedAt,
      ErrorMessage := match errMsg with
        | some msg => msg
        | none => t.ErrorMessage,
      CompletedAt := if status == TaskStatusCompleted then some completedAt
        else t.CompletedAt }
  else t

/-- The method `taskStore.UpdateStatus(ctx, taskID, status, errMsg)` on the
task table; `dbErr` is the error of the `UPDATE` statement, if it fails. -/
def taskStore_UpdateStatus (dbErr : Option GoError) (updatedAt completedAt : Time)
    (tasks : List Task) (taskID status : String) (errMsg : Option String) :
    List Task × Option GoError :=
  match dbErr with
  | some err => (tasks, some (wrap "failed to update task status" err))
  | none =>
    let rowsAffected := (tasks.filter (fun t => t.ID == taskID)).length
    let rows := tasks.map (setTaskStatus taskID status errMsg updatedAt completedAt)
    if rowsAffected == 0 then (rows, some gormErrRecordNotFound) else (rows, none)

/-- The column `status` of the task row with the given id (`none`: no such row). -/
def taskStatus (tasks : List Task) (taskID : String) : Option String :=
  (tasks.find? (fun t => t.ID == taskID)).map (fun t => t.Status)

/-- The method `worker.handleFetchCommitEvent` with the task table behind its
task service: `task.service.UpdateStatus` forwards to `taskStore.UpdateStatus`.
The handler calls it at most once and changes no task before that call, so what
the call returns is what the store returns on the table as the run found it.
`dbErr` is the error of the `UPDATE` statement, if it fails.  The result is the
task table after the run, the actions of the run and its outcome. -/
def handleFetchCommitEventOn (publishErr : Nat → Option GoError) (dbErr : Option GoError)
    (updatedAt completedAt : Time) (tasks : List Task) (event : FetchCommitEvent)
    (received : List Received) : List Task × List FetchAction × FetchOutcome :=
  let env : FetchEnv :=
    { publishErr := publishErr,
      updateErr := (taskStore_UpdateStatus dbErr updatedAt completedAt tasks event.TaskID
        TaskStatusCompleted none).2 }
  let run := handleFetchCommitEvent env event received
  ((statusUpdates run.1).foldl
      (fun rows u => (taskStore_UpdateStatus dbErr updatedAt completedAt rows u.1 u.2.1 u.2.2).1)
      tasks,
    run.1, run.2)

/-! ## The task service (`internal/domain/services/task/tasks.go`) and its world -/

/-- The state the services act on: the database tables, the task table, the
fetch-requests published on the bus so far, the calls made to the remote API,
and the number of tasks the task service has tried to create (`handled`, which
indexes the answers of the outside world). -/
structure World where
  db : DB
  tasks : List Task
  published : List FetchCommitEvent
  remoteCalls : List RepoInfo
  handled : Nat
  deriving DecidableEq, Repr

/-- The outside world of the services.  For the `k`-th call of `handleTask`:
the UUID drawn, the clock reading, the error of `taskStore.Create` and the
error of `publisher.Publish` (`none`: the call succeeds).  For the repository
store: the errors of the `List`, `First`, `Count` and `Create` statements.  For
the GitHub service: the answer of `client.GetRepository`, the UUID drawn and the
clock reading of `mapToRepository`. -/
structure ServiceEnv where
  newTaskID : Nat → String
  taskNow : Nat → Time
  taskCreateErr : Nat → Option GoError
  publishErr : Nat → Option GoError
  listErr : Option GoError
  getErr : Option GoError
  checkErr : Option GoError
  repoCreateErr : Option GoError
  remote : RepoInfo → dto.GitHubRepositoryResponse × Option GoError
  newRepoID : String
  repoNow : Time

/-- The task `handleTask` builds for its `k`-th call. -/
def newTask (env : ServiceEnv) (k : Nat) (repo : Repository) : Task :=
  { ID := "task-" ++ env.newTaskID k,
    RepoName := repo.Name,
    RepositoryID := repo.ID,
    RepoOwner := repo.Owner,
    Status := TaskStatusPending,
    CreatedAt := env.taskNow k,
    CompletedAt := none, ErrorMessage := "", UpdatedAt := none }

/-- The fetch-request `handleTask` builds for its `k`-th call. -/
def newFetchRequest (env : ServiceEnv) (k : Nat) (repo : Repository) (since : Option Time) :
    FetchCommitEvent :=
  { TaskID := (newTask env k repo).ID,
    RepoInfo := { Owner := repo.Owner, Name := repo.Name },
    RepoID := repo.ID,
    Since := match since with
      | some t => t
      | none => repo.CommitTrackingStartTime }

/-- The method `task.service.handleTask(ctx, repo, since)`: the world after
the call, the returned task id and the returned error. -/
def handleTask (env : ServiceEnv) (w : World) (repo : Repository) (since : Option Time) :
    World × String × Option GoError :=
  let k := w.handled
  match env.taskCreateErr k with
  | some _ => ({ w with handled := k + 1 }, "", some (plain "failed to create task"))
  | none =>
    let w1 : World := { w with tasks := w.tasks ++ [newTask env k repo], handled := k + 1 }
    match env.publishErr k with
    | some _ => (w1, "", some (plain "failed to publish event"))
    | none =>
      ({ w1 with published := w1.published ++ [newFetchRequest env k repo since] },
        (newTask env k repo).ID, none)

/-- The loop `for _, repo := range activeRepos` of `StartTasks`. -/
def startLoop (env : ServiceEnv) : World → List Repository → World × Option GoError
  | w, [] => (w, none)
  | w, repo :: rest =>
    if !repo.IsActive then startLoop env w rest
    else
      match handleTask env w repo repo.LastFetchedCommitTime with
      | (w1, _, some err) => (w1, some (wrap "error starting task" err))
      | (w1, _, none) => startLoop env w1 rest

/-- The method `task.service.StartTasks(ctx)`; `repoStore.List` returns every
repository row. -/
def StartTasks (env : ServiceEnv) (w : World) : World × Option GoError :=
  match env.listErr with
  | some err => (w, some (wrap "error retrieving active repos" err))
  | none => startLoop env w w.db.repositories

/-- The method `repoStore.Get(ctx, RepoInfo)`. -/
def repoStore_Get (env : ServiceEnv) (db : DB) (info : RepoInfo) : Except GoError Repository :=
  match env.getErr with
  | some err => .error err
  | none =>
    match db.repositories.find? (repoMatches info) with
    | some repo => .ok repo
    | none => .error ErrRepositoryNotFound

/-- The method `task.service.TriggerTask(ctx, RepoInfo, since)`. -/
def TriggerTask (env : ServiceEnv) (w : World) (info : RepoInfo) (since : Option Time) :
    World × String × Option GoError :=
  match repoStore_Get env w.db info with
  | .error err => (w, "", some (wrap "error retrieving active repos" err))
  | .ok repo => handleTask env w repo since

/-! ## The repository store and service (`internal/db/store/repo.go`,
`internal/domain/services/repository/repository.go`) -/

/-- The method `repoStore.CheckExists(ctx, RepoInfo)`. -/
def repoStore_CheckExists (env : ServiceEnv) (db : DB) (info : RepoInfo) :
    Bool × Option GoError :=
  match env.checkErr with
  | some err => (false, some err)
  | none => (decide ((db.repositories.filter (repoMatches info)).length > 0), none)

/-- The sentinel `gorm.ErrDuplicatedKey`. -/
def gormErrDuplicatedKey : GoError := plain "duplicated key not allowed"

/-- The method `repoStore.Create(ctx, repo)`.  `env.repoCreateErr` is the error
of the `INSERT`, which covers a violation of the table's constraints. -/
def repoStore_Create (env : ServiceEnv) (db : DB) (repo : Repository) : DB × Option GoError :=
  match env.repoCreateErr with
  | some err =>
    if errorsIs err gormErrDuplicatedKey then (db, some ErrDuplicateRepository)
    else (db, some err)
  | none => ({ db with repositories := db.repositories ++ [repo] }, none)

/-- The function `mapToRepository(id, dto)`; `now` is `time.Now()`.  The
fields the literal leaves out (`CommitTrackingStartTime`,
`LastFetchedCommitTime`) have their zero values. -/
def mapToRepository (id : String) (now : Time) (d : dto.GitHubRepositoryResponse) :
    Repository :=
  { ID := id, RepoID := d.ID, Name := d.Name, Owner := d.Owner.Login,
    Description := d.Description, URL := d.URL, Language := d.Language,
    ForksCount := d.ForksCount, StarsCount := d.StarsCount, OpenIssues := d.OpenIssues,
    WatchersCount := d.WatchersCount, IsSyncedToStartTime := false, IsActive := true,
    LastFetchedAt := none, RepoCreatedAt := d.CreatedAt, RepoUpdatedAt := d.UpdatedAt,
    CreatedAt := now, UpdatedAt := none,
    CommitTrackingStartTime := 0, LastFetchedCommitTime := none }

/-- The zero value `models.Repository{}`. -/
def Repository.zero : Repository :=
  { ID := "", RepoID := 0, Name := "", Owner := "", Description := "", URL := "",
    Language := "", ForksCount := 0, StarsCount := 0, OpenIssues := 0, WatchersCount := 0,
    IsSyncedToStartTime := false, IsActive := false, CommitTrackingStartTime := 0,
    LastFetchedAt := none, LastFetchedCommitTime := none, RepoCreatedAt := 0,
    RepoUpdatedAt := 0, CreatedAt := 0, UpdatedAt := none }

/-- The method `github.service.GetRepository(ctx, RepoInfo)`: one call of the
remote client, recorded in the world. -/
def github_GetRepository (env : ServiceEnv) (w : World) (info : RepoInfo) :
    World × Repository × Option GoError :=
  let w1 : World := { w with remoteCalls := w.remoteCalls ++ [info] }
  match env.remote info with
  | (_, some err) => (w1, Repository.zero, some err)
  | (repo, none) => (w1, mapToRepository ("repo-" ++ env.newRepoID) env.repoNow repo, none)

/-- The method `repository.service.Create(ctx, RepoInfo, since)`: the world
after the call, the returned repository, task id and error. -/
def Create (env : ServiceEnv) (w : World) (info : RepoInfo) (since : Option Time) :
    World × Repository × String × Option GoError :=
  match repoStore_CheckExists env w.db info with
  | (_, some err) => (w, Repository.zero, "", some (wrap "error validating repo name" err))
  | (true, none) => (w, Repository.zero, "", some ErrDuplicateRepository)
  | (false, none) =>
    match github_GetRepository env w info with
    | (w1, _, some err) =>
      (w1, Repository.zero, "", some (wrap "error getting git repo from github" err))
    | (w1, fetched, none) =>
      let commitStartTrackingTime : Time :=
        match since with
        | some t => t
        | none => fetched.CreatedAt
      let newRepo : Repository :=
        { fetched with CommitTrackingStartTime := commitStartTrackingTime }
      match repoStore_Create env w1.db newRepo with
      | (_, some err) =>
        (w1, Repository.zero, "", some (wrap "error creating repository" err))
      | (db2, none) =>
        match TriggerTask env { w1 with db := db2 } info (some commitStartTrackingTime) with
        | (w3, _, some err) =>
          (w3, Repository.zero, "", some (wrap "error sending task event" err))
        | (w3, taskID, none) => (w3, newRepo, taskID, none)

/-- Failures of the statements of `repoStore.Reset`: the `DELETE`, the
`UPDATE`, and the begin or commit of the transaction. -/
structure ResetFaults where
  delete : Option GoError
  update : Option GoError
  transaction : Option GoError
  deriving DecidableEq, Repr

/-- The `Updates(updates)` statement of `Reset` on one row.  A nil
`startTime` stores NULL in `commit_tracking_start_time`, which reads back as
the zero time. -/
def resetRow (info : RepoInfo) (startTime : Option Time) (now : Time) (r : Repository) :
    Repository :=
  if repoMatches info r then
    { r with
      CommitTrackingStartTime := match startTime with
        | some t => t
        | none => 0,
      LastFetchedAt := none,
      IsSyncedToStartTime := false,
      UpdatedAt := some now }
  else r

/-- The method `repoStore.Reset(ctx, RepoInfo, startTime)`: one transaction
that deletes the repository's commits and resets its row; it is rolled back
when a statement fails. -/
def repoStore_Reset (faults : ResetFaults) (now : Time) (db : DB) (info : RepoInfo)
    (startTime : Option Time) : DB × Option GoError :=
  match faults.delete with
  | some err => (db, some (wrap "failed to reset repository" err))
  | none =>
    match faults.update with
    | some err => (db, some (wrap "failed to reset repository" err))
    | none =>
      match faults.transaction with
      | some err => (db, some (wrap "failed to reset repository" err))
      | none =>
        ({ repositories := db.repositories.map (resetRow info startTime now),
           commits := db.commits.filter (fun c => !commitOf info c) }, none)

/-- The method `repository.service.CheckExists(ctx, RepoInfo)`. -/
def service_CheckExists (env : ServiceEnv) (db : DB) (info : RepoInfo) : Option GoError :=
  match repoStore_CheckExists env db info with
  | (_, some err) => some (wrap "error validating repo name" err)
  | (false, none) => some ErrTrackedRepositoryNotFound
  | (true, none) => none

/-- The method `repository.service.Reset(ctx, RepoInfo, since)`. -/
def Reset (env : ServiceEnv) (faults : ResetFaults) (now : Time) (w : World) (info : RepoInfo)
    (since : Option Time) : World × String × Option GoError :=
  match service_CheckExists env w.db info with
  | some err => (w, "", some (wrap "error validating repo name" err))
  | none =>
    match repoStore_Reset faults now w.db info since with
    | (_, some err) => (w, "", some (wrap "error resetting repository" err))
    | (db1, none) =>
      match TriggerTask env { w with db := db1 } info since with
      | (w2, _, some err) => (w2, "", some (wrap "error sending task event" err))
      | (w2, taskID, none) => (w2, taskID, none)

/-- The column `last_fetched_at` of the repository row addressed by `info`. -/
def lastFetchedAt (db : DB) (info : RepoInfo) : Option Time :=
  match db.repositories.find? (repoMatches info) with
  | some r => r.LastFetchedAt
  | none => none

/-- The repositories a sweep triggers: the active rows, in order. -/
def activeRepos (repos : List Repository) : List Repository :=
  repos.filter (fun r => r.IsActive)

/-- The tasks and fetch-requests of a sweep over the given repositories when
the first one is handled as call number `k`: one task and one request per
repository, in order. -/
def sweepTasks (env : ServiceEnv) : Nat → List Repository → List Task
  | _, [] => []
  | k, repo :: rest => newTask env k repo :: sweepTasks env (k + 1) rest

def sweepRequests (env : ServiceEnv) : Nat → List Repository → List FetchCommitEvent
  | _, [] => []
  | k, repo :: rest =>
    newFetchRequest env k repo repo.LastFetchedCommitTime :: sweepRequests env (k + 1) rest

/-! ## Reading a task (`internal/db/store/tasks.go`) -/

/-- The zero value `models.Task{}`. -/
def Task.zero : Task :=
  { ID := "", RepositoryID := "", RepoName := "", RepoOwner := "", Status := "",
    CompletedAt := none, ErrorMessage := "", CreatedAt := 0, UpdatedAt := none }

/-- The method `taskStore.Get(ctx, taskID)` on the task table
(`task.service.GetTask` forwards to it unchanged).  `dbErr` is the error of the
`SELECT` statement, if it fails; `First` reports `gorm.ErrRecordNotFound` when
no row has the id. -/
def taskStore_Get (dbErr : Option GoError) (tasks : List Task) (taskID : String) :
    Task × Option GoError :=
  let first : Except GoError Task :=
    match dbErr with
    | some err => .error err
    | none =>
      match tasks.find? (fun t => t.ID == taskID) with
      | some task => .ok task
      | none => .error gormErrRecordNotFound
  match first with
  | .error err =>
    if errorsIs err gormErrRecordNotFound then (Task.zero, some (wrap "task not found" err))
    else (Task.zero, some err)
  | .ok task => (task, none)

/-! ## The API boundary (`internal/http/errors/errors.go`) -/

structure HTTPError where
  Status : String
  ErrCode : String
  Message : String
  DetailedError : String
  deriving DecidableEq, Repr

/-- The zero value `HTTPError{}`. -/
def HTTPError.zero : HTTPError :=
  { Status := "", ErrCode := "", Message := "", DetailedError := "" }

/-- The function `NewHTTPError(errCode, message, detail...)`. -/
def NewHTTPError (errCode message : String) (detail : List String) : HTTPError :=
  { Status := "error", ErrCode := errCode, Message := message,
    DetailedError := match detail with
      | d :: _ => d
      | [] => "" }

/-- Go `errors.As(err, &de)` for `de` of type `DomainError`: the code and the
message of the first `DomainError` on the chain.  The chain is followed
through `Unwrap`, which only `fmt.Errorf` wrappers have; `DomainError` and
`BatchError` do not unwrap. -/
def GoError.errorsAs : GoError → Option (String × String)
  | plain _ => none
  | wrap _ err => errorsAs err
  | domain code message => some (code, message)
  | domainWith code message _ => some (code, message)
  | batch _ _ => none

/-- The function `MapError(err)`: the HTTP status and the response body. -/
def MapError (err : Option GoError) : Nat × HTTPError :=
  match err with
  | none => (200, HTTPError.zero)
  | some e =>
    match e.errorsAs with
    | some (code, message) =>
      if code = "RepositoryNotFound" ∨ code = "TrackedRepositoryNotFound" ∨
          code = "JobNotFound" then (404, NewHTTPError code message [])
      else if code = "DuplicateRepository" then (409, NewHTTPError code message [])
      else if code = "Unauthorized" then (401, NewHTTPError code message [])
      else if code = "RateLimitExceeded" then (429, NewHTTPError code message [])
      else if code = "InvalidResponse" then (502, NewHTTPError code message [])
      else if code = "InternalServer" then (500, NewHTTPError code message [])
      else (500, NewHTTPError "InternalServer" "internal server error" [])
    | none => (500, NewHTTPError "InternalServer" "internal server error" [])

/-- The response of `Handler.GetTask` when the lookup fails or the id is
empty: the status and the error body (`none` when the task is returned with
status 200). -/
def Handler_GetTask (dbErr : Option GoError) (tasks : List Task) (taskID : String) :
    Nat × Option HTTPError :=
  if taskID = "" then
    (400, some (NewHTTPError "InputValidation" "Input validation failed: task id is required" []))
  else
    match taskStore_Get dbErr tasks taskID with
    | (_, some err) => ((MapError (some err)).1, some (MapError (some err)).2)
    | (_, none) => (200, none)

/-! ## The subscription loop (`pkg/eventbus/simplemq.go`, `pkg/eventbus/rabbitmq.go`) -/

/-- What one turn of the `select` in the consumer goroutine of `Subscribe`
receives: a message from the channel, the closing of the channel (`ok` is
false), or `ctx.Done()`. -/
inductive Delivery where
  | message (body : String)
  | closed
  | done
  deriving DecidableEq, Repr

/-- The consumer goroutine so far: the bodies the handler was called with,
oldest first, the errors logged, and whether the goroutine has returned
(`false`: it is blocked in `select`). -/
structure Consumer where
  calls : List String
  logged : List GoError
  returned : Bool
  deriving DecidableEq, Repr

/-- The consumer goroutine `go func() { for { select { ... } } }()` of
`InMemoryEventBus.Subscribe` on the sequence of things its `select` receives.
The goroutine of `RabbitMQEventBus.Subscribe` is the same loop over the
deliveries of `Consume`, which is called with `autoAck` set.  `handler k body`
is what the handler returns on its `k`-th call (from 0). -/
def consume (handler : Nat → String → Option GoError) :
    List Delivery → List String → List GoError → Consumer
  | [], calls, logged => { calls := calls, logged := logged, returned := false }
  | .done :: _, calls, logged => { calls := calls, logged := logged, returned := true }
  | .closed :: _, calls, logged => { calls := calls, logged := logged, returned := true }
  | .message body :: rest, calls, logged =>
    match handler calls.length body with
    | some err => consume handler rest (calls ++ [body]) (logged ++ [err])
    | none => consume handler rest (calls ++ [body]) logged

/-- The errors a handler returns on the given messages when the first of them
is its `k`-th call. -/
def handlerErrors (handler : Nat → String → Option GoError) : Nat → List String → List GoError
  | _, [] => []
  | k, body :: rest =>
    match handler k body with
    | some err => err :: handlerErrors handler (k + 1) rest
    | none => handlerErrors handler (k + 1) rest

/-- The receive `<-ch` of the consumer on the `i`-th channel of a slice: the
oldest body leaves the queue. -/
def receiveAt : Nat → List Chan → List Chan
  | _, [] => []
  | 0, ch :: rest => { queue := ch.queue.tail } :: rest
  | i + 1, ch :: rest => ch :: receiveAt i rest

/-- One operation on the bus: a `Publish` (with `ctx.Err()` and the outcome
of `json.Marshal`), a `Subscribe`, or a receive by the consumer of the `i`-th
channel of a topic. -/
inductive BusStep where
  | publish (ctxErr : Option GoError) (topic : String) (marshalled : Except GoError String)
  | subscribe (handlerNil : Bool) (topic : String)
  | receive (topic : String) (i : Nat)

/-- The bus after one operation. -/
def InMemoryEventBus.step (bus : InMemoryEventBus) : BusStep → InMemoryEventBus
  | .publish ctxErr topic marshalled => (bus.Publish (fun m => m) ctxErr topic marshalled).1
  | .subscribe handlerNil topic => (bus.Subscribe handlerNil topic).1
  | .receive topic i =>
    match bus.load topic with
    | some chs => bus.store topic (receiveAt i chs)
    | none => bus

/-- The bus after a sequence of operations. -/
def InMemoryEventBus.run (bus : InMemoryEventBus) (steps : List BusStep) : InMemoryEventBus :=
  steps.foldl InMemoryEventBus.step bus

/-- Every queue of the bus holds at most `bufferSize` bodies. -/
def InMemoryEventBus.bounded (bus : InMemoryEventBus) : Prop :=
  ∀ kv ∈ bus.subscribers, ∀ ch ∈ kv.2, ch.queue.length ≤ bus.bufferSize

/-! ## The scheduler (`internal/scheduler/scheduler.go`) -/

/-- What one turn of the `select` in `Start` receives: `ctx.Done()` or a tick
of the ticker. -/
inductive Wakeup where
  | done
  | tick
  deriving DecidableEq, Repr

/-- A run of `Start` so far: the state the sweeps act on, the number of calls
of `StartTasks`, the errors logged, and whether `Start` has returned (`false`:
it is blocked in `select`). -/
structure SchedulerRun (σ : Type) where
  state : σ
  sweeps : Nat
  logged : List GoError
  returned : Bool

/-- The loop `for { select { ... } }` of `Start` on the sequence of things its
`select` receives; `startTasks` is `s.tasksService.StartTasks`. -/
def schedulerLoop {σ : Type} (startTasks : σ → σ × Option GoError) :
    List Wakeup → σ → Nat → List GoError → SchedulerRun σ
  | [], s, sweeps, logged => { state := s, sweeps := sweeps, logged := logged, returned := false }
  | .done :: _, s, sweeps, logged =>
    { state := s, sweeps := sweeps, logged := logged, returned := true }
  | .tick :: rest, s, sweeps, logged =>
    match startTasks s with
    | (s1, some err) => schedulerLoop startTasks rest s1 (sweeps + 1) (logged ++ [err])
    | (s1, none) => schedulerLoop startTasks rest s1 (sweeps + 1) logged

/-- The method `scheduler.service.Start(ctx)`: one call of `StartTasks`, then
the loop. -/
def scheduler_Start {σ : Type} (startTasks : σ → σ × Option GoError) (s : σ)
    (wakeups : List Wakeup) : SchedulerRun σ :=
  match startTasks s with
  | (s1, some err) => schedulerLoop startTasks wakeups s1 1 [err]
  | (s1, none) => schedulerLoop startTasks wakeups s1 1 []

/-- The errors `n` consecutive calls of `StartTasks` return, the first of
them on the state `s`. -/
def sweepErrors {σ : Type} (startTasks : σ → σ × Option GoError) : Nat → σ → List GoError
  | 0, _ => []
  | n + 1, s =>
    match startTasks s with
    | (s1, some err) => err :: sweepErrors startTasks n s1
    | (s1, none) => sweepErrors startTasks n s1

/-! ## Listing commits (`internal/db/store/commits.go`) -/

/-- The request `models.PaginationReq`. -/
structure PaginationReq where
  Cursor : String
  Limit : Int
  deriving DecidableEq, Repr

/-- The number `n` in decimal, padded with zeros on the left to `width` digits. -/
def zeroPad (width n : Nat) : String :=
  String.mk (List.replicate (width - (toString n).length) '0') ++ toString n

/-- The civil date (year, month, day) of the day that starts `days` days after
January 1 of year 1, in the Gregorian calendar of package `time`. -/
def civilDate (days : Nat) : Nat × Nat × Nat :=
  let z := days + 306
  let era := z / 146097
  let doe := z % 146097
  let yoe := (doe - doe / 1460 + doe / 36524 - doe / 146096) / 365
  let doy := doe - (365 * yoe + yoe / 4 - yoe / 100)
  let mp := (5 * doy + 2) / 153
  let day := doy - (153 * mp + 2) / 5 + 1
  let month := if mp < 10 then mp + 3 else mp - 9
  let year := yoe + era * 400 + (if month ≤ 2 then 1 else 0)
  (year, month, day)

/-- The layout `2006-01-02` of a time in UTC; a tick is a second and `0` is
the zero time, January 1 of year 1, 00:00:00 UTC. -/
def dateText (t : Time) : String :=
  let d := civilDate (t.toNat / 86400)
  zeroPad 4 d.1 ++ "-" ++ zeroPad 2 d.2.1 ++ "-" ++ zeroPad 2 d.2.2

/-- The layout `15:04:05` of a time in UTC. -/
def clockText (t : Time) : String :=
  let s := t.toNat % 86400
  zeroPad 2 (s / 3600) ++ ":" ++ zeroPad 2 (s % 3600 / 60) ++ ":" ++ zeroPad 2 (s % 60)

/-- The call `t.Format(time.RFC3339)` for a time in UTC. -/
def formatRFC3339 (t : Time) : String := dateText t ++ "T" ++ clockText t ++ "Z"

/-- The call `t.String()` for a time in UTC without a monotonic clock reading:
the text the SQLite driver writes for a `time.Time` argument unless it is
configured otherwise. -/
def timeString (t : Time) : String := dateText t ++ " " ++ clockText t ++ " +0000 UTC"

/-- The comparison `a < b` of two text values in SQLite: character by
character, a proper prefix being smaller. -/
def textLess (a b : String) : Bool := decide (a.data < b.data)

/-- The order `ORDER BY date DESC` on the stored text of the column: `a` may
come before `b`.  `written t` is the text the driver stored for the time `t`. -/
def newerFirst (written : Time → String) (a b : Commit) : Prop :=
  textLess (written a.Date) (written b.Date) = false

instance (written : Time → String) : DecidableRel (newerFirst written) :=
  fun a b => inferInstanceAs (Decidable (textLess (written a.Date) (written b.Date) = false))

/-- The clause `Limit(n)` of GORM: the first `n` rows, and no `LIMIT` clause
for a negative `n`. -/
def gormLimit (limit : Int) (rows : List Commit) : List Commit :=
  if limit < 0 then rows else rows.take limit.toNat

/-- The method `commitStore.List(ctx, RepoInfo, pagination)`
(`commit.service.List` forwards to it unchanged): the page, the next cursor
and the returned error.  `listErr` is the error of the `SELECT`, if it fails.
The column `date` holds a text, `written t` for a commit dated `t`, and the
cursor is bound as a text, so `date < ?` compares two texts; rows of equal
`date`, whose order the query leaves open, keep their insertion order. -/
def commitStore_List (listErr : Option GoError) (written : Time → String) (db : DB)
    (info : RepoInfo) (pagination : PaginationReq) : List Commit × String × Option GoError :=
  match listErr with
  | some err => ([], "", some (wrap "failed to fetch commits" err))
  | none =>
    let ordered := (db.commits.filter (commitOf info)).insertionSort (newerFirst written)
    let rows :=
      if pagination.Cursor != "" then
        ordered.filter (fun c => textLess (written c.Date) pagination.Cursor)
      else ordered
    let commits := gormLimit pagination.Limit rows
    let nextCursor :=
      match commits.getLast? with
      | some last => formatRFC3339 last.Date
      | none => ""
    (commits, nextCursor, none)

/-- A client that pages through a repository: it calls `List` with the given
cursor, keeps the page, and calls again with the returned cursor until a page
is empty.  `fuel` bounds the number of calls. -/
def listAll (written : Time → String) (db : DB) (info : RepoInfo) (limit : Int) :
    Nat → String → List (List Commit)
  | 0, _ => []
  | fuel + 1, cursor =>
    match commitStore_List none written db info { Cursor := cursor, Limit := limit } with
    | ([], _, _) => []
    | (page, next, _) => page :: listAll written db info limit fuel next

/-- The error set named for the remote client: `err` matches one of
`ErrRepositoryNotFound`, `ErrUnauthorized`, `ErrRateLimitExceeded`,
`ErrInternalServer`, `ErrInvalidResponse` under `errors.Is`. -/
def matchesClientError (err : GoError) : Bool :=
  errorsIs err ErrRepositoryNotFound || errorsIs err ErrUnauthorized ||
    errorsIs err ErrRateLimitExceeded || errorsIs err ErrInternalServer ||
    errorsIs err ErrInvalidResponse

/-- The status codes `client.do` has a case for. -/
def handledStatusCodes : List Nat := [200, 404, 401, 403, 500]

/-! ## Sample data -/

/-- A tracked repository row with the given cursor. -/
def trackedRepo (owner name : String) (lastFetchedCommitTime : Option Time) : Repository :=
  { ID := "repo-1", RepoID := 1, Name := name, Owner := owner, Description := "", URL := "",
    Language := "Go", ForksCount := 0, StarsCount := 0, OpenIssues := 0, WatchersCount := 0,
    IsSyncedToStartTime := false, IsActive := true, CommitTrackingStartTime := 1,
    LastFetchedAt := none, LastFetchedCommitTime := lastFetchedCommitTime,
    RepoCreatedAt := 1, RepoUpdatedAt := 1, CreatedAt := 2, UpdatedAt := none }

/-- A commit of the given repository with the given SHA and date. -/
def commitAt (owner name sha : String) (date : Time) : Commit :=
  { ID := "commit-" ++ sha, SHA := sha, RepositoryID := "repo-1", RepoName := name,
    RepoOwner := owner, Message := "", Author := "", AuthorEmail := "", Date := date,
    URL := "", CreatedAt := 3, UpdatedAt := none }

def octoDemo : RepoInfo := { Name := "demo", Owner := "octo" }

/-- A save-request for octo/demo carrying the given commits. -/
def saveRequest (commits : List Commit) : SaveCommitEvent :=
  { RepoInfo := octoDemo, TaskID := "task-1", Commits := commits }

/-- One item of a commit page. -/
def commitItem (sha : String) (date : Time) : dto.GitHubCommitResponse :=
  { SHA := sha,
    Commit :=
      { Message := "Fix bug in authentication module",
        Author := { Name := "John Doe", Email := "john@example.com", Date := date } },
    HTMLURL := "https://github.com/octocat/Hello-World/commit/" }

/-- A client with the default retry count whose URLs are accepted. -/
def defaultClient : client := { retryCount := 3, newRequestErr := none }

/-- A remote that answers 403 to the first two requests and then 200 with one commit. -/
def rateLimitedTwice (_ : CommitsQuery) (attempt : Nat) :
    HTTPOutcome (List dto.GitHubCommitResponse) :=
  if attempt < 2 then .response 403 none else .response 200 (some [commitItem "6dcb09b" 12])

/-- A remote that answers every request with the given status and an undecodable body. -/
def alwaysStatus {α : Type} (statusCode : Nat) (_ : Nat) : HTTPOutcome α :=
  .response statusCode none

/-- A remote whose every commit page is empty, and a context that is never cancelled. -/
def emptyRemote : StreamEnv :=
  { cancelled := fun _ => false,
    GetCommits := fun _ => ([], none),
    newID := fun page i => toString page ++ "-" ++ toString i,
    now := fun _ _ => 100 }

/-- A remote with three commits since the bound, served in pages of the
requested size, and a context that is never cancelled. -/
def threeCommits : StreamEnv :=
  { cancelled := fun _ => false,
    GetCommits := fun call =>
      (([commitItem "c3" 30, commitItem "c2" 20, commitItem "c1" 10].drop
          ((call.page - 1) * call.batchSize.toNat)).take call.batchSize.toNat, none),
    newID := fun page i => toString page ++ "-" ++ toString i,
    now := fun _ _ => 100 }

/-- A fetch-request for octo/demo. -/
def fetchRequest : FetchCommitEvent :=
  { RepoInfo := octoDemo, TaskID := "task-1", RepoID := "repo-1", Since := 5 }

/-- An event bus and a task service that accept every call. -/
def busOK : FetchEnv := { publishErr := fun _ => none, updateErr := none }

/-- An event bus whose `i`-th `Publish` (from 0) fails. -/
def busFailsAt (i : Nat) : FetchEnv :=
  { publishErr := fun n => if n = i then some (plain "channel is not initialized") else none,
    updateErr := none }

/-- A remote whose first page is full and whose second page fails with
`ErrInternalServer` after the client's retries are exhausted. -/
def page2Fails : StreamEnv :=
  { cancelled := fun _ => false,
    GetCommits := fun call =>
      if call.page = 1 then ([commitItem "c3" 30, commitItem "c2" 20], none)
      else ([], some (wrap "request failed after 3 retries" ErrInternalServer)),
    newID := fun page i => toString page ++ "-" ++ toString i,
    now := fun _ _ => 100 }

/-- An outside world in which every call succeeds; GitHub reports octo/demo as
created at time 100 and the clock of `mapToRepository` reads 500. -/
def calmEnv : ServiceEnv :=
  { newTaskID := fun k => toString k,
    taskNow := fun k => 600 + k,
    taskCreateErr := fun _ => none,
    publishErr := fun _ => none,
    listErr := none, getErr := none, checkErr := none, repoCreateErr := none,
    remote := fun info =>
      ({ ID := 1296269, Owner := { Login := info.Owner }, Name := info.Name,
         Description := "", URL := "", Language := "Go", ForksCount := 0, StarsCount := 0,
         OpenIssues := 0, WatchersCount := 0, CreatedAt := 100, UpdatedAt := 200 }, none),
    newRepoID := "r1",
    repoNow := 500 }

/-- A world with the given repository rows and nothing else. -/
def worldOf (repositories : List Repository) : World :=
  { db := { repositories := repositories, commits := [] }, tasks := [], published := [],
    remoteCalls := [], handled := 0 }

/-- A tracked repository that has been deactivated. -/
def inactiveRepo (owner name : String) : Repository :=
  { trackedRepo owner name none with IsActive := false }

/-- A task in status pending. -/
def pendingTask (id : String) : Task :=
  { ID := id, RepositoryID := "repo-1", RepoName := "demo", RepoOwner := "octo",
    Status := TaskStatusPending, CompletedAt := none, ErrorMessage := "", CreatedAt := 600,
    UpdatedAt := none }

/-- A database that executes every statement of `Reset`. -/
def noResetFaults : ResetFaults := { delete := none, update := none, transaction := none }

/-- A database whose `INSERT` fails. -/
def insertFails : DBFaults := { noFaults with insert := some (plain "disk I/O error") }

/-- An outside world in which the publish of the `i`-th call of `handleTask`
(from 0) fails and every other call succeeds. -/
def publishFailsAt (i : Nat) : ServiceEnv :=
  { calmEnv with
    publishErr := fun k => if k = i then some (plain "channel is not initialized") else none }

/-- January 1, 2024, 00:00:00 UTC, in seconds from the zero time. -/
def newYear2024 : Time := 63839664000

/-- Three commits of octo/demo, made 10, 20 and 30 seconds into 2024. -/
def threeStored : DB :=
  { repositories := [trackedRepo "octo" "demo" none],
    commits := [commitAt "octo" "demo" "a1" (newYear2024 + 10),
      commitAt "octo" "demo" "b2" (newYear2024 + 20),
      commitAt "octo" "demo" "c3" (newYear2024 + 30)] }

/-! ## Theorems -/

/-- C1 (evaluation at the failing input): with two fetch workers subscribed on
the in-memory bus, one `Publish` of a fetch-request succeeds and enqueues the
body on both subscriber queues, two copies in total, not one. -/
theorem C1_publish_reaches_both_workers :
    (twoFetchWorkers.Publish (fun (m : String) => Except.ok m) none "fetch_commit_event" "req").2
        = none ∧
      ((twoFetchWorkers.Publish (fun (m : String) => Except.ok m) none "fetch_commit_event"
          "req").1).load "fetch_commit_event"
        = some [{ queue := ["req"] }, { queue := ["req"] }] ∧
      ((twoFetchWorkers.Publish (fun (m : String) => Except.ok m) none "fetch_commit_event"
          "req").1).copies "fetch_commit_event" "req" = 2 := by
  decide

/-! ### The commit table: insert-or-ignore -/

theorem any_key_iff (rows : List Commit) (c : Commit) :
    rows.any (fun r => commitKey r == commitKey c) = true ↔
      commitKey c ∈ rows.map commitKey := by
  simp only [List.any_eq_true, beq_iff_eq, List.mem_map]

theorem insertOrIgnore_key_mem (rows : List Commit) (c : Commit) (k : String × String × String) :
    k ∈ (insertOrIgnore rows c).map commitKey ↔ k ∈ rows.map commitKey ∨ k = commitKey c := by
  unfold insertOrIgnore
  by_cases h : rows.any (fun r => commitKey r == commitKey c) = true
  · rw [if_pos h]
    constructor
    · intro hk
      exact Or.inl hk
    · rintro (hk | hk)
      · exact hk
      · rw [hk]
        exact (any_key_iff rows c).1 h
  · rw [if_neg h]
    simp [List.mem_append]

theorem insertOrIgnore_nodup (rows : List Commit) (c : Commit)
    (h : (rows.map commitKey).Nodup) : ((insertOrIgnore rows c).map commitKey).Nodup := by
  unfold insertOrIgnore
  by_cases hc : rows.any (fun r => commitKey r == commitKey c) = true
  · rw [if_pos hc]
    exact h
  · rw [if_neg hc]
    have hnot : commitKey c ∉ rows.map commitKey := fun hm => hc ((any_key_iff rows c).2 hm)
    rw [List.map_append, List.map_singleton]
    refine List.Nodup.append h (List.nodup_singleton _) ?_
    intro k hk hk1
    rw [List.mem_singleton] at hk1
    exact hnot (hk1 ▸ hk)

theorem insertAll_key_mem (batch : List Commit) :
    ∀ (rows : List Commit) (k : String × String × String),
      k ∈ (insertAllOrIgnore rows batch).map commitKey ↔
        k ∈ rows.map commitKey ∨ k ∈ batch.map commitKey := by
  induction batch with
  | nil =>
    intro rows k
    simp [insertAllOrIgnore]
  | cons c rest ih =>
    intro rows k
    have hstep : insertAllOrIgnore rows (c :: rest) =
        insertAllOrIgnore (insertOrIgnore rows c) rest := rfl
    rw [hstep, ih, insertOrIgnore_key_mem, List.map_cons, List.mem_cons]
    tauto

theorem insertAll_nodup (batch : List Commit) :
    ∀ rows : List Commit, (rows.map commitKey).Nodup →
      ((insertAllOrIgnore rows batch).map commitKey).Nodup := by
  induction batch with
  | nil =>
    intro rows h
    exact h
  | cons c rest ih =>
    intro rows h
    exact ih (insertOrIgnore rows c) (insertOrIgnore_nodup rows c h)

theorem insertAll_absorbed (batch : List Commit) :
    ∀ rows : List Commit, (∀ c ∈ batch, commitKey c ∈ rows.map commitKey) →
      insertAllOrIgnore rows batch = rows := by
  induction batch with
  | nil =>
    intro rows _
    rfl
  | cons c rest ih =>
    intro rows h
    have hc : rows.any (fun r => commitKey r == commitKey c) = true :=
      (any_key_iff rows c).2 (h c (List.mem_cons_self c rest))
    have hstep : insertAllOrIgnore rows (c :: rest) =
        insertAllOrIgnore (insertOrIgnore rows c) rest := rfl
    have hins : insertOrIgnore rows c = rows := by
      unfold insertOrIgnore
      rw [if_pos hc]
    rw [hstep, hins]
    exact ih rows (fun d hd => h d (List.mem_cons_of_mem c hd))

theorem insertAll_idempotent (rows batch : List Commit) :
    insertAllOrIgnore (insertAllOrIgnore rows batch) batch = insertAllOrIgnore rows batch := by
  apply insertAll_absorbed
  intro c hc
  rw [insertAll_key_mem]
  exact Or.inr (List.mem_map_of_mem commitKey hc)

theorem CreateBatch_noFaults (db : DB) (batch : List Commit) (hne : batch ≠ []) :
    CreateBatch noFaults db batch =
      ({ db with commits := insertAllOrIgnore db.commits batch }, none) := by
  cases batch with
  | nil => exact absurd rfl hne
  | cons c rest => rfl

theorem CreateBatch_noFaults_fst (db : DB) (batch : List Commit) :
    (CreateBatch noFaults db batch).1 =
      { db with commits := insertAllOrIgnore db.commits batch } := by
  cases batch with
  | nil => rfl
  | cons c rest => rfl

theorem deliver_commits_key_mem (batches : List (List Commit)) :
    ∀ (db : DB) (k : String × String × String),
      k ∈ (deliver db batches).commits.map commitKey ↔
        k ∈ db.commits.map commitKey ∨ k ∈ batches.flatten.map commitKey := by
  induction batches with
  | nil =>
    intro db k
    simp [deliver]
  | cons b rest ih =>
    intro db k
    have hstep : deliver db (b :: rest) = deliver (CreateBatch noFaults db b).1 rest := rfl
    rw [hstep, ih, CreateBatch_noFaults_fst]
    simp only [insertAll_key_mem, List.flatten_cons, List.map_append, List.mem_append]
    tauto

theorem deliver_commits_nodup (batches : List (List Commit)) :
    ∀ db : DB, (db.commits.map commitKey).Nodup →
      ((deliver db batches).commits.map commitKey).Nodup := by
  induction batches with
  | nil =>
    intro db h
    exact h
  | cons b rest ih =>
    intro db h
    have hstep : deliver db (b :: rest) = deliver (CreateBatch noFaults db b).1 rest := rfl
    rw [hstep]
    apply ih
    rw [CreateBatch_noFaults_fst]
    exact insertAll_nodup b db.commits h

theorem sha_mem_iff (info : RepoInfo) (rows : List Commit) (s : String) :
    s ∈ (rows.filter (commitOf info)).map (fun c => c.SHA) ↔
      (info.Owner, info.Name, s) ∈ rows.map commitKey := by
  simp only [List.mem_map, List.mem_filter, commitOf, commitKey, Bool.and_eq_true, beq_iff_eq,
    Prod.mk.injEq]
  constructor
  · rintro ⟨c, ⟨hc, hn, ho⟩, hs⟩
    exact ⟨c, hc, ho, hn, hs⟩
  · rintro ⟨c, hc, ho, hn, hs⟩
    exact ⟨c, ⟨hc, hn, ho⟩, hs⟩

theorem shas_nodup (info : RepoInfo) (rows : List Commit) (h : (rows.map commitKey).Nodup) :
    ((rows.filter (commitOf info)).map (fun c => c.SHA)).Nodup := by
  have hsub : ((rows.filter (commitOf info)).map commitKey).Nodup :=
    List.Nodup.sublist ((List.filter_sublist rows).map commitKey) h
  have hmap : (rows.filter (commitOf info)).map commitKey =
      ((rows.filter (commitOf info)).map (fun c => c.SHA)).map
        (fun s => (info.Owner, info.Name, s)) := by
    rw [List.map_map]
    apply List.map_congr_left
    intro c hc
    have hp := (List.mem_filter.1 hc).2
    simp only [commitOf, Bool.and_eq_true, beq_iff_eq] at hp
    simp [commitKey, hp.1, hp.2]
  rw [hmap] at hsub
  exact List.Nodup.of_map _ hsub

theorem commitCount_deliver (repositories : List Repository) (batches : List (List Commit))
    (info : RepoInfo) :
    commitCount (deliver { repositories := repositories, commits := [] } batches) info =
      (distinctSHAs info batches).length := by
  have hnd := deliver_commits_nodup batches { repositories := repositories, commits := [] }
    (by simp)
  have h1 := shas_nodup info _ hnd
  have hperm : List.Perm
      (((deliver { repositories := repositories, commits := [] } batches).commits.filter
        (commitOf info)).map (fun c => c.SHA))
      (distinctSHAs info batches) := by
    unfold distinctSHAs
    rw [List.perm_ext_iff_of_nodup h1 (List.nodup_dedup _)]
    intro s
    rw [List.mem_dedup, sha_mem_iff, sha_mem_iff, deliver_commits_key_mem]
    simp
  have hlen := hperm.length_eq
  rw [List.length_map] at hlen
  exact hlen

/-- C3 (counterexample): on a database that executes its statements,
`CreateBatch` of the empty batch does not succeed: it returns
`gorm.ErrEmptySlice`, wrapped twice, and stores nothing. -/
theorem C3_CreateBatch_rejects_the_empty_batch :
    CreateBatch noFaults { repositories := [trackedRepo "octo" "demo" none], commits := [] } [] =
      ({ repositories := [trackedRepo "octo" "demo" none], commits := [] },
        some (wrap "failed to create commit batch"
          (wrap "failed to insert commits" gormErrEmptySlice))) := by
  decide

/-- C3 (amended): on a database that executes its statements, `CreateBatch`
succeeds for every store and every non-empty batch and stores the batch by
insert-or-ignore; delivering the same non-empty batch again succeeds and
leaves the store unchanged.  For the empty batch it fails with
`gorm.ErrEmptySlice` and leaves the store unchanged.  After any sequence of
deliveries to an empty commit table (failed deliveries of empty batches
included) the number of commit rows of a repository is the number of distinct
SHAs delivered for it. -/
theorem C3_CreateBatch_insert_or_ignore :
    (∀ (db : DB) (batch : List Commit), batch ≠ [] →
      CreateBatch noFaults db batch =
        ({ db with commits := insertAllOrIgnore db.commits batch }, none)) ∧
    (∀ (db : DB) (batch : List Commit), batch ≠ [] →
      CreateBatch noFaults (CreateBatch noFaults db batch).1 batch =
        ((CreateBatch noFaults db batch).1, none)) ∧
    (∀ db : DB,
      CreateBatch noFaults db [] =
        (db, some (wrap "failed to create commit batch"
          (wrap "failed to insert commits" gormErrEmptySlice)))) ∧
    (∀ (repositories : List Repository) (batches : List (List Commit)) (info : RepoInfo),
      commitCount (deliver { repositories := repositories, commits := [] } batches) info =
        (distinctSHAs info batches).length) := by
  refine ⟨CreateBatch_noFaults, fun db batch hne => ?_, fun db => rfl,
    commitCount_deliver⟩
  simp only [CreateBatch_noFaults _ _ hne, insertAll_idempotent]

/-- C3 (amended) on a batch of two commits of octo/demo, one of which is
already stored: the first delivery stores the other one, and the second
delivery succeeds and changes nothing. -/
theorem C3_CreateBatch_insert_or_ignore_witness :
    CreateBatch noFaults
        { repositories := [trackedRepo "octo" "demo" none],
          commits := [commitAt "octo" "demo" "a1" 10] }
        [commitAt "octo" "demo" "a1" 10, commitAt "octo" "demo" "b2" 20] =
      ({ repositories := [trackedRepo "octo" "demo" none],
         commits := [commitAt "octo" "demo" "a1" 10, commitAt "octo" "demo" "b2" 20] }, none) ∧
    CreateBatch noFaults
        (CreateBatch noFaults
          { repositories := [trackedRepo "octo" "demo" none],
            commits := [commitAt "octo" "demo" "a1" 10] }
          [commitAt "octo" "demo" "a1" 10, commitAt "octo" "demo" "b2" 20]).1
        [commitAt "octo" "demo" "a1" 10, commitAt "octo" "demo" "b2" 20] =
      ((CreateBatch noFaults
          { repositories := [trackedRepo "octo" "demo" none],
            commits := [commitAt "octo" "demo" "a1" 10] }
          [commitAt "octo" "demo" "a1" 10, commitAt "octo" "demo" "b2" 20]).1, none) :=
  ⟨by decide,
    C3_CreateBatch_insert_or_ignore.2.1
      { repositories := [trackedRepo "octo" "demo" none],
        commits := [commitAt "octo" "demo" "a1" 10] }
      [commitAt "octo" "demo" "a1" 10, commitAt "octo" "demo" "b2" 20] (by decide)⟩

/-- C2 (counterexample): octo/demo is tracked with no cursor and no commits; a
save-request with one commit dated 7 arrives and the `INSERT` fails.  The handler
returns the `CreateBatch` error, no commit is stored, and yet the cursor has
moved from absent to 7. -/
theorem C2_cursor_moves_although_CreateBatch_fails :
    (handleSaveCommitEvent insertFails 50 51
        { repositories := [trackedRepo "octo" "demo" none], commits := [] }
        (saveRequest [commitAt "octo" "demo" "a1" 7])).2
      = some (wrap "failed to save commits"
          (wrap "failed to create commit batch"
            (wrap "failed to insert commits" (plain "disk I/O error")))) ∧
    (handleSaveCommitEvent insertFails 50 51
        { repositories := [trackedRepo "octo" "demo" none], commits := [] }
        (saveRequest [commitAt "octo" "demo" "a1" 7])).1.commits = [] ∧
    cursor { repositories := [trackedRepo "octo" "demo" none], commits := [] } octoDemo = none ∧
    cursor (handleSaveCommitEvent insertFails 50 51
        { repositories := [trackedRepo "octo" "demo" none], commits := [] }
        (saveRequest [commitAt "octo" "demo" "a1" 7])).1 octoDemo = some 7 := by
  decide

/-- C4 (counterexample): octo/demo has cursor 10 and no commit rows (the state
a reset or a failed insert leaves); a save-request whose first commit is dated 5
is handled successfully and the cursor drops from 10 to 5. -/
theorem C4_cursor_decreases_on_empty_commit_table :
    handleStates { repositories := [trackedRepo "octo" "demo" (some 10)], commits := [] }
        [{ faults := noFaults, fetchedAt := 50, updatedAt := 51,
           event := saveRequest [commitAt "octo" "demo" "a1" 5] }]
      ≠ none ∧
    cursor { repositories := [trackedRepo "octo" "demo" (some 10)], commits := [] } octoDemo
      = some 10 ∧
    cursor (handleSaveCommitEvent noFaults 50 51
        { repositories := [trackedRepo "octo" "demo" (some 10)], commits := [] }
        (saveRequest [commitAt "octo" "demo" "a1" 5])).1 octoDemo = some 5 ∧
    ¬ cursorLE (some 10) (some 5) := by
  decide

/-- C5 (counterexample): octo/demo has cursor 10 and one stored commit dated 10;
a later run delivers a commit dated 20.  The save succeeds and stores it, the
most recent stored date becomes 20, and the cursor is still 10. -/
theorem C5_cursor_stale_when_commits_exist :
    (handleSaveCommitEvent noFaults 50 51
        { repositories := [trackedRepo "octo" "demo" (some 10)],
          commits := [commitAt "octo" "demo" "a1" 10] }
        (saveRequest [commitAt "octo" "demo" "b2" 20])).2 = none ∧
    latestCommitDate (handleSaveCommitEvent noFaults 50 51
        { repositories := [trackedRepo "octo" "demo" (some 10)],
          commits := [commitAt "octo" "demo" "a1" 10] }
        (saveRequest [commitAt "octo" "demo" "b2" 20])).1 octoDemo = some 20 ∧
    cursor (handleSaveCommitEvent noFaults 50 51
        { repositories := [trackedRepo "octo" "demo" (some 10)],
          commits := [commitAt "octo" "demo" "a1" 10] }
        (saveRequest [commitAt "octo" "demo" "b2" 20])).1 octoDemo = some 10 := by
  decide

/-! ### The save worker -/

theorem CreateBatch_fst_of_error (faults : DBFaults) (db : DB) (batch : List Commit)
    (err : GoError) (h : (CreateBatch faults db batch).2 = some err) :
    (CreateBatch faults db batch).1 = db := by
  cases batch with
  | nil => rfl
  | cons c rest =>
    unfold CreateBatch at h ⊢
    cases hi : faults.insert with
    | some e => simp [hi]
    | none =>
      cases ht : faults.transaction with
      | some e => simp [hi, ht]
      | none => simp [hi, ht] at h

theorem CreateBatch_repositories (faults : DBFaults) (db : DB) (batch : List Commit) :
    (CreateBatch faults db batch).1.repositories = db.repositories := by
  cases batch with
  | nil => rfl
  | cons c rest =>
    unfold CreateBatch
    cases faults.insert <;> cases faults.transaction <;> rfl

theorem CreateBatch_commits_of_ok (faults : DBFaults) (db : DB) (batch : List Commit)
    (h : (CreateBatch faults db batch).2 = none) :
    (CreateBatch faults db batch).1.commits = insertAllOrIgnore db.commits batch := by
  cases batch with
  | nil => simp [CreateBatch] at h
  | cons c rest =>
    unfold CreateBatch at h ⊢
    cases hi : faults.insert with
    | some e => simp [hi] at h
    | none =>
      cases ht : faults.transaction with
      | some e => simp [hi, ht] at h
      | none => simp [hi, ht]

theorem repoStore_UpdateTrackingInfo_commits (faults : DBFaults) (fetchedAt updatedAt : Time)
    (db : DB) (info : RepoInfo) (t : Time) :
    (repoStore_UpdateTrackingInfo faults fetchedAt updatedAt db info t).1.commits =
      db.commits := by
  unfold repoStore_UpdateTrackingInfo
  cases faults.count with
  | some e => rfl
  | none =>
    by_cases hc : (commitCount db info != 0) = true
    · simp [hc]
    · cases faults.update with
      | some e => simp [hc]
      | none =>
        by_cases hrows : ((db.repositories.filter (repoMatches info)).length == 0) = true
        · simp [hc, hrows]
        · simp [hc, hrows]

theorem UpdateTrackingInfo_commits (faults : DBFaults) (fetchedAt updatedAt : Time)
    (db : DB) (info : RepoInfo) (t : Time) :
    (UpdateTrackingInfo faults fetchedAt updatedAt db info t).1.commits = db.commits := by
  have h := repoStore_UpdateTrackingInfo_commits faults fetchedAt updatedAt db info t
  unfold UpdateTrackingInfo
  rcases hr : repoStore_UpdateTrackingInfo faults fetchedAt updatedAt db info t with
    ⟨db1, _ | err⟩
  · rw [hr] at h
    exact h
  · rw [hr] at h
    exact h

theorem repoStore_UpdateTrackingInfo_of_commits (faults : DBFaults)
    (fetchedAt updatedAt : Time) (db : DB) (info : RepoInfo) (t : Time)
    (hc : commitCount db info ≠ 0) :
    (repoStore_UpdateTrackingInfo faults fetchedAt updatedAt db info t).1 = db := by
  unfold repoStore_UpdateTrackingInfo
  cases faults.count with
  | some e => rfl
  | none => simp [hc]

theorem UpdateTrackingInfo_of_commits (faults : DBFaults) (fetchedAt updatedAt : Time)
    (db : DB) (info : RepoInfo) (t : Time) (hc : commitCount db info ≠ 0) :
    (UpdateTrackingInfo faults fetchedAt updatedAt db info t).1 = db := by
  have h := repoStore_UpdateTrackingInfo_of_commits faults fetchedAt updatedAt db info t hc
  unfold UpdateTrackingInfo
  rcases hr : repoStore_UpdateTrackingInfo faults fetchedAt updatedAt db info t with
    ⟨db1, _ | err⟩
  · rw [hr] at h
    exact h
  · rw [hr] at h
    exact h

theorem UpdateTrackingInfo_of_no_commits (faults : DBFaults) (fetchedAt updatedAt : Time)
    (db : DB) (info : RepoInfo) (t : Time) (hc : commitCount db info = 0)
    (hok : (UpdateTrackingInfo faults fetchedAt updatedAt db info t).2 = none) :
    (UpdateTrackingInfo faults fetchedAt updatedAt db info t).1.repositories =
        db.repositories.map (setTrackingInfo info t fetchedAt updatedAt) ∧
      (db.repositories.filter (repoMatches info)).length ≠ 0 := by
  unfold UpdateTrackingInfo repoStore_UpdateTrackingInfo at hok ⊢
  cases hcount : faults.count with
  | some e => simp [hcount] at hok
  | none =>
    cases hupd : faults.update with
    | some e => simp [hcount, hupd, hc] at hok
    | none =>
      by_cases hrows : (db.repositories.filter (repoMatches info)).length = 0
      · simp [hcount, hupd, hc, hrows] at hok
      · simp [hcount, hupd, hc, hrows]

theorem handleSaveCommitEvent_cons (faults : DBFaults) (fetchedAt updatedAt : Time) (db : DB)
    (event : SaveCommitEvent) (first : Commit) (rest : List Commit)
    (hne : event.Commits = first :: rest) :
    handleSaveCommitEvent faults fetchedAt updatedAt db event =
      match UpdateTrackingInfo faults fetchedAt updatedAt db event.RepoInfo first.Date with
      | (db1, some err) => (db1, some (wrap "failed to update repo tracking info" err))
      | (db1, none) =>
        match CreateBatch faults db1 event.Commits with
        | (db2, some err) => (db2, some (wrap "failed to save commits" err))
        | (db2, none) => (db2, none) := by
  unfold handleSaveCommitEvent
  rw [hne]

/-- C2 (amended): for a save-request with a non-empty batch the handler first
advances the cursor (`UpdateTrackingInfo` with the date of the first commit),
which never touches the commit table, and calls `CreateBatch` only when that
update succeeded.  If the update fails the handler stops with its error and no
commit is persisted.  If `CreateBatch` fails the handler returns its error and
leaves the database exactly as the update left it; in particular the database,
cursor included, is unchanged when the repository already had commit rows. -/
theorem C2_cursor_update_precedes_persistence (faults : DBFaults) (fetchedAt updatedAt : Time)
    (db : DB) (event : SaveCommitEvent) (first : Commit) (rest : List Commit)
    (hne : event.Commits = first :: rest) :
    (UpdateTrackingInfo faults fetchedAt updatedAt db event.RepoInfo first.Date).1.commits =
        db.commits ∧
    (∀ err, (UpdateTrackingInfo faults fetchedAt updatedAt db event.RepoInfo first.Date).2 =
          some err →
        handleSaveCommitEvent faults fetchedAt updatedAt db event =
          ((UpdateTrackingInfo faults fetchedAt updatedAt db event.RepoInfo first.Date).1,
            some (wrap "failed to update repo tracking info" err))) ∧
    ((UpdateTrackingInfo faults fetchedAt updatedAt db event.RepoInfo first.Date).2 = none →
        (∀ err,
          (CreateBatch faults
              (UpdateTrackingInfo faults fetchedAt updatedAt db event.RepoInfo first.Date).1
              event.Commits).2 = some err →
          handleSaveCommitEvent faults fetchedAt updatedAt db event =
            ((UpdateTrackingInfo faults fetchedAt updatedAt db event.RepoInfo first.Date).1,
              some (wrap "failed to save commits" err))) ∧
        ((CreateBatch faults
              (UpdateTrackingInfo faults fetchedAt updatedAt db event.RepoInfo first.Date).1
              event.Commits).2 = none →
          handleSaveCommitEvent faults fetchedAt updatedAt db event =
            CreateBatch faults
              (UpdateTrackingInfo faults fetchedAt updatedAt db event.RepoInfo first.Date).1
              event.Commits)) ∧
    (commitCount db event.RepoInfo ≠ 0 →
        (UpdateTrackingInfo faults fetchedAt updatedAt db event.RepoInfo first.Date).1 = db) := by
  refine ⟨UpdateTrackingInfo_commits _ _ _ _ _ _, ?_, ?_,
    UpdateTrackingInfo_of_commits _ _ _ _ _ _⟩
  · intro err herr
    rw [handleSaveCommitEvent_cons faults fetchedAt updatedAt db event first rest hne]
    rcases hr : UpdateTrackingInfo faults fetchedAt updatedAt db event.RepoInfo first.Date with
      ⟨db1, _ | e⟩
    · rw [hr] at herr
      simp at herr
    · rw [hr] at herr
      simp only [Option.some.injEq] at herr
      rw [herr]
  · intro hok
    rw [handleSaveCommitEvent_cons faults fetchedAt updatedAt db event first rest hne]
    rcases hr : UpdateTrackingInfo faults fetchedAt updatedAt db event.RepoInfo first.Date with
      ⟨db1, _ | e⟩
    · simp only
      constructor
      · intro err herr
        have hfst := CreateBatch_fst_of_error faults db1 event.Commits err herr
        rcases hc : CreateBatch faults db1 event.Commits with ⟨db2, _ | e2⟩
        · rw [hc] at herr
          simp at herr
        · rw [hc] at herr hfst
          simp only [Option.some.injEq] at herr
          simp only at hfst
          rw [herr, hfst]
      · intro hnone
        rcases hc : CreateBatch faults db1 event.Commits with ⟨db2, _ | e2⟩
        · rfl
        · rw [hc] at hnone
          simp at hnone
    · rw [hr] at hok
      simp at hok

/-- C2 (amended) at the save-request of the counterexample: the cursor update leaves the
commit table empty. -/
theorem C2_cursor_update_precedes_persistence_witness :
    (saveRequest [commitAt "octo" "demo" "a1" 7]).Commits = commitAt "octo" "demo" "a1" 7 :: [] ∧
    (UpdateTrackingInfo insertFails 50 51
        { repositories := [trackedRepo "octo" "demo" none], commits := [] }
        (saveRequest [commitAt "octo" "demo" "a1" 7]).RepoInfo
        (commitAt "octo" "demo" "a1" 7).Date).1.commits = [] :=
  ⟨rfl, (C2_cursor_update_precedes_persistence insertFails 50 51
    { repositories := [trackedRepo "octo" "demo" none], commits := [] }
    (saveRequest [commitAt "octo" "demo" "a1" 7]) (commitAt "octo" "demo" "a1" 7) [] rfl).1⟩

theorem insertOrIgnore_sublist (rows : List Commit) (c : Commit) :
    rows.Sublist (insertOrIgnore rows c) := by
  unfold insertOrIgnore
  split
  · exact List.Sublist.refl rows
  · exact List.sublist_append_left rows [c]

theorem insertAll_sublist (batch : List Commit) :
    ∀ rows : List Commit, rows.Sublist (insertAllOrIgnore rows batch) := by
  induction batch with
  | nil =>
    intro rows
    exact List.Sublist.refl rows
  | cons c rest ih =>
    intro rows
    exact (insertOrIgnore_sublist rows c).trans (ih (insertOrIgnore rows c))

theorem mem_insertAll (batch : List Commit) :
    ∀ (rows : List Commit) (c : Commit),
      c ∈ insertAllOrIgnore rows batch → c ∈ rows ∨ c ∈ batch := by
  induction batch with
  | nil =>
    intro rows c h
    exact Or.inl h
  | cons b rest ih =>
    intro rows c h
    have hstep : insertAllOrIgnore rows (b :: rest) =
        insertAllOrIgnore (insertOrIgnore rows b) rest := rfl
    rw [hstep] at h
    rcases ih (insertOrIgnore rows b) c h with h1 | h1
    · unfold insertOrIgnore at h1
      split at h1
      · exact Or.inl h1
      · rcases List.mem_append.1 h1 with h2 | h2
        · exact Or.inl h2
        · rw [List.mem_singleton] at h2
          exact Or.inr (h2 ▸ List.mem_cons_self b rest)
    · exact Or.inr (List.mem_cons_of_mem b h1)

theorem commitOf_of_key_eq (info : RepoInfo) (r c : Commit) (hk : commitKey r = commitKey c)
    (hc : commitOf info c = true) : commitOf info r = true := by
  simp only [commitKey, Prod.mk.injEq] at hk
  simp only [commitOf, Bool.and_eq_true, beq_iff_eq] at hc ⊢
  exact ⟨hk.2.1.trans hc.1, hk.1.trans hc.2⟩

theorem commitCount_insertAll_ne_zero (rows batch : List Commit) (info : RepoInfo) (c : Commit)
    (hmem : c ∈ batch) (hof : commitOf info c = true) :
    ((insertAllOrIgnore rows batch).filter (commitOf info)).length ≠ 0 := by
  have hk : commitKey c ∈ (insertAllOrIgnore rows batch).map commitKey :=
    (insertAll_key_mem batch rows (commitKey c)).2 (Or.inr (List.mem_map_of_mem commitKey hmem))
  rcases List.mem_map.1 hk with ⟨r, hr, hrk⟩
  have hrf : r ∈ (insertAllOrIgnore rows batch).filter (commitOf info) :=
    List.mem_filter.2 ⟨hr, commitOf_of_key_eq info r c hrk hof⟩
  intro hlen
  rw [List.length_eq_zero] at hlen
  rw [hlen] at hrf
  exact List.not_mem_nil r hrf

theorem cursor_congr (a b : DB) (info : RepoInfo) (h : a.repositories = b.repositories) :
    cursor a info = cursor b info := by
  unfold cursor
  rw [h]

theorem cursorLE_refl (a : Option Time) : cursorLE a a := by
  cases a with
  | none => trivial
  | some t => exact le_refl t

theorem repoMatches_setTrackingInfo (info info1 : RepoInfo) (t fetchedAt updatedAt : Time)
    (r : Repository) :
    repoMatches info (setTrackingInfo info1 t fetchedAt updatedAt r) = repoMatches info r := by
  unfold setTrackingInfo
  split <;> rfl

theorem cursor_after_update (info : RepoInfo) (t fetchedAt updatedAt : Time) :
    ∀ rows : List Repository, (rows.filter (repoMatches info)).length ≠ 0 →
      ∀ commits : List Commit,
        cursor { repositories := rows.map (setTrackingInfo info t fetchedAt updatedAt),
                 commits := commits } info = some t := by
  intro rows
  induction rows with
  | nil =>
    intro h
    simp at h
  | cons r rest ih =>
    intro h commits
    by_cases hr : repoMatches info r = true
    · unfold cursor
      simp only [List.map_cons]
      rw [List.find?_cons_of_pos _ (by rw [repoMatches_setTrackingInfo]; exact hr)]
      simp [setTrackingInfo, hr]
    · have hrest : (rest.filter (repoMatches info)).length ≠ 0 := by
        rw [List.filter_cons_of_neg hr] at h
        exact h
      have := ih hrest commits
      unfold cursor at this ⊢
      simp only [List.map_cons]
      rw [List.find?_cons_of_neg _ (by rw [repoMatches_setTrackingInfo]; exact hr)]
      exact this

/-- What a successful non-empty save does to the database. -/
theorem handleSaveCommitEvent_ok (faults : DBFaults) (fetchedAt updatedAt : Time) (db db1 : DB)
    (event : SaveCommitEvent) (first : Commit) (rest : List Commit)
    (hne : event.Commits = first :: rest)
    (hok : handleSaveCommitEvent faults fetchedAt updatedAt db event = (db1, none)) :
    (UpdateTrackingInfo faults fetchedAt updatedAt db event.RepoInfo first.Date).2 = none ∧
    db1.repositories =
      (UpdateTrackingInfo faults fetchedAt updatedAt db event.RepoInfo first.Date).1.repositories ∧
    db1.commits = insertAllOrIgnore db.commits event.Commits := by
  rw [handleSaveCommitEvent_cons faults fetchedAt updatedAt db event first rest hne] at hok
  have hcom := UpdateTrackingInfo_commits faults fetchedAt updatedAt db event.RepoInfo first.Date
  rcases hr : UpdateTrackingInfo faults fetchedAt updatedAt db event.RepoInfo first.Date with
    ⟨d1, _ | e⟩
  · rw [hr] at hok hcom
    simp only at hok hcom
    have hrep := CreateBatch_repositories faults d1 event.Commits
    rcases hc : CreateBatch faults d1 event.Commits with ⟨d2, _ | e2⟩
    · have hcc := CreateBatch_commits_of_ok faults d1 event.Commits (by rw [hc])
      rw [hc] at hok hrep hcc
      simp only [Prod.mk.injEq, and_true] at hok
      simp only at hrep hcc
      subst hok
      exact ⟨rfl, hrep, by rw [hcc, hcom]⟩
    · rw [hc] at hok
      simp at hok
  · rw [hr] at hok
    simp at hok

theorem handle_step_cursor (faults : DBFaults) (fetchedAt updatedAt : Time) (db db1 : DB)
    (event : SaveCommitEvent)
    (hfor : ∀ c ∈ event.Commits, commitOf event.RepoInfo c = true)
    (hinit : cursor db event.RepoInfo = none ∨ commitCount db event.RepoInfo ≠ 0)
    (hok : handleSaveCommitEvent faults fetchedAt updatedAt db event = (db1, none)) :
    cursorLE (cursor db event.RepoInfo) (cursor db1 event.RepoInfo) ∧
      (cursor db1 event.RepoInfo = none ∨ commitCount db1 event.RepoInfo ≠ 0) := by
  cases hcs : event.Commits with
  | nil =>
    have hsame : handleSaveCommitEvent faults fetchedAt updatedAt db event = (db, none) := by
      unfold handleSaveCommitEvent
      rw [hcs]
    rw [hsame] at hok
    simp only [Prod.mk.injEq, and_true] at hok
    subst hok
    exact ⟨cursorLE_refl _, hinit⟩
  | cons first rest =>
    obtain ⟨_, hrep, hcom⟩ :=
      handleSaveCommitEvent_ok faults fetchedAt updatedAt db db1 event first rest hcs hok
    have hcount : commitCount db1 event.RepoInfo ≠ 0 := by
      unfold commitCount
      rw [hcom]
      apply commitCount_insertAll_ne_zero db.commits event.Commits event.RepoInfo first
      · rw [hcs]
        exact List.mem_cons_self first rest
      · apply hfor
        rw [hcs]
        exact List.mem_cons_self first rest
    refine ⟨?_, Or.inr hcount⟩
    by_cases hzero : commitCount db event.RepoInfo = 0
    · rcases hinit with hnone | hpos
      · rw [hnone]
        trivial
      · exact absurd hzero hpos
    · have hdb := UpdateTrackingInfo_of_commits faults fetchedAt updatedAt db event.RepoInfo
        first.Date hzero
      rw [hdb] at hrep
      rw [cursor_congr db1 db event.RepoInfo hrep]
      exact cursorLE_refl _

theorem handleStates_head (steps : List SaveStep) :
    ∀ (db : DB) (states : List DB), handleStates db steps = some states →
      states.head? = some db := by
  cases steps with
  | nil =>
    intro db states h
    simp only [handleStates, Option.some.injEq] at h
    rw [← h]
    rfl
  | cons step rest =>
    intro db states h
    unfold handleStates at h
    rcases hr : handleSaveCommitEvent step.faults step.fetchedAt step.updatedAt db step.event with
      ⟨d1, _ | e⟩
    · rw [hr] at h
      simp only [Option.map_eq_some'] at h
      obtain ⟨tail, _, htail⟩ := h
      rw [← htail]
      rfl
    · rw [hr] at h
      simp at h

/-- C4 (amended): take a repository whose cursor is absent or which already
has commit rows (the state after tracking it, and after every successful save).
Along every sequence of successfully handled save-requests for that repository
the cursor never decreases from one database state to the next. -/
theorem C4_cursor_never_decreases (info : RepoInfo) (steps : List SaveStep) :
    ∀ (db : DB) (states : List DB),
      (∀ step ∈ steps, step.event.RepoInfo = info ∧
        ∀ c ∈ step.event.Commits, commitOf info c = true) →
      (cursor db info = none ∨ commitCount db info ≠ 0) →
      handleStates db steps = some states →
      List.Chain' (fun before after => cursorLE (cursor before info) (cursor after info))
        states := by
  induction steps with
  | nil =>
    intro db states _ _ h
    simp only [handleStates, Option.some.injEq] at h
    rw [← h]
    exact List.chain'_singleton db
  | cons step rest ih =>
    intro db states hfor hinit h
    unfold handleStates at h
    obtain ⟨hinfo, hcommits⟩ := hfor step (List.mem_cons_self step rest)
    rcases hr : handleSaveCommitEvent step.faults step.fetchedAt step.updatedAt db step.event with
      ⟨d1, _ | e⟩
    · rw [hr] at h
      simp only [Option.map_eq_some'] at h
      obtain ⟨tail, htail, hstates⟩ := h
      have hstep := handle_step_cursor step.faults step.fetchedAt step.updatedAt db d1 step.event
        (by rw [hinfo]; exact hcommits) (by rw [hinfo]; exact hinit) hr
      rw [hinfo] at hstep
      have hchain := ih d1 tail (fun s hs => hfor s (List.mem_cons_of_mem step hs)) hstep.2 htail
      have hhead := handleStates_head rest d1 tail htail
      rw [← hstates]
      apply List.Chain'.cons' hchain
      intro y hy
      rw [hhead] at hy
      simp only [Option.mem_def, Option.some.injEq] at hy
      rw [← hy]
      exact hstep.1
    · rw [hr] at h
      simp at h

/-- C4 (amended) on a freshly tracked octo/demo and one save-request whose first commit is
dated 5. -/
theorem C4_cursor_never_decreases_witness :
    List.Chain' (fun before after => cursorLE (cursor before octoDemo) (cursor after octoDemo))
      [{ repositories := [trackedRepo "octo" "demo" none], commits := [] },
       (handleSaveCommitEvent noFaults 50 51
          { repositories := [trackedRepo "octo" "demo" none], commits := [] }
          (saveRequest [commitAt "octo" "demo" "a1" 5])).1] :=
  C4_cursor_never_decreases octoDemo
    [{ faults := noFaults, fetchedAt := 50, updatedAt := 51,
       event := saveRequest [commitAt "octo" "demo" "a1" 5] }]
    { repositories := [trackedRepo "octo" "demo" none], commits := [] } _
    (by decide) (by decide) (by decide)

theorem max?_eq_of_bound (dates : List Time) (t : Time) (hmem : t ∈ dates)
    (hle : ∀ d ∈ dates, d ≤ t) : dates.max? = some t := by
  haveI : Std.Antisymm (fun a b : Int => a ≤ b) := ⟨fun h1 h2 => Int.le_antisymm h1 h2⟩
  exact (List.max?_eq_some_iff (fun a : Int => Int.le_refl a)
    (fun a b : Int => by
      rcases le_total a b with h | h
      · exact Or.inr (max_eq_right h)
      · exact Or.inl (max_eq_left h))
    (fun a b c : Int => max_le_iff)).2 ⟨hmem, hle⟩

theorem no_commit_of_count_zero (db : DB) (info : RepoInfo) (h : commitCount db info = 0)
    (c : Commit) (hc : c ∈ db.commits) : commitOf info c ≠ true := by
  intro hof
  unfold commitCount at h
  rw [List.length_eq_zero] at h
  have hmem : c ∈ db.commits.filter (commitOf info) := List.mem_filter.2 ⟨hc, hof⟩
  rw [h] at hmem
  exact List.not_mem_nil c hmem

theorem first_mem_insertAll (rows : List Commit) (info : RepoInfo) (first : Commit)
    (rest : List Commit) (hfirst : commitOf info first = true)
    (hnone : ∀ r ∈ rows, commitOf info r ≠ true) :
    first ∈ insertAllOrIgnore rows (first :: rest) := by
  have hstep : insertAllOrIgnore rows (first :: rest) =
      insertAllOrIgnore (insertOrIgnore rows first) rest := rfl
  rw [hstep]
  apply (insertAll_sublist rest (insertOrIgnore rows first)).subset
  unfold insertOrIgnore
  split
  · rename_i hany
    rw [any_key_iff] at hany
    rcases List.mem_map.1 hany with ⟨r, hr, hk⟩
    exact absurd (commitOf_of_key_eq info r first hk hfirst) (hnone r hr)
  · exact List.mem_append_right rows (List.mem_singleton_self first)

/-- C5 (amended): after a successful handling of a non-empty save-request whose
batch is ordered most-recent-first and whose commits belong to the request's
repository: if the repository had no commit rows before the batch arrived, the
cursor equals the date of the batch's first commit, and that is the most recent
date among all commit rows of the repository; if it already had commit rows,
the cursor is left as it was. -/
theorem C5_cursor_set_by_first_batch_only (faults : DBFaults) (fetchedAt updatedAt : Time)
    (db db1 : DB) (event : SaveCommitEvent) (first : Commit) (rest : List Commit)
    (hne : event.Commits = first :: rest)
    (hfor : ∀ c ∈ event.Commits, commitOf event.RepoInfo c = true)
    (hsorted : List.Pairwise (fun newer older => older.Date ≤ newer.Date) event.Commits)
    (hok : handleSaveCommitEvent faults fetchedAt updatedAt db event = (db1, none)) :
    (commitCount db event.RepoInfo = 0 →
        cursor db1 event.RepoInfo = some first.Date ∧
          latestCommitDate db1 event.RepoInfo = some first.Date) ∧
    (commitCount db event.RepoInfo ≠ 0 →
        cursor db1 event.RepoInfo = cursor db event.RepoInfo) := by
  obtain ⟨htracked, hrep, hcom⟩ :=
    handleSaveCommitEvent_ok faults fetchedAt updatedAt db db1 event first rest hne hok
  have hfirst : commitOf event.RepoInfo first = true :=
    hfor first (by rw [hne]; exact List.mem_cons_self first rest)
  constructor
  · intro hzero
    obtain ⟨hrows, hmatch⟩ := UpdateTrackingInfo_of_no_commits faults fetchedAt updatedAt db
      event.RepoInfo first.Date hzero htracked
    constructor
    · rw [cursor_congr db1
        { repositories :=
            db.repositories.map (setTrackingInfo event.RepoInfo first.Date fetchedAt updatedAt),
          commits := db1.commits } event.RepoInfo (by rw [hrep, hrows])]
      exact cursor_after_update event.RepoInfo first.Date fetchedAt updatedAt db.repositories
        hmatch db1.commits
    · unfold latestCommitDate
      apply max?_eq_of_bound
      · apply List.mem_map.2
        refine ⟨first, List.mem_filter.2 ⟨?_, hfirst⟩, rfl⟩
        rw [hcom, hne]
        exact first_mem_insertAll db.commits event.RepoInfo first rest hfirst
          (no_commit_of_count_zero db event.RepoInfo hzero)
      · intro d hd
        rcases List.mem_map.1 hd with ⟨c, hc, hdate⟩
        obtain ⟨hcmem, hcof⟩ := List.mem_filter.1 hc
        rw [hcom] at hcmem
        rcases mem_insertAll event.Commits db.commits c hcmem with hold | hnew
        · exact absurd hcof (no_commit_of_count_zero db event.RepoInfo hzero c hold)
        · rw [hne] at hnew hsorted
          rw [← hdate]
          rcases List.mem_cons.1 hnew with heq | hrest
          · rw [heq]
          · exact (List.pairwise_cons.1 hsorted).1 c hrest
  · intro hpos
    have hdb := UpdateTrackingInfo_of_commits faults fetchedAt updatedAt db event.RepoInfo
      first.Date hpos
    rw [hdb] at hrep
    exact cursor_congr db1 db event.RepoInfo hrep

/-- C5 (amended) on a freshly tracked octo/demo and a batch dated 20, 10: the cursor and the
most recent stored date are both 20. -/
theorem C5_cursor_set_by_first_batch_only_witness :
    cursor (handleSaveCommitEvent noFaults 50 51
        { repositories := [trackedRepo "octo" "demo" none], commits := [] }
        (saveRequest [commitAt "octo" "demo" "b2" 20, commitAt "octo" "demo" "a1" 10])).1
        (saveRequest [commitAt "octo" "demo" "b2" 20, commitAt "octo" "demo" "a1" 10]).RepoInfo
      = some (commitAt "octo" "demo" "b2" 20).Date ∧
    latestCommitDate (handleSaveCommitEvent noFaults 50 51
        { repositories := [trackedRepo "octo" "demo" none], commits := [] }
        (saveRequest [commitAt "octo" "demo" "b2" 20, commitAt "octo" "demo" "a1" 10])).1
        (saveRequest [commitAt "octo" "demo" "b2" 20, commitAt "octo" "demo" "a1" 10]).RepoInfo
      = some (commitAt "octo" "demo" "b2" 20).Date :=
  (C5_cursor_set_by_first_batch_only noFaults 50 51
    { repositories := [trackedRepo "octo" "demo" none], commits := [] }
    (handleSaveCommitEvent noFaults 50 51
      { repositories := [trackedRepo "octo" "demo" none], commits := [] }
      (saveRequest [commitAt "octo" "demo" "b2" 20, commitAt "octo" "demo" "a1" 10])).1
    (saveRequest [commitAt "octo" "demo" "b2" 20, commitAt "octo" "demo" "a1" 10])
    (commitAt "octo" "demo" "b2" 20) [commitAt "octo" "demo" "a1" 10]
    rfl (by decide) (by decide) (by decide)).1 (by decide)

/-! ### The GitHub client: retries -/

theorem errorsIs_refl (e : GoError) : errorsIs e e = true := by
  cases e <;> simp [errorsIs]

theorem errorsIs_wrap (msg : String) (e target : GoError) (h : errorsIs e target = true) :
    errorsIs (wrap msg e) target = true := by
  simp [errorsIs, h]

theorem sent_le_one (c : client) : c.sent ≤ 1 := by
  unfold client.sent
  cases c.newRequestErr <;> simp

theorem sent_of_accepts (c : client) (h : c.newRequestErr = none) : c.sent = 1 := by
  unfold client.sent
  rw [h]

theorem retryLoop_requests_le {α : Type} (c : client) (remote : Nat → HTTPOutcome α) :
    ∀ (remaining i requests : Nat) (lastErr : Option GoError),
      (client.retryLoop c remote remaining i requests lastErr).requests ≤
        requests + remaining := by
  intro remaining
  induction remaining with
  | zero =>
    intro i requests lastErr
    simp [client.retryLoop]
  | succ n ih =>
    intro i requests lastErr
    have hs := sent_le_one c
    unfold client.retryLoop
    cases hdo : c.doOnce (remote i) with
    | ok v =>
      simp only
      omega
    | error err =>
      simp only
      by_cases ht : IsTransient err = true
      · rw [if_pos ht]
        have := ih (i + 1) (requests + c.sent) (some err)
        omega
      · rw [if_neg ht]
        simp only
        omega

theorem retryLoop_success {α : Type} (c : client) (remote : Nat → HTTPOutcome α) (v : α) :
    ∀ (j remaining i requests : Nat) (lastErr : Option GoError),
      (∀ m, m < j → ∃ e, c.doOnce (remote (i + m)) = .error e ∧ IsTransient e = true) →
      c.doOnce (remote (i + j)) = .ok v → j < remaining →
      client.retryLoop c remote remaining i requests lastErr =
        { value := some v, err := none, requests := requests + (j + 1) * c.sent } := by
  intro j
  induction j with
  | zero =>
    intro remaining i requests lastErr _ hok hlt
    obtain ⟨n, rfl⟩ : ∃ n, remaining = n + 1 := ⟨remaining - 1, by omega⟩
    unfold client.retryLoop
    rw [Nat.add_zero] at hok
    rw [hok]
    simp
  | succ j ih =>
    intro remaining i requests lastErr htr hok hlt
    obtain ⟨n, rfl⟩ : ∃ n, remaining = n + 1 := ⟨remaining - 1, by omega⟩
    obtain ⟨e, he, het⟩ := htr 0 (Nat.succ_pos j)
    rw [Nat.add_zero] at he
    unfold client.retryLoop
    rw [he]
    simp only [het, if_true]
    rw [ih n (i + 1) (requests + c.sent) (some e)
      (fun m hm => by
        have := htr (m + 1) (by omega)
        rwa [show i + (m + 1) = i + 1 + m by omega] at this)
      (by rwa [show i + (j + 1) = i + 1 + j by omega] at hok) (by omega)]
    congr 1
    ring

theorem retryLoop_permanent {α : Type} (c : client) (remote : Nat → HTTPOutcome α)
    (e : GoError) (hperm : IsTransient e = false) :
    ∀ (j remaining i requests : Nat) (lastErr : Option GoError),
      (∀ m, m < j → ∃ e1, c.doOnce (remote (i + m)) = .error e1 ∧ IsTransient e1 = true) →
      c.doOnce (remote (i + j)) = .error e → j < remaining →
      client.retryLoop c remote remaining i requests lastErr =
        { value := none, err := some e, requests := requests + (j + 1) * c.sent } := by
  intro j
  induction j with
  | zero =>
    intro remaining i requests lastErr _ hfail hlt
    obtain ⟨n, rfl⟩ : ∃ n, remaining = n + 1 := ⟨remaining - 1, by omega⟩
    unfold client.retryLoop
    rw [Nat.add_zero] at hfail
    rw [hfail]
    simp [hperm]
  | succ j ih =>
    intro remaining i requests lastErr htr hfail hlt
    obtain ⟨n, rfl⟩ : ∃ n, remaining = n + 1 := ⟨remaining - 1, by omega⟩
    obtain ⟨e1, he, het⟩ := htr 0 (Nat.succ_pos j)
    rw [Nat.add_zero] at he
    unfold client.retryLoop
    rw [he]
    simp only [het, if_true]
    rw [ih n (i + 1) (requests + c.sent) (some e1)
      (fun m hm => by
        have := htr (m + 1) (by omega)
        rwa [show i + (m + 1) = i + 1 + m by omega] at this)
      (by rwa [show i + (j + 1) = i + 1 + j by omega] at hfail) (by omega)]
    congr 1
    ring

theorem retryLoop_exhausted {α : Type} (c : client) (remote : Nat → HTTPOutcome α) :
    ∀ (remaining i requests : Nat) (lastErr lastFailure : GoError),
      (∀ m, m < remaining → ∃ e, c.doOnce (remote (i + m)) = .error e ∧ IsTransient e = true) →
      (remaining = 0 → lastErr = lastFailure) →
      (remaining ≠ 0 → c.doOnce (remote (i + remaining - 1)) = .error lastFailure) →
      client.retryLoop c remote remaining i requests (some lastErr) =
        { value := none,
          err := some (wrap ("request failed after " ++ toString c.retryCount ++ " retries")
            lastFailure),
          requests := requests + remaining * c.sent } := by
  intro remaining
  induction remaining with
  | zero =>
    intro i requests lastErr lastFailure _ hzero _
    simp [client.retryLoop, hzero rfl]
  | succ n ih =>
    intro i requests lastErr lastFailure htr _ hlast
    obtain ⟨e, he, het⟩ := htr 0 (Nat.succ_pos n)
    rw [Nat.add_zero] at he
    unfold client.retryLoop
    rw [he]
    simp only [het, if_true]
    rw [ih (i + 1) (requests + c.sent) e lastFailure
      (fun m hm => by
        have := htr (m + 1) (by omega)
        rwa [show i + (m + 1) = i + 1 + m by omega] at this)
      (fun hn => by
        subst hn
        have h := hlast (by omega)
        rw [show i + (0 + 1) - 1 = i by omega, he] at h
        exact (Except.error.inj h))
      (fun hn => by
        have h := hlast (by omega)
        rwa [show i + (n + 1) - 1 = i + 1 + n - 1 by omega] at h)]
    congr 1
    ring

theorem doWithRetry_success {α : Type} (c : client) (remote : Nat → HTTPOutcome α) (v : α)
    (k : Nat) (hk : 1 ≤ k) (hkN : (k : Int) ≤ c.retryCount)
    (htransient : ∀ m, m + 1 < k →
      ∃ e, c.doOnce (remote m) = .error e ∧ IsTransient e = true)
    (hsuccess : c.doOnce (remote (k - 1)) = .ok v) :
    c.doWithRetry remote = { value := some v, err := none, requests := k * c.sent } := by
  unfold client.doWithRetry
  rw [retryLoop_success c remote v (k - 1) c.retryCount.toNat 0 0 none
    (fun m hm => by
      rw [Nat.zero_add]
      exact htransient m (by omega))
    (by rwa [Nat.zero_add]) (by omega)]
  rw [Nat.zero_add, Nat.sub_add_cancel hk]

theorem doWithRetry_permanent {α : Type} (c : client) (remote : Nat → HTTPOutcome α)
    (e : GoError) (k : Nat) (hk : 1 ≤ k) (hkN : (k : Int) ≤ c.retryCount)
    (htransient : ∀ m, m + 1 < k →
      ∃ e1, c.doOnce (remote m) = .error e1 ∧ IsTransient e1 = true)
    (hfail : c.doOnce (remote (k - 1)) = .error e) (hperm : IsTransient e = false) :
    c.doWithRetry remote = { value := none, err := some e, requests := k * c.sent } := by
  unfold client.doWithRetry
  rw [retryLoop_permanent c remote e hperm (k - 1) c.retryCount.toNat 0 0 none
    (fun m hm => by
      rw [Nat.zero_add]
      exact htransient m (by omega))
    (by rwa [Nat.zero_add]) (by omega)]
  rw [Nat.zero_add, Nat.sub_add_cancel hk]

theorem doWithRetry_exhausted {α : Type} (c : client) (remote : Nat → HTTPOutcome α)
    (lastFailure : GoError) (hN : 1 ≤ c.retryCount)
    (htransient : ∀ m : Nat, (m : Int) < c.retryCount →
      ∃ e, c.doOnce (remote m) = .error e ∧ IsTransient e = true)
    (hlast : c.doOnce (remote (c.retryCount.toNat - 1)) = .error lastFailure) :
    c.doWithRetry remote =
      { value := none,
        err := some (wrap ("request failed after " ++ toString c.retryCount ++ " retries")
          lastFailure),
        requests := c.retryCount.toNat * c.sent } := by
  unfold client.doWithRetry
  obtain ⟨n, hn⟩ : ∃ n, c.retryCount.toNat = n + 1 := ⟨c.retryCount.toNat - 1, by omega⟩
  obtain ⟨e0, he0, het0⟩ := htransient 0 (by omega)
  rw [hn] at hlast ⊢
  unfold client.retryLoop
  rw [he0]
  simp only [het0, if_true]
  rw [retryLoop_exhausted c remote n 1 (0 + c.sent) e0 lastFailure
    (fun m hm => by
      rw [Nat.add_comm]
      exact htransient (m + 1) (by omega))
    (fun hz => by
      subst hz
      rw [he0] at hlast
      exact Except.error.inj hlast)
    (fun _ => by
      rwa [show 1 + n - 1 = n + 1 - 1 by omega])]
  congr 1
  ring

/-- C6: let the client's requests be accepted, its retry count be `N`, and
`1 <= k <= N`.  If attempts `1 .. k-1` fail with transient errors and the
remote answers attempt `k` with 200 and a decodable page, `GetCommits` returns
that page and no error, and exactly `k` requests were sent. -/
theorem C6_GetCommits_returns_first_success (c : client)
    (remote : CommitsQuery → Nat → HTTPOutcome (List dto.GitHubCommitResponse))
    (owner repoName : String) (from_ to_ : Time) (batchSize page : Int)
    (k : Nat) (commits : List dto.GitHubCommitResponse)
    (haccept : c.newRequestErr = none)
    (hk : 1 ≤ k) (hkN : (k : Int) ≤ c.retryCount)
    (htransient : ∀ m, m + 1 < k → ∃ e,
      c.doOnce (remote (commitsQuery owner repoName from_ to_ batchSize page) m) = .error e ∧
        IsTransient e = true)
    (hsuccess : remote (commitsQuery owner repoName from_ to_ batchSize page) (k - 1) =
      .response 200 (some commits)) :
    c.GetCommits remote owner repoName from_ to_ batchSize page = (some commits, none, k) := by
  have hdo : c.doOnce (remote (commitsQuery owner repoName from_ to_ batchSize page) (k - 1)) =
      .ok commits := by
    rw [hsuccess]
    simp [client.doOnce, haccept]
  have hres := doWithRetry_success c
    (remote (commitsQuery owner repoName from_ to_ batchSize page)) commits k hk hkN
    htransient hdo
  unfold client.GetCommits
  rw [haccept]
  simp only [hres, sent_of_accepts c haccept, Nat.mul_one]

/-- C6 at retry count 3 against a remote that answers 403, 403, 200: the page of the third
response, no error, three requests. -/
theorem C6_GetCommits_returns_first_success_witness :
    defaultClient.GetCommits rateLimitedTwice "octocat" "Hello-World" 5 20 10 1 =
      (some [commitItem "6dcb09b" 12], none, 3) :=
  C6_GetCommits_returns_first_success defaultClient rateLimitedTwice "octocat" "Hello-World"
    5 20 10 1 3 [commitItem "6dcb09b" 12] rfl (by decide) (by decide)
    (fun m hm => by
      have hm2 : m < 2 := by omega
      refine ⟨ErrRateLimitExceeded, ?_, by decide⟩
      simp [rateLimitedTwice, hm2, client.doOnce, defaultClient])
    (by simp [rateLimitedTwice])

/-- C7: with retry count `N >= k >= 1`, if attempts `1 .. k-1` fail with
transient errors and attempt `k` fails with an error that is not transient,
`doWithRetry` stops there: it returns exactly that error, no value, and has
sent one request per attempt up to `k` and none afterwards.  A remote that
answers 404 (resp. 401) makes `GetRepository` return the zero repository and
`ErrRepositoryNotFound` (resp. `ErrUnauthorized`) after exactly one request. -/
theorem C7_permanent_error_is_not_retried :
    (∀ (α : Type) (c : client) (remote : Nat → HTTPOutcome α) (k : Nat) (e : GoError),
      1 ≤ k → (k : Int) ≤ c.retryCount →
      (∀ m, m + 1 < k → ∃ e1, c.doOnce (remote m) = .error e1 ∧ IsTransient e1 = true) →
      c.doOnce (remote (k - 1)) = .error e → IsTransient e = false →
      (c.doWithRetry remote).err = some e ∧ (c.doWithRetry remote).value = none ∧
        (c.doWithRetry remote).requests = k * c.sent ∧
        (c.newRequestErr = none → (c.doWithRetry remote).requests = k)) ∧
    (∀ (c : client)
        (remote : String → String → Nat → HTTPOutcome dto.GitHubRepositoryResponse)
        (owner repo : String) (body : Option dto.GitHubRepositoryResponse),
      c.newRequestErr = none → 1 ≤ c.retryCount →
      remote owner repo 0 = .response 404 body →
      c.GetRepository remote owner repo =
        (dto.GitHubRepositoryResponse.zero, some ErrRepositoryNotFound, 1)) ∧
    (∀ (c : client)
        (remote : String → String → Nat → HTTPOutcome dto.GitHubRepositoryResponse)
        (owner repo : String) (body : Option dto.GitHubRepositoryResponse),
      c.newRequestErr = none → 1 ≤ c.retryCount →
      remote owner repo 0 = .response 401 body →
      c.GetRepository remote owner repo =
        (dto.GitHubRepositoryResponse.zero, some ErrUnauthorized, 1)) := by
  refine ⟨?_, ?_, ?_⟩
  · intro α c remote k e hk hkN htr hfail hperm
    rw [doWithRetry_permanent c remote e k hk hkN htr hfail hperm]
    refine ⟨rfl, rfl, rfl, fun hacc => ?_⟩
    simp [sent_of_accepts c hacc]
  · intro c remote owner repo body hacc hN h404
    have hdo : c.doOnce (remote owner repo (1 - 1)) = .error ErrRepositoryNotFound := by
      rw [h404]
      simp [client.doOnce, hacc]
    have hres := doWithRetry_permanent c (remote owner repo) ErrRepositoryNotFound 1
      (le_refl 1) (by simpa using hN) (fun m hm => absurd hm (by omega)) hdo (by decide)
    unfold client.GetRepository
    simp only [hres, sent_of_accepts c hacc]
  · intro c remote owner repo body hacc hN h401
    have hdo : c.doOnce (remote owner repo (1 - 1)) = .error ErrUnauthorized := by
      rw [h401]
      simp [client.doOnce, hacc]
    have hres := doWithRetry_permanent c (remote owner repo) ErrUnauthorized 1
      (le_refl 1) (by simpa using hN) (fun m hm => absurd hm (by omega)) hdo (by decide)
    unfold client.GetRepository
    simp only [hres, sent_of_accepts c hacc]

/-- C7 at retry count 3 against a remote that always answers 404: one request. -/
theorem C7_permanent_error_is_not_retried_witness :
    defaultClient.GetRepository (fun _ _ => alwaysStatus 404) "octocat" "Hello-World" =
      (dto.GitHubRepositoryResponse.zero, some ErrRepositoryNotFound, 1) :=
  C7_permanent_error_is_not_retried.2.1 defaultClient (fun _ _ => alwaysStatus 404)
    "octocat" "Hello-World" none rfl (by decide) rfl

/-- C8: `doWithRetry` never sends more requests than its retry count.  With
retry count `N >= 1`, when each of the `N` attempts fails with a transient
error, it sends one request per attempt (exactly `N` when requests can be
built), returns no value, and returns the last attempt's failure wrapped with
`%w`, so `errors.Is(result, lastFailure)` holds.  `GetCommits` against a remote
that always answers 403 returns a nil page and an error that matches
`ErrRateLimitExceeded`, after exactly `N` requests. -/
theorem C8_retries_are_bounded_and_wrap_the_last_failure :
    (∀ (α : Type) (c : client) (remote : Nat → HTTPOutcome α),
      (c.doWithRetry remote).requests ≤ c.retryCount.toNat) ∧
    (∀ (α : Type) (c : client) (remote : Nat → HTTPOutcome α) (lastFailure : GoError),
      1 ≤ c.retryCount →
      (∀ m : Nat, (m : Int) < c.retryCount →
        ∃ e, c.doOnce (remote m) = .error e ∧ IsTransient e = true) →
      c.doOnce (remote (c.retryCount.toNat - 1)) = .error lastFailure →
      (c.doWithRetry remote).requests = c.retryCount.toNat * c.sent ∧
        (c.newRequestErr = none → ((c.doWithRetry remote).requests : Int) = c.retryCount) ∧
        (c.doWithRetry remote).value = none ∧
        (c.doWithRetry remote).err =
          some (wrap ("request failed after " ++ toString c.retryCount ++ " retries")
            lastFailure) ∧
        ∃ result, (c.doWithRetry remote).err = some result ∧
          errorsIs result lastFailure = true) ∧
    (∀ (c : client)
        (remote : CommitsQuery → Nat → HTTPOutcome (List dto.GitHubCommitResponse))
        (owner repoName : String) (from_ to_ : Time) (batchSize page : Int),
      c.newRequestErr = none → 1 ≤ c.retryCount →
      (∀ attempt, ∃ body,
        remote (commitsQuery owner repoName from_ to_ batchSize page) attempt =
          .response 403 body) →
      ∃ err, c.GetCommits remote owner repoName from_ to_ batchSize page =
          (none, some err, c.retryCount.toNat) ∧
        errorsIs err ErrRateLimitExceeded = true) := by
  refine ⟨?_, ?_, ?_⟩
  · intro α c remote
    have h := retryLoop_requests_le c remote c.retryCount.toNat 0 0 none
    unfold client.doWithRetry
    omega
  · intro α c remote lastFailure hN htr hlast
    rw [doWithRetry_exhausted c remote lastFailure hN htr hlast]
    refine ⟨rfl, fun hacc => ?_, rfl, rfl, _, rfl, ?_⟩
    · simp only [sent_of_accepts c hacc, Nat.mul_one]
      omega
    · exact errorsIs_wrap _ _ _ (errorsIs_refl lastFailure)
  · intro c remote owner repoName from_ to_ batchSize page hacc hN h403
    have hdo : ∀ m, c.doOnce (remote (commitsQuery owner repoName from_ to_ batchSize page) m) =
        .error ErrRateLimitExceeded := by
      intro m
      obtain ⟨body, hb⟩ := h403 m
      rw [hb]
      simp [client.doOnce, hacc]
    have hres := doWithRetry_exhausted c
      (remote (commitsQuery owner repoName from_ to_ batchSize page)) ErrRateLimitExceeded hN
      (fun (m : Nat) _ => ⟨ErrRateLimitExceeded, hdo m, by decide⟩) (hdo _)
    refine ⟨wrap ("request failed after " ++ toString c.retryCount ++ " retries")
      ErrRateLimitExceeded, ?_, errorsIs_wrap _ _ _ (errorsIs_refl ErrRateLimitExceeded)⟩
    unfold client.GetCommits
    rw [hacc]
    simp only [hres, sent_of_accepts c hacc, Nat.mul_one]

/-- C8 at retry count 3 against a remote that always answers 403: a nil page, three
requests, and an error matching `ErrRateLimitExceeded`. -/
theorem C8_retries_are_bounded_and_wrap_the_last_failure_witness :
    ∃ err, defaultClient.GetCommits (fun _ => alwaysStatus 403) "octocat" "Hello-World"
        5 20 10 1 = (none, some err, 3) ∧
      errorsIs err ErrRateLimitExceeded = true :=
  C8_retries_are_bounded_and_wrap_the_last_failure.2.2 defaultClient
    (fun _ => alwaysStatus 403) "octocat" "Hello-World" 5 20 10 1 rfl (by decide)
    (fun _ => ⟨none, rfl⟩)

/-! ### The streaming fetch -/

theorem requestsOf_append (xs ys : List StreamEvent) :
    requestsOf (xs ++ ys) = requestsOf xs ++ requestsOf ys := by
  induction xs with
  | nil => rfl
  | cons x rest ih =>
    cases x <;> simp [requestsOf, ih]

theorem batchesOf_append (xs ys : List StreamEvent) :
    batchesOf (xs ++ ys) = batchesOf xs ++ batchesOf ys := by
  induction xs with
  | nil => rfl
  | cons x rest ih =>
    cases x <;> simp [batchesOf, ih]

theorem errorsOf_append (xs ys : List StreamEvent) :
    errorsOf (xs ++ ys) = errorsOf xs ++ errorsOf ys := by
  induction xs with
  | nil => rfl
  | cons x rest ih =>
    cases x <;> simp [errorsOf, ih]

theorem requestsOf_fullPages (env : StreamEnv) (repoInfo : RepoInfo) (repoID : String)
    (since until_ : Time) (batchSize : Int) (pages : List Nat) :
    requestsOf (pages.flatMap (fullPage env repoInfo repoID since until_ batchSize)) =
      pages.map (pageCall repoInfo since until_ batchSize) := by
  induction pages with
  | nil => rfl
  | cons k rest ih =>
    rw [List.flatMap_cons, requestsOf_append, ih]
    rfl

theorem batchesOf_fullPages (env : StreamEnv) (repoInfo : RepoInfo) (repoID : String)
    (since until_ : Time) (batchSize : Int) (pages : List Nat) :
    batchesOf (pages.flatMap (fullPage env repoInfo repoID since until_ batchSize)) =
      pages.map (fun k => mapCommits env k repoInfo repoID
        (env.GetCommits (pageCall repoInfo since until_ batchSize k)).1) := by
  induction pages with
  | nil => rfl
  | cons k rest ih =>
    rw [List.flatMap_cons, batchesOf_append, ih]
    rfl

theorem errorsOf_fullPages (env : StreamEnv) (repoInfo : RepoInfo) (repoID : String)
    (since until_ : Time) (batchSize : Int) (pages : List Nat) :
    errorsOf (pages.flatMap (fullPage env repoInfo repoID since until_ batchSize)) = [] := by
  induction pages with
  | nil => rfl
  | cons k rest ih =>
    rw [List.flatMap_cons, errorsOf_append, ih]
    rfl

theorem mapCommitsFrom_fields (env : StreamEnv) (page : Nat) (repoInfo : RepoInfo)
    (repoID : String) (dtos : List dto.GitHubCommitResponse) :
    ∀ i : Nat,
      (mapCommitsFrom env page repoInfo repoID i dtos).map
          (fun c => (c.SHA, c.Message, c.Author, c.AuthorEmail, c.Date, c.URL,
            c.RepositoryID, c.RepoOwner, c.RepoName)) =
        dtos.map (fun d => (d.SHA, d.Commit.Message, d.Commit.Author.Name,
          d.Commit.Author.Email, d.Commit.Author.Date, d.HTMLURL,
          repoID, repoInfo.Owner, repoInfo.Name)) := by
  induction dtos with
  | nil =>
    intro i
    rfl
  | cons d rest ih =>
    intro i
    simp only [mapCommitsFrom, List.map_cons, ih (i + 1)]
    rfl

theorem streamLoop_last (env : StreamEnv) (repoInfo : RepoInfo) (repoID : String)
    (since until_ : Time) (batchSize : Int) (fuel page : Nat)
    (hlive : env.cancelled page = false)
    (hends : endsStream batchSize
      (env.GetCommits (pageCall repoInfo since until_ batchSize page)) = true) :
    streamLoop env repoInfo repoID since until_ batchSize (fuel + 1) page =
      (lastPage env repoInfo repoID since until_ batchSize page, true) := by
  unfold streamLoop lastPage
  simp only [hlive, Bool.false_eq_true, if_false]
  rcases hg : env.GetCommits (pageCall repoInfo since until_ batchSize page) with
    ⟨dtos, _ | err⟩
  · rw [hg] at hends
    simp only [endsStream, Option.isSome_none, Bool.false_or, Bool.or_eq_true,
      decide_eq_true_eq] at hends
    by_cases hzero : dtos.length = 0
    · simp [hzero]
    · rcases hends with h | h
      · exact absurd h hzero
      · simp [hzero, h]
  · rfl

theorem streamLoop_next (env : StreamEnv) (repoInfo : RepoInfo) (repoID : String)
    (since until_ : Time) (batchSize : Int) (fuel page : Nat)
    (hlive : env.cancelled page = false)
    (hgoes : endsStream batchSize
      (env.GetCommits (pageCall repoInfo since until_ batchSize page)) = false) :
    streamLoop env repoInfo repoID since until_ batchSize (fuel + 1) page =
      (fullPage env repoInfo repoID since until_ batchSize page ++
          (streamLoop env repoInfo repoID since until_ batchSize fuel (page + 1)).1,
        (streamLoop env repoInfo repoID since until_ batchSize fuel (page + 1)).2) := by
  conv_lhs => unfold streamLoop
  unfold fullPage
  simp only [hlive, Bool.false_eq_true, if_false]
  rcases hg : env.GetCommits (pageCall repoInfo since until_ batchSize page) with
    ⟨dtos, _ | err⟩
  · rw [hg] at hgoes
    simp only [endsStream, Option.isSome_none, Bool.false_or, Bool.or_eq_false_iff,
      decide_eq_false_iff_not] at hgoes
    simp [hgoes.1, hgoes.2]
  · rw [hg] at hgoes
    simp [endsStream] at hgoes

theorem streamLoop_trace (env : StreamEnv) (repoInfo : RepoInfo) (repoID : String)
    (since until_ : Time) (batchSize : Int) :
    ∀ (m start fuel : Nat), m < fuel →
      (∀ k, start ≤ k → k ≤ start + m → env.cancelled k = false) →
      (∀ k, start ≤ k → k < start + m → endsStream batchSize
        (env.GetCommits (pageCall repoInfo since until_ batchSize k)) = false) →
      endsStream batchSize
        (env.GetCommits (pageCall repoInfo since until_ batchSize (start + m))) = true →
      streamLoop env repoInfo repoID since until_ batchSize fuel start =
        ((List.range' start m).flatMap (fullPage env repoInfo repoID since until_ batchSize) ++
            lastPage env repoInfo repoID since until_ batchSize (start + m), true) := by
  intro m
  induction m with
  | zero =>
    intro start fuel hfuel hlive _ hends
    obtain ⟨f, rfl⟩ : ∃ f, fuel = f + 1 := ⟨fuel - 1, by omega⟩
    rw [streamLoop_last env repoInfo repoID since until_ batchSize f start
      (hlive start (le_refl _) (by omega)) hends]
    simp
  | succ m ih =>
    intro start fuel hfuel hlive hfull hends
    obtain ⟨f, rfl⟩ : ∃ f, fuel = f + 1 := ⟨fuel - 1, by omega⟩
    rw [streamLoop_next env repoInfo repoID since until_ batchSize f start
      (hlive start (le_refl _) (by omega)) (hfull start (le_refl _) (by omega))]
    rw [ih (start + 1) f (by omega)
      (fun k h1 h2 => hlive k (by omega) (by omega))
      (fun k h1 h2 => hfull k (by omega) (by omega))
      (by rwa [show start + 1 + m = start + (m + 1) by omega])]
    rw [List.range'_succ, List.flatMap_cons, List.append_assoc,
      show start + 1 + m = start + (m + 1) by omega]

/-- C9 (counterexample): with page size 2 the remote returns an empty first
page, whose length 0 is below the page size.  The stream requests page 1 and
returns, and it has emitted no batch at all. -/
theorem C9_empty_page_emits_no_batch :
    (((emptyRemote.GetCommits (pageCall octoDemo 5 20 2 1)).1.length : Int) < 2) ∧
    streamCommits emptyRemote 2 octoDemo "repo-1" 5 20 3 =
      ([StreamEvent.request (pageCall octoDemo 5 20 2 1)], true) ∧
    batchesOf (streamCommits emptyRemote 2 octoDemo "repo-1" 5 20 3).1 = [] := by
  decide

/-- C9 (amended): when the loop is at page `k`, the context is live and the
remote returns for page `k` a page shorter than the page size: if the page is
not empty the stream requests it, emits it (mapped) as one batch and returns
without requesting page `k + 1`; if the page is empty the stream requests it
and returns without emitting a batch. -/
theorem C9_short_page_ends_the_stream (env : StreamEnv) (repoInfo : RepoInfo) (repoID : String)
    (since until_ : Time) (batchSize : Int) (k fuel : Nat)
    (dtos : List dto.GitHubCommitResponse)
    (hlive : env.cancelled k = false)
    (hpage : env.GetCommits (pageCall repoInfo since until_ batchSize k) = (dtos, none))
    (hshort : (dtos.length : Int) < batchSize) :
    (dtos.length ≠ 0 →
      streamLoop env repoInfo repoID since until_ batchSize (fuel + 1) k =
        ([StreamEvent.request (pageCall repoInfo since until_ batchSize k),
          StreamEvent.batch (mapCommits env k repoInfo repoID dtos)], true)) ∧
    (dtos.length = 0 →
      streamLoop env repoInfo repoID since until_ batchSize (fuel + 1) k =
        ([StreamEvent.request (pageCall repoInfo since until_ batchSize k)], true)) := by
  have hends : endsStream batchSize
      (env.GetCommits (pageCall repoInfo since until_ batchSize k)) = true := by
    rw [hpage]
    simp [endsStream, hshort]
  have hloop := streamLoop_last env repoInfo repoID since until_ batchSize fuel k hlive hends
  unfold lastPage at hloop
  rw [hpage] at hloop
  constructor
  · intro hne
    rw [hloop]
    simp [hne]
  · intro hzero
    rw [hloop]
    simp [hzero]

/-- C9 (amended) at page 2 of three commits served in pages of two. -/
theorem C9_short_page_ends_the_stream_witness :
    streamLoop threeCommits octoDemo "repo-1" 5 20 2 (0 + 1) 2 =
      ([StreamEvent.request (pageCall octoDemo 5 20 2 2),
        StreamEvent.batch (mapCommits threeCommits 2 octoDemo "repo-1" [commitItem "c1" 10])],
       true) :=
  (C9_short_page_ends_the_stream threeCommits octoDemo "repo-1" 5 20 2 2 0
    [commitItem "c1" 10] rfl (by decide) (by decide)).1 (by decide)

/-- C10: let the context be live and let page `n >= 1` be the first page that
failed, is empty, or is shorter than the page size.  Given fuel for `n`
iterations the stream returns, and its trace is: for each page `1 .. n-1`, in
order, the request of that page followed by the batch mapped from it, then the
request of page `n` followed by one error if it failed, nothing if it is
empty, and its mapped batch otherwise.  Hence the `k`-th request is the call of
`GetCommits` with the owner and name of the repository, the `since` and `until`
of the stream, the page size and page `k`; the batches are
the mapped pages in page order; an error is emitted only for a failed last
page.  Mapping a page keeps its length and order: commit `i` carries item
`i`'s SHA, message, author, date and URL and the request's repository id,
owner and name. -/
theorem C10_stream_requests_pages_in_order (env : StreamEnv) (repoInfo : RepoInfo)
    (repoID : String) (since until_ : Time) (batchSize : Int) (n fuel : Nat)
    (hn : 1 ≤ n) (hfuel : n ≤ fuel)
    (hlive : ∀ k, 1 ≤ k → k ≤ n → env.cancelled k = false)
    (hfull : ∀ k, 1 ≤ k → k < n → endsStream batchSize
      (env.GetCommits (pageCall repoInfo since until_ batchSize k)) = false)
    (hlast : endsStream batchSize
      (env.GetCommits (pageCall repoInfo since until_ batchSize n)) = true) :
    streamCommits env batchSize repoInfo repoID since until_ fuel =
      ((List.range' 1 (n - 1)).flatMap (fullPage env repoInfo repoID since until_ batchSize) ++
          lastPage env repoInfo repoID since until_ batchSize n, true) ∧
    requestsOf (streamCommits env batchSize repoInfo repoID since until_ fuel).1 =
      (List.range' 1 n).map (fun k =>
        { owner := repoInfo.Owner, repoName := repoInfo.Name, since := since,
          until_ := until_, batchSize := batchSize, page := k }) ∧
    (∀ k : Nat, pageCall repoInfo since until_ batchSize k =
      { owner := repoInfo.Owner, repoName := repoInfo.Name, since := since,
        until_ := until_, batchSize := batchSize, page := k }) ∧
    batchesOf (streamCommits env batchSize repoInfo repoID since until_ fuel).1 =
      (List.range' 1 (n - 1)).map (fun k => mapCommits env k repoInfo repoID
          (env.GetCommits (pageCall repoInfo since until_ batchSize k)).1) ++
        (match env.GetCommits (pageCall repoInfo since until_ batchSize n) with
         | (_, some _) => []
         | (dtos, none) =>
           if dtos.length = 0 then [] else [mapCommits env n repoInfo repoID dtos]) ∧
    errorsOf (streamCommits env batchSize repoInfo repoID since until_ fuel).1 =
      (match (env.GetCommits (pageCall repoInfo since until_ batchSize n)).2 with
       | some err => [NewBatchError batchSize err]
       | none => []) ∧
    (∀ (page : Nat) (dtos : List dto.GitHubCommitResponse),
      (mapCommits env page repoInfo repoID dtos).map
          (fun c => (c.SHA, c.Message, c.Author, c.AuthorEmail, c.Date, c.URL,
            c.RepositoryID, c.RepoOwner, c.RepoName)) =
        dtos.map (fun d => (d.SHA, d.Commit.Message, d.Commit.Author.Name,
          d.Commit.Author.Email, d.Commit.Author.Date, d.HTMLURL,
          repoID, repoInfo.Owner, repoInfo.Name))) := by
  have htrace : streamCommits env batchSize repoInfo repoID since until_ fuel =
      ((List.range' 1 (n - 1)).flatMap (fullPage env repoInfo repoID since until_ batchSize) ++
          lastPage env repoInfo repoID since until_ batchSize n, true) := by
    unfold streamCommits
    have h := streamLoop_trace env repoInfo repoID since until_ batchSize (n - 1) 1 fuel
      (by omega)
      (fun k h1 h2 => hlive k h1 (by omega))
      (fun k h1 h2 => hfull k h1 (by omega))
      (by rwa [show 1 + (n - 1) = n by omega])
    rwa [show 1 + (n - 1) = n by omega] at h
  refine ⟨htrace, ?_, fun k => rfl, ?_, ?_, fun page dtos =>
    mapCommitsFrom_fields env page repoInfo repoID dtos 0⟩
  · show requestsOf (streamCommits env batchSize repoInfo repoID since until_ fuel).1 =
      (List.range' 1 n).map (pageCall repoInfo since until_ batchSize)
    rw [htrace]
    simp only [requestsOf_append, requestsOf_fullPages]
    have hsplit : List.range' 1 n = List.range' 1 (n - 1) ++ [n] := by
      have : List.range' 1 (n - 1 + 1) 1 = List.range' 1 (n - 1) 1 ++ [1 + 1 * (n - 1)] :=
        List.range'_concat 1 (n - 1)
      rw [show n - 1 + 1 = n by omega, show 1 + 1 * (n - 1) = n by omega] at this
      exact this
    rw [hsplit, List.map_append]
    congr 1
    unfold lastPage
    rcases env.GetCommits (pageCall repoInfo since until_ batchSize n) with ⟨dtos, _ | err⟩
    · by_cases hz : dtos.length = 0 <;> simp [hz, requestsOf]
    · simp [requestsOf]
  · rw [htrace]
    simp only [batchesOf_append, batchesOf_fullPages]
    congr 1
    unfold lastPage
    rcases env.GetCommits (pageCall repoInfo since until_ batchSize n) with ⟨dtos, _ | err⟩
    · by_cases hz : dtos.length = 0 <;> simp [hz, batchesOf]
    · simp [batchesOf]
  · rw [htrace]
    simp only [errorsOf_append, errorsOf_fullPages, List.nil_append]
    unfold lastPage
    rcases env.GetCommits (pageCall repoInfo since until_ batchSize n) with ⟨dtos, _ | err⟩
    · by_cases hz : dtos.length = 0 <;> simp [hz, errorsOf]
    · simp [errorsOf]

/-- C10 on three commits served in pages of two: pages 1 and 2 are requested,
in order, for octo/demo with since 5, until 20 and page size 2. -/
theorem C10_stream_requests_pages_in_order_witness :
    requestsOf (streamCommits threeCommits 2 octoDemo "repo-1" 5 20 5).1 =
      [{ owner := "octo", repoName := "demo", since := 5, until_ := 20, batchSize := 2,
         page := 1 },
       { owner := "octo", repoName := "demo", since := 5, until_ := 20, batchSize := 2,
         page := 2 }] :=
  (C10_stream_requests_pages_in_order threeCommits octoDemo "repo-1" 5 20 2 2 5
    (by decide) (by decide) (fun _ _ _ => rfl)
    (fun k h1 h2 => by
      obtain rfl : k = 1 := by omega
      decide)
    (by decide)).2.1

/-! ### The fetch worker -/

theorem publishCalls_append (xs ys : List FetchAction) :
    publishCalls (xs ++ ys) = publishCalls xs ++ publishCalls ys := by
  induction xs with
  | nil => rfl
  | cons x rest ih =>
    cases x <;> simp [publishCalls, ih]

theorem statusUpdates_append (xs ys : List FetchAction) :
    statusUpdates (xs ++ ys) = statusUpdates xs ++ statusUpdates ys := by
  induction xs with
  | nil => rfl
  | cons x rest ih =>
    cases x <;> simp [statusUpdates, ih]

theorem publishCalls_publishes (event : FetchCommitEvent) (batches : List (List Commit)) :
    publishCalls (batches.map (fun commits => FetchAction.publish
        { RepoInfo := event.RepoInfo, TaskID := event.TaskID, Commits := commits })) =
      batches.map (fun commits =>
        ({ RepoInfo := event.RepoInfo, TaskID := event.TaskID, Commits := commits } :
          SaveCommitEvent)) := by
  induction batches with
  | nil => rfl
  | cons b rest ih => simp [publishCalls, ih]

theorem statusUpdates_publishes (event : FetchCommitEvent) (batches : List (List Commit)) :
    statusUpdates (batches.map (fun commits => FetchAction.publish
        { RepoInfo := event.RepoInfo, TaskID := event.TaskID, Commits := commits })) = [] := by
  induction batches with
  | nil => rfl
  | cons b rest ih => simp [statusUpdates, ih]

theorem fetchComplete_actions (env : FetchEnv) (event : FetchCommitEvent) :
    (fetchComplete env event).1 =
      [FetchAction.updateStatus event.TaskID TaskStatusCompleted none] := by
  unfold fetchComplete
  cases env.updateErr <;> rfl

theorem fetchLoop_of_end (env : FetchEnv) (event : FetchCommitEvent) (n : Nat)
    (stop : Received) (rest : List Received) (hend : stop.isEnd = true) :
    fetchLoop env event n (stop :: rest) = fetchComplete env event := by
  cases stop <;> simp [Received.isEnd] at hend <;> simp [fetchLoop]

theorem fetchLoop_batch_ok (env : FetchEnv) (event : FetchCommitEvent) (n : Nat)
    (commits : List Commit) (rest : List Received) (h : env.publishErr n = none) :
    fetchLoop env event n (Received.batch commits :: rest) =
      (FetchAction.publish
          { RepoInfo := event.RepoInfo, TaskID := event.TaskID, Commits := commits } ::
        (fetchLoop env event (n + 1) rest).1, (fetchLoop env event (n + 1) rest).2) := by
  conv_lhs => unfold fetchLoop
  simp only [h]

theorem fetchLoop_batch_fail (env : FetchEnv) (event : FetchCommitEvent) (n : Nat)
    (commits : List Commit) (rest : List Received) (err : GoError)
    (h : env.publishErr n = some err) :
    fetchLoop env event n (Received.batch commits :: rest) =
      ([FetchAction.publish
          { RepoInfo := event.RepoInfo, TaskID := event.TaskID, Commits := commits }],
        FetchOutcome.returned (some (wrap "failed to publish save commit event" err))) := by
  conv_lhs => unfold fetchLoop
  simp only [h]

/-- While every publish succeeds the loop publishes one save-request per
batch and goes on with the deliveries that follow. -/
theorem fetchLoop_publish_ok (env : FetchEnv) (event : FetchCommitEvent) :
    ∀ (batches : List (List Commit)) (n : Nat) (tail : List Received),
      (∀ j, j < batches.length → env.publishErr (n + j) = none) →
      fetchLoop env event n (batches.map Received.batch ++ tail) =
        (batches.map (fun commits => FetchAction.publish
            { RepoInfo := event.RepoInfo, TaskID := event.TaskID, Commits := commits }) ++
          (fetchLoop env event (n + batches.length) tail).1,
         (fetchLoop env event (n + batches.length) tail).2) := by
  intro batches
  induction batches with
  | nil =>
    intro n tail _
    simp
  | cons b rest ih =>
    intro n tail hok
    have h0 : env.publishErr n = none := by
      have := hok 0 (by simp)
      simpa using this
    have hrest := ih (n + 1) tail (fun j hj => by
      have := hok (j + 1) (by simp; omega)
      rwa [show n + (j + 1) = n + 1 + j by omega] at this)
    rw [List.map_cons, List.cons_append, fetchLoop_batch_ok env event n b _ h0, hrest,
      List.length_cons, show n + 1 + rest.length = n + (rest.length + 1) by omega]
    rfl

/-- A failing publish is the last thing the loop does. -/
theorem fetchLoop_publish_fails (env : FetchEnv) (event : FetchCommitEvent) (err : GoError) :
    ∀ (batches : List (List Commit)) (n i : Nat) (tail : List Received),
      i < batches.length →
      (∀ j, j < i → env.publishErr (n + j) = none) →
      env.publishErr (n + i) = some err →
      fetchLoop env event n (batches.map Received.batch ++ tail) =
        ((batches.take (i + 1)).map (fun commits => FetchAction.publish
            { RepoInfo := event.RepoInfo, TaskID := event.TaskID, Commits := commits }),
         FetchOutcome.returned (some (wrap "failed to publish save commit event" err))) := by
  intro batches
  induction batches with
  | nil =>
    intro n i tail hi
    simp at hi
  | cons b rest ih =>
    intro n i tail hi hok hfail
    cases i with
    | zero =>
      rw [Nat.add_zero] at hfail
      rw [List.map_cons, List.cons_append, fetchLoop_batch_fail env event n b _ err hfail]
      rfl
    | succ i =>
      have h0 : env.publishErr n = none := by
        have := hok 0 (by omega)
        simpa using this
      have hrest := ih (n + 1) i tail (by simpa using hi)
        (fun j hj => by
          have := hok (j + 1) (by omega)
          rwa [show n + (j + 1) = n + 1 + j by omega] at this)
        (by rwa [show n + (i + 1) = n + 1 + i by omega] at hfail)
      rw [List.map_cons, List.cons_append, fetchLoop_batch_ok env event n b _ h0, hrest]
      rfl

/-- The loop publishes nothing when the next delivery is not a batch. -/
theorem fetchLoop_no_publish (env : FetchEnv) (event : FetchCommitEvent) (n : Nat)
    (tail : List Received)
    (htail : ∀ commits more, tail ≠ Received.batch commits :: more) :
    publishCalls (fetchLoop env event n tail).1 = [] := by
  cases tail with
  | nil => rfl
  | cons r rest =>
    cases r with
    | batch commits => exact absurd rfl (htail commits rest)
    | dataClosed => simp [fetchLoop, fetchComplete_actions, publishCalls]
    | fetchError err => simp [fetchLoop, publishCalls]
    | errClosed => simp [fetchLoop, fetchComplete_actions, publishCalls]
    | done => simp [fetchLoop, fetchComplete_actions, publishCalls]
    | cancelled err => simp [fetchLoop, publishCalls]

/-- C11: while every publish succeeds, the handler hands to `Publish` exactly
one save-request per batch received, in stream order, each with the
fetch-request's repository identity and task id and the batch's commits
unchanged, up to the first delivery that is not a batch (a fetch error, the
end of the stream, a cancellation) and nothing from what follows it; and when
the publish of batch `i` fails, that call is the last: the handler returns the
publish error and nothing is published for the batches after it. -/
theorem C11_one_save_request_per_batch (env : FetchEnv) (event : FetchCommitEvent) :
    (∀ (batches : List (List Commit)) (tail : List Received),
      (∀ commits more, tail ≠ Received.batch commits :: more) →
      (∀ j, j < batches.length → env.publishErr j = none) →
      publishCalls
          (handleFetchCommitEvent env event (batches.map Received.batch ++ tail)).1 =
        batches.map (fun commits =>
          ({ RepoInfo := event.RepoInfo, TaskID := event.TaskID, Commits := commits } :
            SaveCommitEvent))) ∧
    (∀ (batches : List (List Commit)) (tail : List Received) (i : Nat) (err : GoError),
      i < batches.length →
      (∀ j, j < i → env.publishErr j = none) →
      env.publishErr i = some err →
      publishCalls
          (handleFetchCommitEvent env event (batches.map Received.batch ++ tail)).1 =
        (batches.take (i + 1)).map (fun commits =>
          ({ RepoInfo := event.RepoInfo, TaskID := event.TaskID, Commits := commits } :
            SaveCommitEvent)) ∧
      (handleFetchCommitEvent env event (batches.map Received.batch ++ tail)).2 =
        FetchOutcome.returned (some (wrap "failed to publish save commit event" err))) := by
  constructor
  · intro batches tail htail hok
    unfold handleFetchCommitEvent
    simp only [publishCalls]
    rw [fetchLoop_publish_ok env event batches 0 tail (fun j hj => by
      rw [Nat.zero_add]
      exact hok j hj)]
    simp only [publishCalls_append, publishCalls_publishes,
      fetchLoop_no_publish env event _ tail htail, List.append_nil]
  · intro batches tail i err hi hok hfail
    unfold handleFetchCommitEvent
    simp only [publishCalls]
    rw [fetchLoop_publish_fails env event err batches 0 i tail hi
      (fun j hj => by
        rw [Nat.zero_add]
        exact hok j hj)
      (by rwa [Nat.zero_add])]
    exact ⟨publishCalls_publishes event _, rfl⟩

/-- Every run of the loop makes no status update, or exactly one, to
completed, as its last action and after a clean end of the stream. -/
theorem fetchLoop_status (env : FetchEnv) (event : FetchCommitEvent) :
    ∀ (received : List Received) (n : Nat),
      statusUpdates (fetchLoop env event n received).1 = [] ∨
        (statusUpdates (fetchLoop env event n received).1 =
            [(event.TaskID, TaskStatusCompleted, none)] ∧
          (fetchLoop env event n received).1.getLast? =
            some (FetchAction.updateStatus event.TaskID TaskStatusCompleted none) ∧
          ∃ (batches : List (List Commit)) (stop : Received) (rest : List Received),
            received = batches.map Received.batch ++ stop :: rest ∧ stop.isEnd = true ∧
              ∀ j, j < batches.length → env.publishErr (n + j) = none) := by
  intro received
  induction received with
  | nil =>
    intro n
    exact Or.inl rfl
  | cons r rest ih =>
    intro n
    have hend : ∀ stop : Received, stop.isEnd = true → r = stop →
        statusUpdates (fetchLoop env event n (r :: rest)).1 = [] ∨
        (statusUpdates (fetchLoop env event n (r :: rest)).1 =
            [(event.TaskID, TaskStatusCompleted, none)] ∧
          (fetchLoop env event n (r :: rest)).1.getLast? =
            some (FetchAction.updateStatus event.TaskID TaskStatusCompleted none) ∧
          ∃ (batches : List (List Commit)) (stop : Received) (rest1 : List Received),
            r :: rest = batches.map Received.batch ++ stop :: rest1 ∧ stop.isEnd = true ∧
              ∀ j, j < batches.length → env.publishErr (n + j) = none) := by
      intro stop hstop hr
      subst hr
      right
      rw [fetchLoop_of_end env event n r rest hstop, fetchComplete_actions]
      exact ⟨rfl, rfl, [], r, rest, rfl, hstop, fun j hj => absurd hj (by simp)⟩
    cases r with
    | batch commits =>
      cases hp : env.publishErr n with
      | some err =>
        left
        rw [fetchLoop_batch_fail env event n commits rest err hp]
        rfl
      | none =>
        rw [fetchLoop_batch_ok env event n commits rest hp]
        rcases ih (n + 1) with h | ⟨h1, h2, batches, stop, rest1, hrec, hstop, hok⟩
        · left
          simpa [statusUpdates] using h
        · right
          refine ⟨by simpa [statusUpdates] using h1, ?_, commits :: batches, stop, rest1, ?_,
            hstop, ?_⟩
          · cases hl : (fetchLoop env event (n + 1) rest).1 with
            | nil =>
              rw [hl] at h1
              simp [statusUpdates] at h1
            | cons a l =>
              rw [hl] at h2
              simp only [List.getLast?_cons_cons]
              exact h2
          · rw [hrec]
            rfl
          · intro j hj
            cases j with
            | zero => simpa using hp
            | succ j =>
              have := hok j (by simpa using hj)
              rwa [show n + 1 + j = n + (j + 1) by omega] at this
    | dataClosed => exact hend Received.dataClosed rfl rfl
    | fetchError err =>
      left
      simp [fetchLoop, statusUpdates]
    | errClosed => exact hend Received.errClosed rfl rfl
    | done => exact hend Received.done rfl rfl
    | cancelled err =>
      left
      simp [fetchLoop, statusUpdates]

theorem handleFetchCommitEvent_statusUpdates (env : FetchEnv) (event : FetchCommitEvent)
    (received : List Received) :
    statusUpdates (handleFetchCommitEvent env event received).1 =
      statusUpdates (fetchLoop env event 0 received).1 := rfl

theorem statusUpdates_completed_iff (env : FetchEnv) (event : FetchCommitEvent)
    (received : List Received) :
    (statusUpdates (handleFetchCommitEvent env event received).1 =
        [(event.TaskID, TaskStatusCompleted, none)] ↔
      ∃ (batches : List (List Commit)) (stop : Received) (rest : List Received),
        received = batches.map Received.batch ++ stop :: rest ∧ stop.isEnd = true ∧
          ∀ j, j < batches.length → env.publishErr j = none) ∧
    (statusUpdates (handleFetchCommitEvent env event received).1 = [] ∨
      statusUpdates (handleFetchCommitEvent env event received).1 =
        [(event.TaskID, TaskStatusCompleted, none)]) ∧
    (statusUpdates (handleFetchCommitEvent env event received).1 ≠ [] →
      (handleFetchCommitEvent env event received).1.getLast? =
        some (FetchAction.updateStatus event.TaskID TaskStatusCompleted none)) := by
  rw [handleFetchCommitEvent_statusUpdates]
  have hcases := fetchLoop_status env event received 0
  refine ⟨⟨fun h => ?_, fun h => ?_⟩, ?_, fun hne => ?_⟩
  · rcases hcases with h0 | ⟨_, _, batches, stop, rest, hrec, hstop, hok⟩
    · rw [h0] at h
      simp at h
    · exact ⟨batches, stop, rest, hrec, hstop, fun j hj => by
        have := hok j hj
        rwa [Nat.zero_add] at this⟩
  · obtain ⟨batches, stop, rest, hrec, hstop, hok⟩ := h
    rw [hrec, fetchLoop_publish_ok env event batches 0 (stop :: rest) (fun j hj => by
      rw [Nat.zero_add]
      exact hok j hj)]
    simp only [statusUpdates_append, statusUpdates_publishes, List.nil_append]
    rw [fetchLoop_of_end env event _ stop rest hstop, fetchComplete_actions]
    rfl
  · rcases hcases with h0 | ⟨h1, _, _⟩
    · exact Or.inl h0
    · exact Or.inr h1
  · rcases hcases with h0 | ⟨h1, h2, _⟩
    · exact absurd h0 hne
    · have hrun : (handleFetchCommitEvent env event received).1 =
          FetchAction.startStream
              { RepoID := event.RepoID, RepoInfo := event.RepoInfo, Since := some event.Since,
                Until := none } :: (fetchLoop env event 0 received).1 := rfl
      rw [hrun]
      cases hl : (fetchLoop env event 0 received).1 with
      | nil =>
        rw [hl] at h1
        simp [statusUpdates] at h1
      | cons a l =>
        rw [hl] at h2
        rw [List.getLast?_cons_cons]
        exact h2

/-- C13 (counterexample): page 1 is published, page 2 fails with
`ErrInternalServer` after the retries; the handler returns the fetch error and
has made no status update at all, so the task keeps the status pending. -/
theorem C13_fetch_error_leaves_task_untouched :
    errorsOf (streamCommits page2Fails 2 octoDemo "repo-1" 5 20 5).1 =
      [NewBatchError 2 (wrap "request failed after 3 retries" ErrInternalServer)] ∧
    (handleFetchCommitEvent busOK fetchRequest
        (deliveries (streamCommits page2Fails 2 octoDemo "repo-1" 5 20 5))).2 =
      FetchOutcome.returned (some (wrap "error fetching commit batch"
        (NewBatchError 2 (wrap "request failed after 3 retries" ErrInternalServer)))) ∧
    (publishCalls (handleFetchCommitEvent busOK fetchRequest
        (deliveries (streamCommits page2Fails 2 octoDemo "repo-1" 5 20 5))).1).length = 1 ∧
    statusUpdates (handleFetchCommitEvent busOK fetchRequest
        (deliveries (streamCommits page2Fails 2 octoDemo "repo-1" 5 20 5))).1 = [] := by
  decide

/-- C13 (amended): when the stream reports a fetch error after batches whose
publishes succeeded, or when a publish fails, the handler stops and returns an
error that wraps the cause, and it makes no status update: the task is left in
the status it had. -/
theorem C13_failure_is_returned_not_recorded (env : FetchEnv) (event : FetchCommitEvent) :
    (∀ (batches : List (List Commit)) (err : GoError) (rest : List Received),
      (∀ j, j < batches.length → env.publishErr j = none) →
      (handleFetchCommitEvent env event
          (batches.map Received.batch ++ Received.fetchError err :: rest)).2 =
        FetchOutcome.returned (some (wrap "error fetching commit batch" err)) ∧
      statusUpdates (handleFetchCommitEvent env event
          (batches.map Received.batch ++ Received.fetchError err :: rest)).1 = []) ∧
    (∀ (batches : List (List Commit)) (tail : List Received) (i : Nat) (err : GoError),
      i < batches.length →
      (∀ j, j < i → env.publishErr j = none) →
      env.publishErr i = some err →
      (handleFetchCommitEvent env event (batches.map Received.batch ++ tail)).2 =
        FetchOutcome.returned (some (wrap "failed to publish save commit event" err)) ∧
      statusUpdates (handleFetchCommitEvent env event
          (batches.map Received.batch ++ tail)).1 = []) := by
  constructor
  · intro batches err rest hok
    rw [handleFetchCommitEvent_statusUpdates]
    unfold handleFetchCommitEvent
    rw [fetchLoop_publish_ok env event batches 0 _ (fun j hj => by
      rw [Nat.zero_add]
      exact hok j hj)]
    simp [fetchLoop, statusUpdates_append, statusUpdates_publishes, statusUpdates]
  · intro batches tail i err hi hok hfail
    rw [handleFetchCommitEvent_statusUpdates]
    unfold handleFetchCommitEvent
    rw [fetchLoop_publish_fails env event err batches 0 i tail hi
      (fun j hj => by
        rw [Nat.zero_add]
        exact hok j hj)
      (by rwa [Nat.zero_add])]
    exact ⟨rfl, statusUpdates_publishes event _⟩

/-- C13 (amended) when the first publish fails: the handler returns the
publish error and makes no status update. -/
theorem C13_failure_is_returned_not_recorded_witness :
    (handleFetchCommitEvent (busFailsAt 0) fetchRequest
        ([[commitAt "octo" "demo" "a1" 7]].map Received.batch ++ [Received.done])).2 =
      FetchOutcome.returned (some (wrap "failed to publish save commit event"
        (plain "channel is not initialized"))) ∧
    statusUpdates (handleFetchCommitEvent (busFailsAt 0) fetchRequest
        ([[commitAt "octo" "demo" "a1" 7]].map Received.batch ++ [Received.done])).1 = [] :=
  (C13_failure_is_returned_not_recorded (busFailsAt 0) fetchRequest).2
    [[commitAt "octo" "demo" "a1" 7]] [Received.done] 0 (plain "channel is not initialized")
    (by decide) (fun j hj => absurd hj (by omega)) rfl

/-- C14 (counterexample): on a fetch-request whose stream delivers two
batches and ends, the handler's first action is the call of `GetCommitsStream`
and its only status update is the final one to completed; in_progress is never
written. -/
theorem C14_no_in_progress_update :
    (handleFetchCommitEvent busOK fetchRequest
        (deliveries (streamCommits threeCommits 2 octoDemo "repo-1" 5 20 5))).1.head? =
      some (FetchAction.startStream
        { RepoID := "repo-1", RepoInfo := octoDemo, Since := some 5, Until := none }) ∧
    statusUpdates (handleFetchCommitEvent busOK fetchRequest
        (deliveries (streamCommits threeCommits 2 octoDemo "repo-1" 5 20 5))).1 =
      [("task-1", "completed", none)] ∧
    ("task-1", TaskStatusInProgress, none) ∉
      statusUpdates (handleFetchCommitEvent busOK fetchRequest
        (deliveries (streamCommits threeCommits 2 octoDemo "repo-1" 5 20 5))).1 := by
  decide

/-- C14 (amended): on receiving a fetch-request the handler starts streaming at
once, from the request's since-bound, without touching the task, and every
status update it makes during the run is the update to completed (none is to
in_progress). -/
theorem C14_streaming_starts_without_status_update (env : FetchEnv)
    (event : FetchCommitEvent) (received : List Received) :
    (handleFetchCommitEvent env event received).1.head? =
      some (FetchAction.startStream
        { RepoID := event.RepoID, RepoInfo := event.RepoInfo, Since := some event.Since,
          Until := none }) ∧
    (∀ update ∈ statusUpdates (handleFetchCommitEvent env event received).1,
      update = (event.TaskID, TaskStatusCompleted, none)) ∧
    (∀ errMsg, (event.TaskID, TaskStatusInProgress, errMsg) ∉
      statusUpdates (handleFetchCommitEvent env event received).1) := by
  have hall : ∀ update ∈ statusUpdates (handleFetchCommitEvent env event received).1,
      update = (event.TaskID, TaskStatusCompleted, none) := by
    intro update hmem
    rw [handleFetchCommitEvent_statusUpdates] at hmem
    rcases fetchLoop_status env event received 0 with h0 | ⟨h1, _, _⟩
    · rw [h0] at hmem
      exact absurd hmem (List.not_mem_nil update)
    · rw [h1, List.mem_singleton] at hmem
      exact hmem
  refine ⟨rfl, hall, fun errMsg hmem => ?_⟩
  have := hall _ hmem
  simp only [Prod.mk.injEq] at this
  exact absurd this.2.1 (by decide)

/-- C11 on two batches followed by a fetch error: the two save-requests are
published, in order, and nothing else. -/
theorem C11_one_save_request_per_batch_witness :
    publishCalls (handleFetchCommitEvent busOK fetchRequest
        ([[commitAt "octo" "demo" "b2" 20], [commitAt "octo" "demo" "a1" 10]].map
            Received.batch ++
          [Received.fetchError ErrInternalServer, Received.batch []])).1 =
      [[commitAt "octo" "demo" "b2" 20], [commitAt "octo" "demo" "a1" 10]].map
        (fun commits =>
          ({ RepoInfo := fetchRequest.RepoInfo, TaskID := fetchRequest.TaskID,
             Commits := commits } : SaveCommitEvent)) :=
  (C11_one_save_request_per_batch busOK fetchRequest).1
    [[commitAt "octo" "demo" "b2" 20], [commitAt "octo" "demo" "a1" 10]]
    [Received.fetchError ErrInternalServer, Received.batch []]
    (fun _ _ h => by simp at h) (fun _ _ => rfl)

/-! ### The task store -/

theorem setTaskStatus_of_ne (taskID status : String) (errMsg : Option String)
    (updatedAt completedAt : Time) (t : Task) (h : t.ID ≠ taskID) :
    setTaskStatus taskID status errMsg updatedAt completedAt t = t := by
  unfold setTaskStatus
  simp [h]

theorem map_setTaskStatus_of_absent (taskID status : String) (errMsg : Option String)
    (updatedAt completedAt : Time) (tasks : List Task) (h : ∀ t ∈ tasks, t.ID ≠ taskID) :
    tasks.map (setTaskStatus taskID status errMsg updatedAt completedAt) = tasks := by
  induction tasks with
  | nil => rfl
  | cons t rest ih =>
    rw [List.map_cons, setTaskStatus_of_ne _ _ _ _ _ t (h t (List.mem_cons_self t rest)),
      ih (fun u hu => h u (List.mem_cons_of_mem t hu))]

theorem filter_id_length_of_nodup (taskID : String) (tasks : List Task)
    (hnodup : (tasks.map (fun t => t.ID)).Nodup) (hmem : ∃ t ∈ tasks, t.ID = taskID) :
    (tasks.filter (fun t => t.ID == taskID)).length = 1 := by
  induction tasks with
  | nil =>
    obtain ⟨t, ht, _⟩ := hmem
    exact absurd ht (List.not_mem_nil t)
  | cons u rest ih =>
    rw [List.map_cons, List.nodup_cons] at hnodup
    by_cases hu : u.ID = taskID
    · have hrest : rest.filter (fun t => t.ID == taskID) = [] := by
        rw [List.filter_eq_nil_iff]
        intro t ht hid
        simp only [beq_iff_eq] at hid
        exact hnodup.1 (List.mem_map.2 ⟨t, ht, hid.trans hu.symm⟩)
      rw [List.filter_cons_of_pos (by simpa using hu), hrest]
      rfl
    · rw [List.filter_cons_of_neg (by simpa using hu)]
      apply ih hnodup.2
      obtain ⟨t, ht, hid⟩ := hmem
      rcases List.mem_cons.1 ht with h | h
      · exact absurd (h ▸ hid) hu
      · exact ⟨t, h, hid⟩

/-- C20: when the `UPDATE` runs and a task with the id exists, `UpdateStatus`
succeeds and the table is the old one with `setTaskStatus` applied to each row:
a row with another id is unchanged, and a row with this id gets the given
status, the given error message if there is one (its old one otherwise) and a
completion time exactly when the status is completed (its old one otherwise),
its other columns but `updated_at` being kept; with unique ids exactly one row
has the id.  When no task has the id the call returns an error and the table is
unchanged, and so it is when the `UPDATE` fails. -/
theorem C20_UpdateStatus_touches_one_row_or_fails (updatedAt completedAt : Time)
    (tasks : List Task) (taskID status : String) (errMsg : Option String) :
    ((∃ t ∈ tasks, t.ID = taskID) →
      taskStore_UpdateStatus none updatedAt completedAt tasks taskID status errMsg =
        (tasks.map (setTaskStatus taskID status errMsg updatedAt completedAt), none)) ∧
    (∀ t : Task, t.ID ≠ taskID →
      setTaskStatus taskID status errMsg updatedAt completedAt t = t) ∧
    (∀ t : Task, t.ID = taskID →
      setTaskStatus taskID status errMsg updatedAt completedAt t =
        { t with
          Status := status,
          UpdatedAt := some updatedAt,
          ErrorMessage := errMsg.getD t.ErrorMessage,
          CompletedAt := if status = TaskStatusCompleted then some completedAt
            else t.CompletedAt }) ∧
    ((tasks.map (fun t => t.ID)).Nodup → (∃ t ∈ tasks, t.ID = taskID) →
      (tasks.filter (fun t => t.ID == taskID)).length = 1) ∧
    ((∀ t ∈ tasks, t.ID ≠ taskID) → ∀ dbErr : Option GoError,
      (taskStore_UpdateStatus dbErr updatedAt completedAt tasks taskID status errMsg).1 =
          tasks ∧
        (taskStore_UpdateStatus dbErr updatedAt completedAt tasks taskID status errMsg).2 ≠
          none) ∧
    (∀ err : GoError,
      taskStore_UpdateStatus (some err) updatedAt completedAt tasks taskID status errMsg =
        (tasks, some (wrap "failed to update task status" err))) := by
  refine ⟨?_, fun t h => setTaskStatus_of_ne _ _ _ _ _ t h, ?_,
    filter_id_length_of_nodup taskID tasks, ?_, fun err => rfl⟩
  · rintro ⟨t, ht, hid⟩
    have hpos : (tasks.filter (fun u => u.ID == taskID)).length ≠ 0 := by
      intro hzero
      rw [List.length_eq_zero, List.filter_eq_nil_iff] at hzero
      exact hzero t ht (by simpa using hid)
    simp [taskStore_UpdateStatus, hpos]
  · intro t hid
    unfold setTaskStatus
    cases errMsg <;> simp [hid]
  · intro habsent dbErr
    cases dbErr with
    | some err => exact ⟨rfl, by simp [taskStore_UpdateStatus]⟩
    | none =>
      have hzero : (tasks.filter (fun u => u.ID == taskID)).length = 0 := by
        rw [List.length_eq_zero, List.filter_eq_nil_iff]
        intro t ht hid
        exact habsent t ht (by simpa using hid)
      simp [taskStore_UpdateStatus, hzero,
        map_setTaskStatus_of_absent taskID status errMsg updatedAt completedAt tasks habsent]

/-- C20 on a table of two pending tasks: completing the second leaves the
first as it was. -/
theorem C20_UpdateStatus_touches_one_row_or_fails_witness :
    taskStore_UpdateStatus none 700 701 [pendingTask "task-1", pendingTask "task-2"] "task-2"
        TaskStatusCompleted none =
      ([pendingTask "task-1", pendingTask "task-2"].map
        (setTaskStatus "task-2" TaskStatusCompleted none 700 701), none) :=
  (C20_UpdateStatus_touches_one_row_or_fails 700 701
    [pendingTask "task-1", pendingTask "task-2"] "task-2" TaskStatusCompleted none).1
    ⟨pendingTask "task-2", by decide, rfl⟩

/-! ### The status of a fetched task -/

theorem setTaskStatus_ID (taskID status : String) (errMsg : Option String)
    (updatedAt completedAt : Time) (t : Task) :
    (setTaskStatus taskID status errMsg updatedAt completedAt t).ID = t.ID := by
  unfold setTaskStatus
  split <;> rfl

theorem taskStatus_map_setTaskStatus (taskID status : String) (errMsg : Option String)
    (updatedAt completedAt : Time) :
    ∀ tasks : List Task, (∃ t ∈ tasks, t.ID = taskID) →
      taskStatus (tasks.map (setTaskStatus taskID status errMsg updatedAt completedAt)) taskID =
        some status := by
  intro tasks
  induction tasks with
  | nil =>
    rintro ⟨t, ht, _⟩
    exact absurd ht (List.not_mem_nil t)
  | cons u rest ih =>
    intro hmem
    unfold taskStatus
    rw [List.map_cons]
    by_cases hu : u.ID = taskID
    · rw [List.find?_cons_of_pos _ (by rw [setTaskStatus_ID]; simpa using hu)]
      simp [setTaskStatus, hu]
    · rw [List.find?_cons_of_neg _ (by rw [setTaskStatus_ID]; simpa using hu)]
      have hrest : ∃ t ∈ rest, t.ID = taskID := by
        obtain ⟨t, ht, hid⟩ := hmem
        rcases List.mem_cons.1 ht with h | h
        · exact absurd (h ▸ hid) hu
        · exact ⟨t, h, hid⟩
      exact ih hrest

theorem taskStatus_map_setTaskStatus_of_ne (taskID other status : String)
    (errMsg : Option String) (updatedAt completedAt : Time) (hne : other ≠ taskID) :
    ∀ tasks : List Task,
      taskStatus (tasks.map (setTaskStatus taskID status errMsg updatedAt completedAt)) other =
        taskStatus tasks other := by
  intro tasks
  induction tasks with
  | nil => rfl
  | cons u rest ih =>
    unfold taskStatus at ih ⊢
    rw [List.map_cons]
    by_cases hu : u.ID = other
    · have hut : u.ID ≠ taskID := fun h => hne (hu.symm.trans h)
      rw [List.find?_cons_of_pos _ (by rw [setTaskStatus_ID]; simpa using hu),
        List.find?_cons_of_pos _ (by simpa using hu),
        setTaskStatus_of_ne _ _ _ _ _ u hut]
    · rw [List.find?_cons_of_neg _ (by rw [setTaskStatus_ID]; simpa using hu),
        List.find?_cons_of_neg _ (by simpa using hu)]
      exact ih

theorem handleFetchCommitEventOn_tasks (publishErr : Nat → Option GoError)
    (dbErr : Option GoError) (updatedAt completedAt : Time) (tasks : List Task)
    (event : FetchCommitEvent) (received : List Received) :
    ((handleFetchCommitEventOn publishErr dbErr updatedAt completedAt tasks event received).1 =
        tasks ∧
      statusUpdates
        (handleFetchCommitEventOn publishErr dbErr updatedAt completedAt tasks event
          received).2.1 = []) ∨
    ((handleFetchCommitEventOn publishErr dbErr updatedAt completedAt tasks event received).1 =
        (taskStore_UpdateStatus dbErr updatedAt completedAt tasks event.TaskID "completed"
          none).1 ∧
      statusUpdates
        (handleFetchCommitEventOn publishErr dbErr updatedAt completedAt tasks event
          received).2.1 = [(event.TaskID, "completed", none)]) := by
  unfold handleFetchCommitEventOn
  rcases (statusUpdates_completed_iff
    { publishErr := publishErr,
      updateErr := (taskStore_UpdateStatus dbErr updatedAt completedAt tasks event.TaskID
        TaskStatusCompleted none).2 } event received).2.1 with h | h
  · left
    simp only [h, List.foldl_nil, and_self]
  · right
    simp only [h, List.foldl_cons, List.foldl_nil]
    exact ⟨rfl, rfl⟩

/-- C12: let the task of the fetch-request be in the task table with a status
other than "completed".  When the `UPDATE` statement runs, the task's status
after the handler's run is "completed" if and only if the deliveries are
batches whose publishes all succeed, followed by the end of the stream (the
completion signal, or a closed channel) with no fetch error and no
cancellation before it.  Whether or not the `UPDATE` runs, the status is
"completed" afterwards only on such a run, the status of every other task is
what it was, and a run makes either no status update or exactly one, to
"completed" without error message, as its last action, after the last
save-request was published. -/
theorem C12_completed_iff_stream_ended_cleanly (publishErr : Nat → Option GoError)
    (updatedAt completedAt : Time) (tasks : List Task) (event : FetchCommitEvent)
    (received : List Received) (hrow : ∃ t ∈ tasks, t.ID = event.TaskID)
    (hopen : taskStatus tasks event.TaskID ≠ some "completed") :
    (taskStatus
        (handleFetchCommitEventOn publishErr none updatedAt completedAt tasks event received).1
        event.TaskID = some "completed" ↔
      ∃ (batches : List (List Commit)) (stop : Received) (rest : List Received),
        received = batches.map Received.batch ++ stop :: rest ∧ stop.isEnd = true ∧
          ∀ j, j < batches.length → publishErr j = none) ∧
    (∀ dbErr : Option GoError,
      taskStatus
          (handleFetchCommitEventOn publishErr dbErr updatedAt completedAt tasks event
            received).1 event.TaskID = some "completed" →
        ∃ (batches : List (List Commit)) (stop : Received) (rest : List Received),
          received = batches.map Received.batch ++ stop :: rest ∧ stop.isEnd = true ∧
            ∀ j, j < batches.length → publishErr j = none) ∧
    (∀ (dbErr : Option GoError) (other : String), other ≠ event.TaskID →
      taskStatus
          (handleFetchCommitEventOn publishErr dbErr updatedAt completedAt tasks event
            received).1 other = taskStatus tasks other) ∧
    (∀ dbErr : Option GoError,
      statusUpdates
          (handleFetchCommitEventOn publishErr dbErr updatedAt completedAt tasks event
            received).2.1 = [] ∨
        statusUpdates
          (handleFetchCommitEventOn publishErr dbErr updatedAt completedAt tasks event
            received).2.1 = [(event.TaskID, "completed", none)]) ∧
    (∀ dbErr : Option GoError,
      statusUpdates
          (handleFetchCommitEventOn publishErr dbErr updatedAt completedAt tasks event
            received).2.1 ≠ [] →
        (handleFetchCommitEventOn publishErr dbErr updatedAt completedAt tasks event
          received).2.1.getLast? =
          some (FetchAction.updateStatus event.TaskID "completed" none)) := by
  have hclean : ∀ dbErr : Option GoError,
      statusUpdates
          (handleFetchCommitEventOn publishErr dbErr updatedAt completedAt tasks event
            received).2.1 = [(event.TaskID, "completed", none)] ↔
        ∃ (batches : List (List Commit)) (stop : Received) (rest : List Received),
          received = batches.map Received.batch ++ stop :: rest ∧ stop.isEnd = true ∧
            ∀ j, j < batches.length → publishErr j = none := fun dbErr =>
    (statusUpdates_completed_iff
      { publishErr := publishErr,
        updateErr := (taskStore_UpdateStatus dbErr updatedAt completedAt tasks event.TaskID
          TaskStatusCompleted none).2 } event received).1
  have honly : ∀ dbErr : Option GoError,
      taskStatus
          (handleFetchCommitEventOn publishErr dbErr updatedAt completedAt tasks event
            received).1 event.TaskID = some "completed" →
        ∃ (batches : List (List Commit)) (stop : Received) (rest : List Received),
          received = batches.map Received.batch ++ stop :: rest ∧ stop.isEnd = true ∧
            ∀ j, j < batches.length → publishErr j = none := by
    intro dbErr hdone
    rcases handleFetchCommitEventOn_tasks publishErr dbErr updatedAt completedAt tasks event
      received with ⟨htasks, _⟩ | ⟨_, hcalls⟩
    · rw [htasks] at hdone
      exact absurd hdone hopen
    · exact (hclean dbErr).1 hcalls
  refine ⟨⟨honly none, fun h => ?_⟩, honly, ?_, ?_, ?_⟩
  · rcases handleFetchCommitEventOn_tasks publishErr none updatedAt completedAt tasks event
      received with ⟨_, hcalls⟩ | ⟨htasks, _⟩
    · rw [(hclean none).2 h] at hcalls
      simp at hcalls
    · rw [htasks]
      have hpos : (tasks.filter (fun u => u.ID == event.TaskID)).length ≠ 0 := by
        obtain ⟨t, ht, hid⟩ := hrow
        intro hzero
        rw [List.length_eq_zero, List.filter_eq_nil_iff] at hzero
        exact hzero t ht (by simpa using hid)
      have hrows : (taskStore_UpdateStatus none updatedAt completedAt tasks event.TaskID
          "completed" none).1 =
          tasks.map (setTaskStatus event.TaskID "completed" none updatedAt completedAt) := by
        simp [taskStore_UpdateStatus, hpos]
      rw [hrows]
      exact taskStatus_map_setTaskStatus event.TaskID "completed" none updatedAt completedAt
        tasks hrow
  · intro dbErr other hne
    rcases handleFetchCommitEventOn_tasks publishErr dbErr updatedAt completedAt tasks event
      received with ⟨htasks, _⟩ | ⟨htasks, _⟩
    · rw [htasks]
    · rw [htasks]
      cases dbErr with
      | some err => rfl
      | none =>
        have hrows : (taskStore_UpdateStatus none updatedAt completedAt tasks event.TaskID
            "completed" none).1 =
            tasks.map (setTaskStatus event.TaskID "completed" none updatedAt completedAt) := by
          unfold taskStore_UpdateStatus
          simp only []
          split <;> rfl
        rw [hrows]
        exact taskStatus_map_setTaskStatus_of_ne event.TaskID other "completed" none updatedAt
          completedAt hne tasks
  · intro dbErr
    rcases handleFetchCommitEventOn_tasks publishErr dbErr updatedAt completedAt tasks event
      received with ⟨_, hcalls⟩ | ⟨_, hcalls⟩
    · exact Or.inl hcalls
    · exact Or.inr hcalls
  · intro dbErr hne
    exact (statusUpdates_completed_iff
      { publishErr := publishErr,
        updateErr := (taskStore_UpdateStatus dbErr updatedAt completedAt tasks event.TaskID
          TaskStatusCompleted none).2 } event received).2.2 hne

/-- C12 on the stream of three commits in pages of two, with the task of the
fetch-request pending in the table: both batches are published, the stream
ends, and the task's status is "completed" afterwards. -/
theorem C12_completed_iff_stream_ended_cleanly_witness :
    taskStatus [pendingTask "task-1", pendingTask "task-2"] "task-1" = some "pending" ∧
      taskStatus
        (handleFetchCommitEventOn (fun _ => none) none 700 701
          [pendingTask "task-1", pendingTask "task-2"] fetchRequest
          (deliveries (streamCommits threeCommits 2 octoDemo "repo-1" 5 20 5))).1
        fetchRequest.TaskID = some "completed" :=
  ⟨by decide,
    (C12_completed_iff_stream_ended_cleanly (fun _ => none) 700 701
      [pendingTask "task-1", pendingTask "task-2"] fetchRequest
      (deliveries (streamCommits threeCommits 2 octoDemo "repo-1" 5 20 5))
      ⟨pendingTask "task-1", by decide, rfl⟩ (by decide)).1.2
      ⟨[mapCommits threeCommits 1 octoDemo "repo-1" [commitItem "c3" 30, commitItem "c2" 20],
          mapCommits threeCommits 2 octoDemo "repo-1" [commitItem "c1" 10]],
        Received.done, [], by decide, rfl, fun _ _ => rfl⟩⟩

/-! ### The task service: sweeps -/

theorem handleTask_ok (env : ServiceEnv) (w : World) (repo : Repository) (since : Option Time)
    (hcreate : env.taskCreateErr w.handled = none) (hpublish : env.publishErr w.handled = none) :
    handleTask env w repo since =
      ({ w with
          tasks := w.tasks ++ [newTask env w.handled repo],
          published := w.published ++ [newFetchRequest env w.handled repo since],
          handled := w.handled + 1 },
        (newTask env w.handled repo).ID, none) := by
  unfold handleTask
  simp only [hcreate, hpublish]

theorem startLoop_ok (env : ServiceEnv) (hcreate : ∀ k, env.taskCreateErr k = none)
    (hpublish : ∀ k, env.publishErr k = none) :
    ∀ (repos : List Repository) (w : World),
      startLoop env w repos =
        ({ w with
            tasks := w.tasks ++ sweepTasks env w.handled (activeRepos repos),
            published := w.published ++ sweepRequests env w.handled (activeRepos repos),
            handled := w.handled + (activeRepos repos).length }, none) := by
  intro repos
  induction repos with
  | nil =>
    intro w
    simp [startLoop, activeRepos, sweepTasks, sweepRequests]
  | cons repo rest ih =>
    intro w
    by_cases hactive : repo.IsActive = true
    · have hfilter : activeRepos (repo :: rest) = repo :: activeRepos rest := by
        unfold activeRepos
        rw [List.filter_cons_of_pos (by simpa using hactive)]
      unfold startLoop
      simp only [hactive, Bool.not_true, Bool.false_eq_true, if_false]
      rw [handleTask_ok env w repo repo.LastFetchedCommitTime (hcreate _) (hpublish _)]
      simp only [ih, hfilter, sweepTasks, sweepRequests, List.length_cons, List.append_assoc,
        List.singleton_append]
      rw [show w.handled + 1 + (activeRepos rest).length =
        w.handled + ((activeRepos rest).length + 1) by omega]
    · have hfilter : activeRepos (repo :: rest) = activeRepos rest := by
        unfold activeRepos
        rw [List.filter_cons_of_neg (by simpa using hactive)]
      unfold startLoop
      have hfalse : repo.IsActive = false := by simpa using hactive
      simp only [hfalse, Bool.not_false, if_true]
      rw [ih, hfilter]

theorem sweepTasks_fields (env : ServiceEnv) :
    ∀ (repos : List Repository) (k : Nat),
      (sweepTasks env k repos).map (fun t => (t.RepoOwner, t.RepoName, t.RepositoryID, t.Status)) =
        repos.map (fun r => (r.Owner, r.Name, r.ID, TaskStatusPending)) := by
  intro repos
  induction repos with
  | nil =>
    intro k
    rfl
  | cons r rest ih =>
    intro k
    simp only [sweepTasks, List.map_cons, ih (k + 1)]
    rfl

theorem sweepRequests_fields (env : ServiceEnv) :
    ∀ (repos : List Repository) (k : Nat),
      (sweepRequests env k repos).map
          (fun e => (e.RepoInfo.Owner, e.RepoInfo.Name, e.RepoID, e.Since)) =
        repos.map (fun r => (r.Owner, r.Name, r.ID,
          match r.LastFetchedCommitTime with
          | some t => t
          | none => r.CommitTrackingStartTime)) := by
  intro repos
  induction repos with
  | nil =>
    intro k
    rfl
  | cons r rest ih =>
    intro k
    simp only [sweepRequests, List.map_cons, ih (k + 1)]
    rfl

theorem sweepRequests_taskIDs (env : ServiceEnv) :
    ∀ (repos : List Repository) (k : Nat),
      (sweepRequests env k repos).map (fun e => e.TaskID) =
        (sweepTasks env k repos).map (fun t => t.ID) := by
  intro repos
  induction repos with
  | nil =>
    intro k
    rfl
  | cons r rest ih =>
    intro k
    simp only [sweepRequests, sweepTasks, List.map_cons, ih (k + 1)]
    rfl

/-- C15: when the repository list can be read and every task creation and
publish succeeds, one sweep returns no error, appends to the task table one
task per active repository, in order and in status pending with that
repository's id, owner and name, and publishes one fetch-request per active
repository, in the same order, carrying the id of the task just created, the
repository's id, owner and name, and since = `last_fetched_commit_time` if
present, else `commit_tracking_start_time`.  Inactive repositories get neither. -/
theorem C15_sweep_triggers_each_active_repository (env : ServiceEnv) (w : World)
    (hlist : env.listErr = none)
    (hcreate : ∀ k, env.taskCreateErr k = none)
    (hpublish : ∀ k, env.publishErr k = none) :
    StartTasks env w =
      ({ w with
          tasks := w.tasks ++ sweepTasks env w.handled (activeRepos w.db.repositories),
          published := w.published ++
            sweepRequests env w.handled (activeRepos w.db.repositories),
          handled := w.handled + (activeRepos w.db.repositories).length }, none) ∧
    (∀ r, r ∈ activeRepos w.db.repositories ↔ r ∈ w.db.repositories ∧ r.IsActive = true) ∧
    (sweepTasks env w.handled (activeRepos w.db.repositories)).map
        (fun t => (t.RepoOwner, t.RepoName, t.RepositoryID, t.Status)) =
      (activeRepos w.db.repositories).map
        (fun r => (r.Owner, r.Name, r.ID, TaskStatusPending)) ∧
    (sweepRequests env w.handled (activeRepos w.db.repositories)).map
        (fun e => (e.RepoInfo.Owner, e.RepoInfo.Name, e.RepoID, e.Since)) =
      (activeRepos w.db.repositories).map (fun r => (r.Owner, r.Name, r.ID,
        match r.LastFetchedCommitTime with
        | some t => t
        | none => r.CommitTrackingStartTime)) ∧
    (sweepRequests env w.handled (activeRepos w.db.repositories)).map (fun e => e.TaskID) =
      (sweepTasks env w.handled (activeRepos w.db.repositories)).map (fun t => t.ID) := by
  refine ⟨?_, ?_, sweepTasks_fields env _ _, sweepRequests_fields env _ _,
    sweepRequests_taskIDs env _ _⟩
  · unfold StartTasks
    rw [hlist]
    exact startLoop_ok env hcreate hpublish w.db.repositories w
  · intro r
    unfold activeRepos
    simp [List.mem_filter]

/-- C15 on an active repository with a cursor, an inactive one and an active
one without a cursor: two tasks and two fetch-requests, with since 10 and 1. -/
theorem C15_sweep_triggers_each_active_repository_witness :
    (StartTasks calmEnv (worldOf [trackedRepo "octo" "demo" (some 10),
        inactiveRepo "octo" "idle", trackedRepo "octo" "fresh" none])).1.published.map
        (fun e => (e.RepoInfo.Name, e.TaskID, e.Since)) =
      [("demo", "task-0", 10), ("fresh", "task-1", 1)] := by
  rw [(C15_sweep_triggers_each_active_repository calmEnv
    (worldOf [trackedRepo "octo" "demo" (some 10), inactiveRepo "octo" "idle",
      trackedRepo "octo" "fresh" none]) rfl (fun _ => rfl) (fun _ => rfl)).1]
  decide

/-! ### The repository service -/

/-- C17: when a repository row with the given owner and name exists (and the
existence check itself runs), `Create` returns `ErrDuplicateRepository`, the
zero repository and no task id, and the world is unchanged: no call of the
remote API, no repository row created or changed, no task, no event. -/
theorem C17_Create_rejects_tracked_repository (env : ServiceEnv) (w : World) (info : RepoInfo)
    (since : Option Time)
    (hcheck : env.checkErr = none)
    (htracked : ∃ r ∈ w.db.repositories, repoMatches info r = true) :
    Create env w info since = (w, Repository.zero, "", some ErrDuplicateRepository) := by
  obtain ⟨r, hr, hmatch⟩ := htracked
  have hpos : (w.db.repositories.filter (repoMatches info)).length > 0 :=
    List.length_pos_of_mem (List.mem_filter.2 ⟨hr, hmatch⟩)
  unfold Create repoStore_CheckExists
  simp only [hcheck, hpos, decide_True]

/-- C17 when octo/demo is already tracked. -/
theorem C17_Create_rejects_tracked_repository_witness :
    Create calmEnv (worldOf [trackedRepo "octo" "demo" none]) octoDemo none =
      (worldOf [trackedRepo "octo" "demo" none], Repository.zero, "",
        some ErrDuplicateRepository) :=
  C17_Create_rejects_tracked_repository calmEnv (worldOf [trackedRepo "octo" "demo" none])
    octoDemo none rfl ⟨trackedRepo "octo" "demo" none, by decide, by decide⟩

/-! ### Reset -/

theorem repoStore_Reset_ok (faults : ResetFaults) (now : Time) (db db1 : DB) (info : RepoInfo)
    (startTime : Option Time)
    (h : repoStore_Reset faults now db info startTime = (db1, none)) :
    db1 = { repositories := db.repositories.map (resetRow info startTime now),
            commits := db.commits.filter (fun c => !commitOf info c) } := by
  unfold repoStore_Reset at h
  cases hd : faults.delete with
  | some e => simp [hd] at h
  | none =>
    cases hu : faults.update with
    | some e => simp [hd, hu] at h
    | none =>
      cases ht : faults.transaction with
      | some e => simp [hd, hu, ht] at h
      | none =>
        simp only [hd, hu, ht, Prod.mk.injEq, and_true] at h
        exact h.symm

theorem repoStore_Reset_fst (faults : ResetFaults) (now : Time) (db : DB) (info : RepoInfo)
    (startTime : Option Time) :
    (repoStore_Reset faults now db info startTime).1 = db ∨
      (repoStore_Reset faults now db info startTime).1 =
        { repositories := db.repositories.map (resetRow info startTime now),
          commits := db.commits.filter (fun c => !commitOf info c) } := by
  unfold repoStore_Reset
  cases faults.delete with
  | some e => exact Or.inl rfl
  | none =>
    cases faults.update with
    | some e => exact Or.inl rfl
    | none =>
      cases faults.transaction with
      | some e => exact Or.inl rfl
      | none => exact Or.inr rfl

theorem repoMatches_resetRow (info info1 : RepoInfo) (startTime : Option Time) (now : Time)
    (r : Repository) :
    repoMatches info (resetRow info1 startTime now r) = repoMatches info r := by
  unfold resetRow
  split <;> rfl

theorem resetRow_cursor (info : RepoInfo) (startTime : Option Time) (now : Time)
    (r : Repository) :
    (resetRow info startTime now r).LastFetchedCommitTime = r.LastFetchedCommitTime := by
  unfold resetRow
  split <;> rfl

theorem find?_map_resetRow (info info1 : RepoInfo) (startTime : Option Time) (now : Time) :
    ∀ rows : List Repository,
      (rows.map (resetRow info1 startTime now)).find? (repoMatches info) =
        (rows.find? (repoMatches info)).map (resetRow info1 startTime now) := by
  intro rows
  induction rows with
  | nil => rfl
  | cons r rest ih =>
    by_cases hr : repoMatches info r = true
    · rw [List.map_cons, List.find?_cons_of_pos _ (by rw [repoMatches_resetRow]; exact hr),
        List.find?_cons_of_pos _ hr]
      rfl
    · rw [List.map_cons, List.find?_cons_of_neg _ (by rw [repoMatches_resetRow]; exact hr),
        List.find?_cons_of_neg _ hr, ih]

theorem cursor_map_resetRow (info info1 : RepoInfo) (startTime : Option Time) (now : Time)
    (rows : List Repository) (commits commits1 : List Commit) :
    cursor { repositories := rows.map (resetRow info1 startTime now), commits := commits1 }
        info =
      cursor { repositories := rows, commits := commits } info := by
  unfold cursor
  simp only [find?_map_resetRow]
  cases rows.find? (repoMatches info) with
  | none => rfl
  | some r => exact resetRow_cursor info1 startTime now r

theorem lastFetchedAt_map_resetRow (info : RepoInfo) (startTime : Option Time) (now : Time)
    (rows : List Repository) (commits : List Commit) :
    lastFetchedAt { repositories := rows.map (resetRow info startTime now), commits := commits }
        info = none := by
  unfold lastFetchedAt
  simp only [find?_map_resetRow]
  cases hfind : rows.find? (repoMatches info) with
  | none => rfl
  | some r =>
    have hmatch : repoMatches info r = true := by
      have := List.find?_some hfind
      exact this
    simp [resetRow, hmatch]

/-- C18: after a successful store `Reset` of a repository, no commit row with
its owner and name remains and the commit table is the old one without those
rows, so the commits of every other repository are unchanged; the repository
table is the old one with `resetRow` applied to each row, which leaves every
row of another repository unchanged and clears `last_fetched_at` on the rows of
this one, so the repository's `last_fetched_at` is absent afterwards. -/
theorem C18_Reset_deletes_commits_and_clears_last_fetched_at (faults : ResetFaults)
    (now : Time) (db db1 : DB) (info : RepoInfo) (startTime : Option Time)
    (hok : repoStore_Reset faults now db info startTime = (db1, none)) :
    (∀ c ∈ db1.commits, commitOf info c = false) ∧
    db1.commits = db.commits.filter (fun c => !commitOf info c) ∧
    (∀ other : RepoInfo, (other.Name ≠ info.Name ∨ other.Owner ≠ info.Owner) →
      db1.commits.filter (commitOf other) = db.commits.filter (commitOf other)) ∧
    lastFetchedAt db1 info = none ∧
    db1.repositories = db.repositories.map (resetRow info startTime now) ∧
    (∀ r : Repository, repoMatches info r = false → resetRow info startTime now r = r) ∧
    (∀ r : Repository, repoMatches info r = true →
      (resetRow info startTime now r).LastFetchedAt = none) := by
  have hdb := repoStore_Reset_ok faults now db db1 info startTime hok
  subst hdb
  refine ⟨?_, rfl, ?_, lastFetchedAt_map_resetRow info startTime now _ _, rfl, ?_, ?_⟩
  · intro c hc
    have := (List.mem_filter.1 hc).2
    simpa using this
  · intro other hother
    simp only [List.filter_filter]
    apply List.filter_congr
    intro c _
    by_cases hc : commitOf other c = true
    · have hnot : commitOf info c = false := by
        simp only [commitOf, Bool.and_eq_true, beq_iff_eq] at hc
        simp only [commitOf, Bool.and_eq_false_iff, beq_eq_false_iff_ne]
        rcases hother with h | h
        · exact Or.inl (fun heq => h (hc.1.symm.trans heq))
        · exact Or.inr (fun heq => h (hc.2.symm.trans heq))
      simp [hc, hnot]
    · simp [hc]
  · intro r hr
    simp [resetRow, hr]
  · intro r hr
    simp [resetRow, hr]

/-- C18 on octo/demo with one commit of its own and one of octo/other. -/
theorem C18_Reset_deletes_commits_and_clears_last_fetched_at_witness :
    (repoStore_Reset noResetFaults 60
        { repositories := [trackedRepo "octo" "demo" (some 10)],
          commits := [commitAt "octo" "demo" "a1" 10, commitAt "octo" "other" "z9" 4] }
        octoDemo (some 1)).1.commits =
      List.filter (fun c => !commitOf octoDemo c)
        [commitAt "octo" "demo" "a1" 10, commitAt "octo" "other" "z9" 4] :=
  (C18_Reset_deletes_commits_and_clears_last_fetched_at noResetFaults 60
    { repositories := [trackedRepo "octo" "demo" (some 10)],
      commits := [commitAt "octo" "demo" "a1" 10, commitAt "octo" "other" "z9" 4] }
    (repoStore_Reset noResetFaults 60
      { repositories := [trackedRepo "octo" "demo" (some 10)],
        commits := [commitAt "octo" "demo" "a1" 10, commitAt "octo" "other" "z9" 4] }
      octoDemo (some 1)).1
    octoDemo (some 1) rfl).2.1

/-- C19 (counterexample): octo/demo has the cursor 10 and one commit; the store
`Reset` succeeds and deletes the commit, and the cursor is still 10. -/
theorem C19_Reset_keeps_the_cursor :
    (repoStore_Reset noResetFaults 60
        { repositories := [trackedRepo "octo" "demo" (some 10)],
          commits := [commitAt "octo" "demo" "a1" 10] } octoDemo (some 1)).2 = none ∧
    (repoStore_Reset noResetFaults 60
        { repositories := [trackedRepo "octo" "demo" (some 10)],
          commits := [commitAt "octo" "demo" "a1" 10] } octoDemo (some 1)).1.commits = [] ∧
    cursor (repoStore_Reset noResetFaults 60
        { repositories := [trackedRepo "octo" "demo" (some 10)],
          commits := [commitAt "octo" "demo" "a1" 10] } octoDemo (some 1)).1 octoDemo =
      some 10 := by
  decide

theorem handleTask_db (env : ServiceEnv) (w : World) (repo : Repository)
    (since : Option Time) : (handleTask env w repo since).1.db = w.db := by
  unfold handleTask
  cases hc : env.taskCreateErr w.handled with
  | some e => simp only [hc]
  | none =>
    cases hp : env.publishErr w.handled with
    | some e => simp only [hc, hp]
    | none => simp only [hc, hp]

theorem TriggerTask_db (env : ServiceEnv) (w : World) (info : RepoInfo) (since : Option Time) :
    (TriggerTask env w info since).1.db = w.db := by
  unfold TriggerTask
  cases hg : repoStore_Get env w.db info with
  | error e => simp only
  | ok repo =>
    simp only
    exact handleTask_db env w repo since

/-- C19 (amended): a `Reset`, by the store or by the repository service,
successful or not, leaves `last_fetched_commit_time` of every repository as it
was before the reset; what a successful reset clears is `last_fetched_at`. -/
theorem C19_Reset_leaves_cursor_unchanged (env : ServiceEnv) (faults : ResetFaults)
    (now : Time) (info other : RepoInfo) (startTime : Option Time) :
    (∀ db : DB, cursor (repoStore_Reset faults now db info startTime).1 other =
      cursor db other) ∧
    (∀ w : World, cursor (Reset env faults now w info startTime).1.db other =
      cursor w.db other) ∧
    (∀ db db1 : DB, repoStore_Reset faults now db info startTime = (db1, none) →
      lastFetchedAt db1 info = none) := by
  have hstore : ∀ db : DB, cursor (repoStore_Reset faults now db info startTime).1 other =
      cursor db other := by
    intro db
    rcases repoStore_Reset_fst faults now db info startTime with h | h
    · rw [h]
    · rw [h]
      exact cursor_map_resetRow other info startTime now db.repositories db.commits _
  refine ⟨hstore, ?_, ?_⟩
  · intro w
    unfold Reset
    cases service_CheckExists env w.db info with
    | some e => rfl
    | none =>
      have hs := hstore w.db
      rcases hr : repoStore_Reset faults now w.db info startTime with ⟨db1, _ | e⟩
      · rw [hr] at hs
        simp only at hs
        have hdb := TriggerTask_db env { w with db := db1 } info startTime
        simp only at hdb
        have key : ∀ run : World × String × Option GoError, run.1.db = db1 →
            cursor (match run with
              | (w2, _, some err) => (w2, "", some (wrap "error sending task event" err))
              | (w2, taskID, none) => (w2, taskID, none)).1.db other = cursor w.db other := by
          rintro ⟨w2, tid, _ | e2⟩ hrun
          · simp only at hrun ⊢
            rw [hrun]
            exact hs
          · simp only at hrun ⊢
            rw [hrun]
            exact hs
        exact key _ hdb
      · rfl
  · intro db db1 hok
    rw [repoStore_Reset_ok faults now db db1 info startTime hok]
    exact lastFetchedAt_map_resetRow info startTime now _ _

/-- C19 (amended) on a successful reset of octo/demo: `last_fetched_at` is absent afterwards. -/
theorem C19_Reset_leaves_cursor_unchanged_witness :
    lastFetchedAt (repoStore_Reset noResetFaults 60
        { repositories := [trackedRepo "octo" "demo" (some 10)],
          commits := [commitAt "octo" "demo" "a1" 10] } octoDemo (some 1)).1 octoDemo = none :=
  (C19_Reset_leaves_cursor_unchanged calmEnv noResetFaults 60 octoDemo octoDemo (some 1)).2.2
    { repositories := [trackedRepo "octo" "demo" (some 10)],
      commits := [commitAt "octo" "demo" "a1" 10] } _ rfl

/-! ### Adding a tracked repository -/

theorem handleTask_of_ok (env : ServiceEnv) (w w1 : World) (repo : Repository)
    (since : Option Time) (taskID : String)
    (h : handleTask env w repo since = (w1, taskID, none)) :
    w1 = { w with
        tasks := w.tasks ++ [newTask env w.handled repo],
        published := w.published ++ [newFetchRequest env w.handled repo since],
        handled := w.handled + 1 } ∧
      taskID = (newTask env w.handled repo).ID := by
  unfold handleTask at h
  cases hc : env.taskCreateErr w.handled with
  | some e => simp [hc] at h
  | none =>
    cases hp : env.publishErr w.handled with
    | some e => simp [hc, hp] at h
    | none =>
      simp only [hc, hp, Prod.mk.injEq, and_true] at h
      exact ⟨h.1.symm, h.2.symm⟩

theorem TriggerTask_of_ok (env : ServiceEnv) (w w1 : World) (info : RepoInfo)
    (since : Option Time) (taskID : String)
    (h : TriggerTask env w info since = (w1, taskID, none)) :
    ∃ repo, w.db.repositories.find? (repoMatches info) = some repo ∧
      w1 = { w with
        tasks := w.tasks ++ [newTask env w.handled repo],
        published := w.published ++ [newFetchRequest env w.handled repo since],
        handled := w.handled + 1 } ∧
      taskID = (newTask env w.handled repo).ID := by
  unfold TriggerTask repoStore_Get at h
  cases hg : env.getErr with
  | some e => simp [hg] at h
  | none =>
    cases hf : w.db.repositories.find? (repoMatches info) with
    | none => simp [hg, hf] at h
    | some repo =>
      simp only [hg, hf] at h
      exact ⟨repo, rfl, handleTask_of_ok env w w1 repo since taskID h⟩

theorem find?_append_of_none (info : RepoInfo) (rows : List Repository) (r repo : Repository)
    (hnone : (rows.filter (repoMatches info)).length = 0)
    (hfind : (rows ++ [r]).find? (repoMatches info) = some repo) : repo = r := by
  have hrows : rows.find? (repoMatches info) = none := by
    rw [List.find?_eq_none]
    intro x hx hmatch
    rw [List.length_eq_zero, List.filter_eq_nil_iff] at hnone
    exact hnone x hx hmatch
  rw [List.find?_append, hrows] at hfind
  simp only [Option.none_or] at hfind
  by_cases hr : repoMatches info r = true
  · rw [List.find?_cons_of_pos _ hr] at hfind
    exact (Option.some.inj hfind).symm
  · rw [List.find?_cons_of_neg _ hr] at hfind
    simp at hfind

/-- C16 (counterexample): GitHub reports octo/demo as created at time 100 and
the clock reads 500 when the repository is mapped.  `Create` with no since
succeeds, creates a pending task, and both the published fetch-request's since
and the stored `commit_tracking_start_time` are 500, the creation time of the
tracked row, while `RepoCreatedAt` is 100. -/
theorem C16_since_is_not_the_remote_creation_time :
    (Create calmEnv (worldOf []) octoDemo none).2.2.2 = none ∧
    (Create calmEnv (worldOf []) octoDemo none).1.tasks.map (fun t => t.Status) =
      ["pending"] ∧
    (Create calmEnv (worldOf []) octoDemo none).1.published.map (fun e => e.Since) = [500] ∧
    (Create calmEnv (worldOf []) octoDemo none).1.db.repositories.map
        (fun r => (r.CommitTrackingStartTime, r.CreatedAt, r.RepoCreatedAt)) =
      [(500, 500, 100)] := by
  decide

theorem repoStore_CheckExists_false (env : ServiceEnv) (db : DB) (info : RepoInfo)
    (h : repoStore_CheckExists env db info = (false, none)) :
    (db.repositories.filter (repoMatches info)).length = 0 := by
  unfold repoStore_CheckExists at h
  cases hc : env.checkErr with
  | some e => simp [hc] at h
  | none =>
    simp only [hc, Prod.mk.injEq, decide_eq_false_iff_not, and_true] at h
    omega

theorem github_GetRepository_ok (env : ServiceEnv) (w wg : World) (info : RepoInfo)
    (fetched : Repository) (h : github_GetRepository env w info = (wg, fetched, none)) :
    wg = { w with remoteCalls := w.remoteCalls ++ [info] } ∧
      fetched = mapToRepository ("repo-" ++ env.newRepoID) env.repoNow (env.remote info).1 := by
  unfold github_GetRepository at h
  rcases hr : env.remote info with ⟨d, _ | e⟩
  · simp only [hr, Prod.mk.injEq, and_true] at h
    exact ⟨h.1.symm, h.2.symm⟩
  · simp [hr] at h

theorem repoStore_Create_ok (env : ServiceEnv) (db db2 : DB) (r : Repository)
    (h : repoStore_Create env db r = (db2, none)) :
    db2 = { db with repositories := db.repositories ++ [r] } := by
  unfold repoStore_Create at h
  cases hc : env.repoCreateErr with
  | some e =>
    by_cases hdup : errorsIs e gormErrDuplicatedKey = true
    · simp [hc, hdup] at h
    · simp [hc, hdup] at h
  | none =>
    simp only [hc, Prod.mk.injEq, and_true] at h
    exact h.symm

/-- The steps of a successful `Create`, one after the other. -/
theorem Create_of_ok (env : ServiceEnv) (w w1 : World) (info : RepoInfo) (since : Option Time)
    (repo : Repository) (taskID : String)
    (hok : Create env w info since = (w1, repo, taskID, none)) :
    (w.db.repositories.filter (repoMatches info)).length = 0 ∧
    repo = { mapToRepository ("repo-" ++ env.newRepoID) env.repoNow (env.remote info).1 with
        CommitTrackingStartTime := since.getD env.repoNow } ∧
    TriggerTask env
        { w with
          db := { w.db with repositories := w.db.repositories ++ [repo] },
          remoteCalls := w.remoteCalls ++ [info] }
        info (some repo.CommitTrackingStartTime) = (w1, taskID, none) := by
  unfold Create at hok
  split at hok
  · simp at hok
  · simp at hok
  · rename_i hcheck
    split at hok
    · simp at hok
    · rename_i wg fetched hgh
      obtain ⟨hwg, hfetched⟩ := github_GetRepository_ok env w wg info fetched hgh
      simp only at hok
      split at hok
      · simp at hok
      · rename_i db2 hcreate
        have hdb2 := repoStore_Create_ok env _ db2 _ hcreate
        split at hok
        · simp at hok
        · rename_i w3 tid htrig
          simp only [Prod.mk.injEq, and_true] at hok
          obtain ⟨hw3, hrepo, htid⟩ := hok
          subst hw3 htid hwg hfetched hdb2 hrepo
          refine ⟨repoStore_CheckExists_false env w.db info hcheck, ?_, ?_⟩
          · cases since <;> rfl
          · cases since <;> exact htrig

/-- C16 (amended): when `Create` succeeds, the repository it returns is the
one mapped from the remote answer, whose `CreatedAt` is the clock reading taken
while mapping and whose `RepoCreatedAt` is the `created_at` the remote reports,
with `commit_tracking_start_time` set to the given since, or to that `CreatedAt`
when no since is given; this row is appended to the repository table, one task
in status pending is appended to the task table, and one fetch-request is
published, carrying that task's id and since = the stored
`commit_tracking_start_time`. -/
theorem C16_Create_tracks_from_the_row_creation_time (env : ServiceEnv) (w w1 : World)
    (info : RepoInfo) (since : Option Time) (repo : Repository) (taskID : String)
    (hok : Create env w info since = (w1, repo, taskID, none)) :
    repo.CreatedAt = env.repoNow ∧
    repo.RepoCreatedAt = (env.remote info).1.CreatedAt ∧
    repo.CommitTrackingStartTime = since.getD repo.CreatedAt ∧
    w1.db.repositories = w.db.repositories ++ [repo] ∧
    w1.tasks = w.tasks ++ [newTask env w.handled repo] ∧
    (newTask env w.handled repo).Status = TaskStatusPending ∧
    taskID = (newTask env w.handled repo).ID ∧
    w1.published = w.published ++
      [newFetchRequest env w.handled repo (some repo.CommitTrackingStartTime)] ∧
    (newFetchRequest env w.handled repo (some repo.CommitTrackingStartTime)).Since =
      repo.CommitTrackingStartTime ∧
    (newFetchRequest env w.handled repo (some repo.CommitTrackingStartTime)).TaskID = taskID ∧
    w1.remoteCalls = w.remoteCalls ++ [info] := by
  obtain ⟨hnone, hrepo, htrig⟩ := Create_of_ok env w w1 info since repo taskID hok
  obtain ⟨stored, hfind, hw1, htask⟩ := TriggerTask_of_ok env _ w1 info _ taskID htrig
  have hstored : stored = repo :=
    find?_append_of_none info w.db.repositories repo stored hnone hfind
  subst hstored
  have hfields : stored.CreatedAt = env.repoNow ∧
      stored.RepoCreatedAt = (env.remote info).1.CreatedAt ∧
      stored.CommitTrackingStartTime = since.getD stored.CreatedAt := by
    subst hrepo
    cases since <;> exact ⟨rfl, rfl, rfl⟩
  refine ⟨hfields.1, hfields.2.1, hfields.2.2, ?_, ?_, rfl, htask, ?_, rfl, ?_, ?_⟩
  · rw [hw1]
  · rw [hw1]
  · rw [hw1]
  · rw [htask]
    rfl
  · rw [hw1]

/-- C16 (amended) on the first tracking of octo/demo with since 42: the
fetch-request's since and the stored start time are both 42. -/
theorem C16_Create_tracks_from_the_row_creation_time_witness :
    (Create calmEnv (worldOf []) octoDemo (some 42)).2.1.CommitTrackingStartTime =
      (some (42 : Time)).getD (Create calmEnv (worldOf []) octoDemo (some 42)).2.1.CreatedAt :=
  (C16_Create_tracks_from_the_row_creation_time calmEnv (worldOf [])
    (Create calmEnv (worldOf []) octoDemo (some 42)).1 octoDemo (some 42)
    (Create calmEnv (worldOf []) octoDemo (some 42)).2.1
    (Create calmEnv (worldOf []) octoDemo (some 42)).2.2.1 (by decide)).2.2.1

/-! ### Missing tasks and the API boundary -/

/-- C21 (evaluation at the failing input): on a task table that has no task
with the id, `Get` fails with `gorm.ErrRecordNotFound` wrapped as "task not
found" and `UpdateStatus` with `gorm.ErrRecordNotFound` itself; neither
matches `ErrTaskNotFound` under `errors.Is`, and `MapError` answers 500 for
both, as it does for `ErrTaskNotFound` itself, whose code is not the
"JobNotFound" that `MapError` maps to 404. -/
theorem C21_missing_task_is_answered_with_500 :
    (taskStore_Get none [pendingTask "task-1"] "task-9").2 =
        some (wrap "task not found" gormErrRecordNotFound) ∧
      errorsIs (wrap "task not found" gormErrRecordNotFound) ErrTaskNotFound = false ∧
      Handler_GetTask none [pendingTask "task-1"] "task-9" =
        (500, some (NewHTTPError "InternalServer" "internal server error" [])) ∧
      (taskStore_UpdateStatus none 700 701 [pendingTask "task-1"] "task-9" TaskStatusCompleted
          none).2 = some gormErrRecordNotFound ∧
      errorsIs gormErrRecordNotFound ErrTaskNotFound = false ∧
      (MapError (some gormErrRecordNotFound)).1 = 500 ∧
      (MapError (some ErrTaskNotFound)).1 = 500 := by
  decide

/-- C25 (counterexample): a domain error whose code is "JobNotFound", which is
not among the codes the claim lists, is mapped to 404 and not to 500. -/
theorem C25_JobNotFound_is_mapped_to_404 :
    MapError (some (domain "JobNotFound" "job not found")) =
        (404, NewHTTPError "JobNotFound" "job not found" []) ∧
      (MapError (some (domain "JobNotFound" "job not found"))).1 ≠ 500 := by
  decide

theorem MapError_of_code (e : GoError) (code message : String)
    (h : e.errorsAs = some (code, message)) :
    MapError (some e) =
      if code = "RepositoryNotFound" ∨ code = "TrackedRepositoryNotFound" ∨
          code = "JobNotFound" then (404, NewHTTPError code message [])
      else if code = "DuplicateRepository" then (409, NewHTTPError code message [])
      else if code = "Unauthorized" then (401, NewHTTPError code message [])
      else if code = "RateLimitExceeded" then (429, NewHTTPError code message [])
      else if code = "InvalidResponse" then (502, NewHTTPError code message [])
      else if code = "InternalServer" then (500, NewHTTPError code message [])
      else (500, NewHTTPError "InternalServer" "internal server error" []) := by
  unfold MapError
  simp only [h]

/-- C25 (amended): `MapError` answers 200 with the zero body for nil.  For an
error on whose wrap chain `errors.As` finds a `DomainError` with code `code`
and message `message`, the answer depends on `code` only: 404 for
RepositoryNotFound, TrackedRepositoryNotFound and JobNotFound, 409 for
DuplicateRepository, 401 for Unauthorized, 429 for RateLimitExceeded, 502 for
InvalidResponse, 500 for InternalServer, each with the body
`NewHTTPError(code, message)`; and 500 with code InternalServer and the
message "internal server error" for every other code and for an error without
a `DomainError` on its chain.  Wrapping with `%w` does not change the answer. -/
theorem C25_MapError_is_decided_by_the_domain_code :
    MapError none = (200, HTTPError.zero) ∧
    (∀ (e : GoError) (code message : String), e.errorsAs = some (code, message) →
      (code ∈ ["RepositoryNotFound", "TrackedRepositoryNotFound", "JobNotFound"] →
        MapError (some e) = (404, NewHTTPError code message [])) ∧
      (code = "DuplicateRepository" → MapError (some e) = (409, NewHTTPError code message [])) ∧
      (code = "Unauthorized" → MapError (some e) = (401, NewHTTPError code message [])) ∧
      (code = "RateLimitExceeded" → MapError (some e) = (429, NewHTTPError code message [])) ∧
      (code = "InvalidResponse" → MapError (some e) = (502, NewHTTPError code message [])) ∧
      (code = "InternalServer" → MapError (some e) = (500, NewHTTPError code message [])) ∧
      (code ∉ ["RepositoryNotFound", "TrackedRepositoryNotFound", "JobNotFound",
          "DuplicateRepository", "Unauthorized", "RateLimitExceeded", "InvalidResponse",
          "InternalServer"] →
        MapError (some e) = (500, NewHTTPError "InternalServer" "internal server error" []))) ∧
    (∀ e : GoError, e.errorsAs = none →
      MapError (some e) = (500, NewHTTPError "InternalServer" "internal server error" [])) ∧
    (∀ (msg : String) (e : GoError), MapError (some (wrap msg e)) = MapError (some e)) ∧
    (∀ (code message : String), (domain code message).errorsAs = some (code, message)) ∧
    (∀ (code message : String) (err : GoError),
      (domainWith code message err).errorsAs = some (code, message)) := by
  refine ⟨rfl, ?_, ?_, fun msg e => rfl, fun _ _ => rfl, fun _ _ _ => rfl⟩
  · intro e code message h
    rw [MapError_of_code e code message h]
    refine ⟨?_, ?_, ?_, ?_, ?_, ?_, ?_⟩
    · intro hc
      simp only [List.mem_cons, List.mem_singleton, List.not_mem_nil, or_false] at hc
      rw [if_pos hc]
    · rintro rfl
      simp
    · rintro rfl
      simp
    · rintro rfl
      simp
    · rintro rfl
      simp
    · rintro rfl
      simp
    · intro hc
      simp only [List.mem_cons, List.mem_singleton, List.not_mem_nil, or_false, not_or] at hc
      obtain ⟨h1, h2, h3, h4, h5, h6, h7, h8⟩ := hc
      simp [h1, h2, h3, h4, h5, h6, h7, h8]
  · intro e h
    unfold MapError
    simp only [h]

/-- C25 (amended) on the error `repository.service.Create` returns when GitHub
does not know the repository: 404 with the code and message of
`ErrRepositoryNotFound`. -/
theorem C25_MapError_is_decided_by_the_domain_code_witness :
    MapError (some (wrap "error getting git repo from github" ErrRepositoryNotFound)) =
      (404, NewHTTPError "RepositoryNotFound"
        "The repository info provided doesn't exist. Please check the owner and repository name and try again."
        []) :=
  (C25_MapError_is_decided_by_the_domain_code.2.1
    (wrap "error getting git repo from github" ErrRepositoryNotFound) "RepositoryNotFound"
    "The repository info provided doesn't exist. Please check the owner and repository name and try again."
    rfl).1 (by decide)

/-! ### The client's error set -/

theorem matchesClientError_wrap (msg : String) (e : GoError) :
    matchesClientError (wrap msg e) = matchesClientError e := by
  simp [matchesClientError, errorsIs, ErrRepositoryNotFound, ErrUnauthorized,
    ErrRateLimitExceeded, ErrInternalServer, ErrInvalidResponse]

theorem matchesClientError_plain (msg : String) : matchesClientError (plain msg) = false := by
  simp [matchesClientError, errorsIs, ErrRepositoryNotFound, ErrUnauthorized,
    ErrRateLimitExceeded, ErrInternalServer, ErrInvalidResponse]

theorem IsTransient_of_not_matches (e : GoError) (h : matchesClientError e = false) :
    IsTransient e = false := by
  unfold matchesClientError at h
  unfold IsTransient
  simp only [Bool.or_eq_false_iff] at h ⊢
  exact ⟨h.1.1.2, h.1.2⟩

theorem doOnce_handled {α : Type} (c : client) (hreq : c.newRequestErr = none) (status : Nat)
    (decoded : Option α) (hs : status ∈ handledStatusCodes) (e : GoError)
    (h : c.doOnce (.response status decoded) = .error e) : matchesClientError e = true := by
  simp only [handledStatusCodes, List.mem_cons, List.mem_singleton, List.not_mem_nil,
    or_false] at hs
  rcases hs with rfl | rfl | rfl | rfl | rfl
  · cases decoded with
    | none =>
      simp [client.doOnce, hreq] at h
      subst h
      decide
    | some v => simp [client.doOnce, hreq] at h
  all_goals
    simp [client.doOnce, hreq] at h
    subst h
    decide

theorem retryLoop_matches {α : Type} (c : client) (remote : Nat → HTTPOutcome α)
    (hreq : c.newRequestErr = none)
    (hgood : ∀ i, ∃ status decoded,
      remote i = .response status decoded ∧ status ∈ handledStatusCodes) :
    ∀ (remaining i requests : Nat) (lastErr : Option GoError),
      (∀ e, lastErr = some e → matchesClientError e = true) →
      (remaining = 0 → lastErr ≠ none) →
      ∀ e, (client.retryLoop c remote remaining i requests lastErr).err = some e →
        matchesClientError e = true := by
  intro remaining
  induction remaining with
  | zero =>
    intro i requests lastErr hlast hsome e h
    cases lastErr with
    | none => exact absurd rfl (hsome rfl)
    | some err =>
      simp only [client.retryLoop, Option.some.injEq] at h
      subst h
      rw [matchesClientError_wrap]
      exact hlast err rfl
  | succ n ih =>
    intro i requests lastErr _ _ e h
    obtain ⟨status, decoded, hremote, hs⟩ := hgood i
    unfold client.retryLoop at h
    cases hdo : c.doOnce (remote i) with
    | ok v =>
      rw [hdo] at h
      simp at h
    | error err =>
      have hm : matchesClientError err = true :=
        doOnce_handled c hreq status decoded hs err (by rw [← hremote]; exact hdo)
      rw [hdo] at h
      by_cases ht : IsTransient err = true
      · simp only [ht, if_true] at h
        refine ih (i + 1) (requests + c.sent) (some err) ?_ ?_ e h
        · intro e1 he1
          cases he1
          exact hm
        · intro _ hnone
          cases hnone
      · simp only [ht, Bool.false_eq_true, if_false, Option.some.injEq] at h
        subst h
        exact hm

theorem GetRepository_err (c : client)
    (remote : String → String → Nat → HTTPOutcome dto.GitHubRepositoryResponse)
    (owner repo : String) :
    (c.GetRepository remote owner repo).2.1 = (c.doWithRetry (remote owner repo)).err := by
  unfold client.GetRepository
  cases h1 : (c.doWithRetry (remote owner repo)).err <;>
    cases h2 : (c.doWithRetry (remote owner repo)).value <;> simp [h1, h2]

theorem GetCommits_err (c : client) (hreq : c.newRequestErr = none)
    (remote : CommitsQuery → Nat → HTTPOutcome (List dto.GitHubCommitResponse))
    (owner repoName : String) (from_ to_ : Time) (batchSize page : Int) :
    (c.GetCommits remote owner repoName from_ to_ batchSize page).2.1 =
      (c.doWithRetry (remote (commitsQuery owner repoName from_ to_ batchSize page))).err := by
  unfold client.GetCommits
  rw [hreq]
  cases h1 : (c.doWithRetry
    (remote (commitsQuery owner repoName from_ to_ batchSize page))).err <;> simp [h1]

theorem doWithRetry_matches {α : Type} (c : client) (remote : Nat → HTTPOutcome α)
    (hreq : c.newRequestErr = none) (hretry : 1 ≤ c.retryCount)
    (hgood : ∀ i, ∃ status decoded,
      remote i = .response status decoded ∧ status ∈ handledStatusCodes)
    (e : GoError) (h : (c.doWithRetry remote).err = some e) : matchesClientError e = true := by
  unfold client.doWithRetry at h
  refine retryLoop_matches c remote hreq hgood c.retryCount.toNat 0 0 none ?_ ?_ e h
  · intro e1 he1
    cases he1
  · intro hzero
    omega

theorem doWithRetry_unexpected {α : Type} (c : client) (remote : Nat → HTTPOutcome α)
    (hreq : c.newRequestErr = none) (hretry : 1 ≤ c.retryCount) (status : Nat)
    (decoded : Option α) (h0 : remote 0 = .response status decoded)
    (hs : status ∉ handledStatusCodes) :
    (c.doWithRetry remote).err = some (plain ("unexpected status code: " ++ toString status)) := by
  simp only [handledStatusCodes, List.mem_cons, List.mem_singleton, List.not_mem_nil,
    or_false, not_or] at hs
  obtain ⟨h200, h404, h401, h403, h500⟩ := hs
  have hdo : c.doOnce (remote (1 - 1)) =
      .error (plain ("unexpected status code: " ++ toString status)) := by
    rw [h0]
    simp [client.doOnce, hreq, h200, h404, h401, h403, h500]
  rw [doWithRetry_permanent c remote _ 1 (le_refl 1) (by simpa using hretry)
    (fun m hm => absurd hm (by omega)) hdo
    (IsTransient_of_not_matches _ (matchesClientError_plain _))]

theorem doWithRetry_transport {α : Type} (c : client) (remote : Nat → HTTPOutcome α)
    (hreq : c.newRequestErr = none) (hretry : 1 ≤ c.retryCount) (err : GoError)
    (h0 : remote 0 = .transportError err) (herr : matchesClientError err = false) :
    (c.doWithRetry remote).err = some (wrap "failed to make request" err) := by
  have hdo : c.doOnce (remote (1 - 1)) = .error (wrap "failed to make request" err) := by
    rw [h0]
    simp [client.doOnce, hreq]
  rw [doWithRetry_permanent c remote _ 1 (le_refl 1) (by simpa using hretry)
    (fun m hm => absurd hm (by omega)) hdo
    (IsTransient_of_not_matches _ (by rw [matchesClientError_wrap]; exact herr))]

/-- C22 (counterexample): a remote that answers 429 makes `GetRepository`
return the error "unexpected status code: 429", and a refused connection makes
`GetCommits` return "failed to make request" wrapping the transport error;
neither matches one of the five sentinels under `errors.Is`. -/
theorem C22_unhandled_status_and_transport_failure_match_no_sentinel :
    (defaultClient.GetRepository (fun _ _ => alwaysStatus 429) "octocat" "Hello-World").2.1 =
        some (plain "unexpected status code: 429") ∧
      matchesClientError (plain "unexpected status code: 429") = false ∧
      (defaultClient.GetCommits
          (fun _ _ => .transportError (plain "dial tcp: connection refused"))
          "octocat" "Hello-World" 0 100 30 1).2.1 =
        some (wrap "failed to make request" (plain "dial tcp: connection refused")) ∧
      matchesClientError
        (wrap "failed to make request" (plain "dial tcp: connection refused")) = false := by
  decide

/-- C22 (amended): for a client whose requests can be built and whose retry
count is at least 1.  When the remote answers every attempt with one of the
status codes 200, 404, 401, 403, 500, every failure returned by
`GetRepository` or `GetCommits` matches one of `ErrRepositoryNotFound`,
`ErrUnauthorized`, `ErrRateLimitExceeded`, `ErrInternalServer`,
`ErrInvalidResponse` under `errors.Is`.  When the first attempt is answered
with any other status code `n`, the failure is the error "unexpected status
code: n", and when the first attempt meets a transport error that is not one
of the five, the failure is that error wrapped as "failed to make request";
these two failures match none of the five. -/
theorem C22_client_failures_by_status (c : client) (hreq : c.newRequestErr = none)
    (hretry : 1 ≤ c.retryCount) :
    (∀ (remote : String → String → Nat → HTTPOutcome dto.GitHubRepositoryResponse)
        (owner repo : String),
      (∀ i, ∃ status decoded,
        remote owner repo i = .response status decoded ∧ status ∈ handledStatusCodes) →
      ∀ e, (c.GetRepository remote owner repo).2.1 = some e → matchesClientError e = true) ∧
    (∀ (remote : CommitsQuery → Nat → HTTPOutcome (List dto.GitHubCommitResponse))
        (owner repoName : String) (from_ to_ : Time) (batchSize page : Int),
      (∀ i, ∃ status decoded,
        remote (commitsQuery owner repoName from_ to_ batchSize page) i =
          .response status decoded ∧ status ∈ handledStatusCodes) →
      ∀ e, (c.GetCommits remote owner repoName from_ to_ batchSize page).2.1 = some e →
        matchesClientError e = true) ∧
    (∀ (remote : String → String → Nat → HTTPOutcome dto.GitHubRepositoryResponse)
        (owner repo : String) (status : Nat) (decoded : Option dto.GitHubRepositoryResponse),
      remote owner repo 0 = .response status decoded → status ∉ handledStatusCodes →
      (c.GetRepository remote owner repo).2.1 =
          some (plain ("unexpected status code: " ++ toString status)) ∧
        matchesClientError (plain ("unexpected status code: " ++ toString status)) = false) ∧
    (∀ (remote : CommitsQuery → Nat → HTTPOutcome (List dto.GitHubCommitResponse))
        (owner repoName : String) (from_ to_ : Time) (batchSize page : Int) (status : Nat)
        (decoded : Option (List dto.GitHubCommitResponse)),
      remote (commitsQuery owner repoName from_ to_ batchSize page) 0 =
        .response status decoded → status ∉ handledStatusCodes →
      (c.GetCommits remote owner repoName from_ to_ batchSize page).2.1 =
          some (plain ("unexpected status code: " ++ toString status)) ∧
        matchesClientError (plain ("unexpected status code: " ++ toString status)) = false) ∧
    (∀ (remote : String → String → Nat → HTTPOutcome dto.GitHubRepositoryResponse)
        (owner repo : String) (err : GoError),
      remote owner repo 0 = .transportError err → matchesClientError err = false →
      (c.GetRepository remote owner repo).2.1 = some (wrap "failed to make request" err) ∧
        matchesClientError (wrap "failed to make request" err) = false) ∧
    (∀ (remote : CommitsQuery → Nat → HTTPOutcome (List dto.GitHubCommitResponse))
        (owner repoName : String) (from_ to_ : Time) (batchSize page : Int) (err : GoError),
      remote (commitsQuery owner repoName from_ to_ batchSize page) 0 = .transportError err →
      matchesClientError err = false →
      (c.GetCommits remote owner repoName from_ to_ batchSize page).2.1 =
          some (wrap "failed to make request" err) ∧
        matchesClientError (wrap "failed to make request" err) = false) := by
  refine ⟨?_, ?_, ?_, ?_, ?_, ?_⟩
  · intro remote owner repo hgood e h
    rw [GetRepository_err] at h
    exact doWithRetry_matches c (remote owner repo) hreq hretry hgood e h
  · intro remote owner repoName from_ to_ batchSize page hgood e h
    rw [GetCommits_err c hreq] at h
    exact doWithRetry_matches c _ hreq hretry hgood e h
  · intro remote owner repo status decoded h0 hs
    rw [GetRepository_err]
    exact ⟨doWithRetry_unexpected c _ hreq hretry status decoded h0 hs,
      matchesClientError_plain _⟩
  · intro remote owner repoName from_ to_ batchSize page status decoded h0 hs
    rw [GetCommits_err c hreq]
    exact ⟨doWithRetry_unexpected c _ hreq hretry status decoded h0 hs,
      matchesClientError_plain _⟩
  · intro remote owner repo err h0 herr
    rw [GetRepository_err]
    exact ⟨doWithRetry_transport c _ hreq hretry err h0 herr,
      by rw [matchesClientError_wrap]; exact herr⟩
  · intro remote owner repoName from_ to_ batchSize page err h0 herr
    rw [GetCommits_err c hreq]
    exact ⟨doWithRetry_transport c _ hreq hretry err h0 herr,
      by rw [matchesClientError_wrap]; exact herr⟩

/-- C22 (amended) at retry count 3 against a remote that always answers 403:
the failure `GetCommits` returns after its retries matches one of the five
sentinels. -/
theorem C22_client_failures_by_status_witness :
    (defaultClient.GetCommits (fun _ => alwaysStatus 403) "octocat" "Hello-World" 0 100 30
        1).2.1 = some (wrap "request failed after 3 retries" ErrRateLimitExceeded) ∧
      matchesClientError (wrap "request failed after 3 retries" ErrRateLimitExceeded) = true :=
  ⟨by decide,
    (C22_client_failures_by_status defaultClient rfl (by decide)).2.1
      (fun _ => alwaysStatus 403) "octocat" "Hello-World" 0 100 30 1
      (fun _ => ⟨403, none, rfl, by decide⟩)
      (wrap "request failed after 3 retries" ErrRateLimitExceeded) (by decide)⟩

/-! ### The subscription loop -/

theorem consume_messages (handler : Nat → String → Option GoError) :
    ∀ (msgs : List String) (rest : List Delivery) (calls : List String) (logged : List GoError),
      consume handler (msgs.map Delivery.message ++ rest) calls logged =
        consume handler rest (calls ++ msgs)
          (logged ++ handlerErrors handler calls.length msgs) := by
  intro msgs
  induction msgs with
  | nil =>
    intro rest calls logged
    simp [handlerErrors]
  | cons body more ih =>
    intro rest calls logged
    simp only [List.map_cons, List.cons_append, consume, handlerErrors, List.append_eq]
    cases handler calls.length body with
    | none =>
      simp only [ih, List.length_append, List.length_singleton, List.append_assoc,
        List.singleton_append]
    | some err =>
      simp only [ih, List.length_append, List.length_singleton, List.append_assoc,
        List.singleton_append]

/-- C23: for every handler (whatever it returns on each call, errors
included) and every sequence of messages the consumer goroutine receives, the
handler is called with exactly these messages, once each and in the order of
delivery, and its errors are only logged: this holds while the goroutine is
still waiting for more, when the channel is closed next, and when the context
is cancelled next, after which the goroutine has returned and nothing that
follows is handled. -/
theorem C23_handler_runs_once_per_message :
    ∀ (handler : Nat → String → Option GoError) (msgs : List String) (rest : List Delivery),
      consume handler (msgs.map Delivery.message) [] [] =
          { calls := msgs, logged := handlerErrors handler 0 msgs, returned := false } ∧
        consume handler (msgs.map Delivery.message ++ Delivery.closed :: rest) [] [] =
          { calls := msgs, logged := handlerErrors handler 0 msgs, returned := true } ∧
        consume handler (msgs.map Delivery.message ++ Delivery.done :: rest) [] [] =
          { calls := msgs, logged := handlerErrors handler 0 msgs, returned := true } := by
  intro handler msgs rest
  refine ⟨?_, ?_, ?_⟩
  · have h := consume_messages handler msgs [] [] []
    rw [List.append_nil] at h
    rw [h]
    simp [consume]
  · rw [consume_messages handler msgs _ [] []]
    simp [consume]
  · rw [consume_messages handler msgs _ [] []]
    simp [consume]

/-! ### The scheduler -/

theorem schedulerLoop_ticks {σ : Type} (startTasks : σ → σ × Option GoError) :
    ∀ (n : Nat) (rest : List Wakeup) (s : σ) (sweeps : Nat) (logged : List GoError),
      schedulerLoop startTasks (List.replicate n Wakeup.tick ++ rest) s sweeps logged =
        schedulerLoop startTasks rest ((fun t => (startTasks t).1)^[n] s) (sweeps + n)
          (logged ++ sweepErrors startTasks n s) := by
  intro n
  induction n with
  | zero =>
    intro rest s sweeps logged
    simp [sweepErrors]
  | succ n ih =>
    intro rest s sweeps logged
    simp only [List.replicate_succ, List.cons_append, schedulerLoop, sweepErrors,
      Function.iterate_succ_apply, List.append_eq]
    rcases hs : startTasks s with ⟨s1, err⟩
    cases err with
    | none =>
      simp only [ih]
      rw [show sweeps + 1 + n = sweeps + (n + 1) by omega]
    | some e =>
      simp only [ih, List.append_assoc, List.singleton_append]
      rw [show sweeps + 1 + n = sweeps + (n + 1) by omega]

theorem scheduler_Start_ticks {σ : Type} (startTasks : σ → σ × Option GoError) (s : σ)
    (n : Nat) (rest : List Wakeup) :
    scheduler_Start startTasks s (List.replicate n Wakeup.tick ++ rest) =
      schedulerLoop startTasks rest ((fun t => (startTasks t).1)^[n + 1] s) (n + 1)
        (sweepErrors startTasks (n + 1) s) := by
  unfold scheduler_Start
  simp only [sweepErrors, Function.iterate_succ_apply]
  rcases hs : startTasks s with ⟨s1, err⟩
  cases err with
  | none =>
    simp only [schedulerLoop_ticks, List.nil_append]
    rw [Nat.add_comm 1 n]
  | some e =>
    simp only [schedulerLoop_ticks, List.singleton_append]
    rw [Nat.add_comm 1 n]

/-- C24: for every `StartTasks` (whatever state it acts on and whatever error
each call returns) and every run of `Start` whose `select` receives `n` ticks
and then the cancellation, `StartTasks` is called exactly `n + 1` times, once
at the start and once per tick, each call on the state the previous one left,
its errors being logged only; `Start` then returns, and whatever the `select`
could have received afterwards changes nothing.  While no cancellation has
been received after `n` ticks, `n + 1` calls have been made and `Start` has
not returned. -/
theorem C24_one_sweep_at_start_and_one_per_tick :
    ∀ (σ : Type) (startTasks : σ → σ × Option GoError) (s : σ) (n : Nat)
        (rest : List Wakeup),
      scheduler_Start startTasks s (List.replicate n Wakeup.tick ++ Wakeup.done :: rest) =
          { state := (fun t => (startTasks t).1)^[n + 1] s, sweeps := n + 1,
            logged := sweepErrors startTasks (n + 1) s, returned := true } ∧
        scheduler_Start startTasks s (List.replicate n Wakeup.tick) =
          { state := (fun t => (startTasks t).1)^[n + 1] s, sweeps := n + 1,
            logged := sweepErrors startTasks (n + 1) s, returned := false } := by
  intro σ startTasks s n rest
  refine ⟨?_, ?_⟩
  · rw [scheduler_Start_ticks]
    rfl
  · have h := scheduler_Start_ticks startTasks s n []
    rw [List.append_nil] at h
    rw [h]
    rfl

/-! ### Manual triggers -/

/-- C26 (counterexample): octo/demo is tracked from time 1 and its cursor is
10; a manual trigger (`TriggerTask` without `since`) publishes a fetch-request
whose `Since` is 1, the tracking start, and not the cursor. -/
theorem C26_manual_trigger_ignores_the_cursor :
    cursor (worldOf [trackedRepo "octo" "demo" (some 10)]).db octoDemo = some 10 ∧
      (TriggerTask calmEnv (worldOf [trackedRepo "octo" "demo" (some 10)]) octoDemo
          none).1.published.map (fun e => (e.RepoInfo, e.Since)) = [(octoDemo, 1)] := by
  decide

/-- C26 (amended): when the repository row is found and the task creation and
the publish succeed, `TriggerTask` publishes exactly one fetch-request, for
that repository; its `Since` is the `since` argument when one is given and
the row's `commit_tracking_start_time` when none is given, whatever the row's
cursor.  The sweep passes the row's cursor as `since`, so a sweep over that
row publishes a request whose `Since` is the cursor when it is set and the
tracking start otherwise. -/
theorem C26_trigger_without_since_starts_from_tracking_start (env : ServiceEnv) (w : World)
    (info : RepoInfo) (repo : Repository) (hget : env.getErr = none)
    (hfind : w.db.repositories.find? (repoMatches info) = some repo)
    (hcreate : env.taskCreateErr w.handled = none)
    (hpublish : env.publishErr w.handled = none) :
    (∀ since : Option Time,
      TriggerTask env w info since =
        ({ w with
            tasks := w.tasks ++ [newTask env w.handled repo],
            published := w.published ++ [newFetchRequest env w.handled repo since],
            handled := w.handled + 1 },
          (newTask env w.handled repo).ID, none)) ∧
    (newFetchRequest env w.handled repo none).Since = repo.CommitTrackingStartTime ∧
    (∀ t : Time, (newFetchRequest env w.handled repo (some t)).Since = t) ∧
    (repo.IsActive = true →
      startLoop env w [repo] =
        ({ w with
            tasks := w.tasks ++ [newTask env w.handled repo],
            published := w.published ++
              [newFetchRequest env w.handled repo repo.LastFetchedCommitTime],
            handled := w.handled + 1 }, none)) ∧
    (newFetchRequest env w.handled repo repo.LastFetchedCommitTime).Since =
      repo.LastFetchedCommitTime.getD repo.CommitTrackingStartTime := by
  refine ⟨?_, rfl, fun t => rfl, ?_, ?_⟩
  · intro since
    unfold TriggerTask repoStore_Get
    simp only [hget, hfind]
    exact handleTask_ok env w repo since hcreate hpublish
  · intro hactive
    unfold startLoop
    simp only [hactive, Bool.not_true, Bool.false_eq_true, if_false]
    rw [handleTask_ok env w repo repo.LastFetchedCommitTime hcreate hpublish]
    simp [startLoop]
  · unfold newFetchRequest
    cases repo.LastFetchedCommitTime <;> rfl

/-- C26 (amended) on octo/demo, tracked from time 1 with cursor 10: a manual
trigger publishes a request with `Since` 1. -/
theorem C26_trigger_without_since_starts_from_tracking_start_witness :
    (TriggerTask calmEnv (worldOf [trackedRepo "octo" "demo" (some 10)]) octoDemo none).1.published
        = [newFetchRequest calmEnv 0 (trackedRepo "octo" "demo" (some 10)) none] ∧
      (newFetchRequest calmEnv 0 (trackedRepo "octo" "demo" (some 10)) none).Since = 1 :=
  ⟨by
      rw [(C26_trigger_without_since_starts_from_tracking_start calmEnv
        (worldOf [trackedRepo "octo" "demo" (some 10)]) octoDemo
        (trackedRepo "octo" "demo" (some 10)) rfl (by decide) rfl rfl).1 none]
      rfl,
    (C26_trigger_without_since_starts_from_tracking_start calmEnv
      (worldOf [trackedRepo "octo" "demo" (some 10)]) octoDemo
      (trackedRepo "octo" "demo" (some 10)) rfl (by decide) rfl rfl).2.1⟩

/-! ### The cursor write -/

theorem setTrackingInfo_of_not_matches (info : RepoInfo) (t fetchedAt updatedAt : Time)
    (r : Repository) (h : repoMatches info r = false) :
    setTrackingInfo info t fetchedAt updatedAt r = r := by
  unfold setTrackingInfo
  simp [h]

theorem map_setTrackingInfo_of_absent (info : RepoInfo) (t fetchedAt updatedAt : Time)
    (rows : List Repository) (h : (rows.filter (repoMatches info)).length = 0) :
    rows.map (setTrackingInfo info t fetchedAt updatedAt) = rows := by
  rw [List.length_eq_zero, List.filter_eq_nil_iff] at h
  induction rows with
  | nil => rfl
  | cons r rest ih =>
    rw [List.map_cons, setTrackingInfo_of_not_matches info t fetchedAt updatedAt r
      (by simpa using h r (List.mem_cons_self r rest)),
      ih (fun u hu => h u (List.mem_cons_of_mem r hu))]

/-- C28: when the `Count` and the `Updates` statements run.  If the repository
has at least one stored commit, `repoStore.UpdateTrackingInfo` returns nil and
leaves the database as it was, whatever time is passed.  If it has none and a
repository row matches, the call returns nil, every matching row gets
`last_fetched_commit_time` equal to the given time (so the cursor reads that
time), and the other rows are unchanged.  If it has none and no row matches,
the call returns `ErrRepositoryNotFound` and the database is unchanged. -/
theorem C28_UpdateTrackingInfo_writes_only_without_commits (faults : DBFaults)
    (fetchedAt updatedAt : Time) (db : DB) (info : RepoInfo) (t : Time)
    (hcount : faults.count = none) (hupdate : faults.update = none) :
    (commitCount db info ≠ 0 →
      repoStore_UpdateTrackingInfo faults fetchedAt updatedAt db info t = (db, none)) ∧
    (commitCount db info = 0 → (db.repositories.filter (repoMatches info)).length ≠ 0 →
      repoStore_UpdateTrackingInfo faults fetchedAt updatedAt db info t =
          ({ db with repositories :=
              db.repositories.map (setTrackingInfo info t fetchedAt updatedAt) }, none) ∧
        cursor (repoStore_UpdateTrackingInfo faults fetchedAt updatedAt db info t).1 info =
          some t) ∧
    (∀ r : Repository, repoMatches info r = true →
      (setTrackingInfo info t fetchedAt updatedAt r).LastFetchedCommitTime = some t ∧
        (setTrackingInfo info t fetchedAt updatedAt r).LastFetchedAt = some fetchedAt) ∧
    (∀ r : Repository, repoMatches info r = false →
      setTrackingInfo info t fetchedAt updatedAt r = r) ∧
    (commitCount db info = 0 → (db.repositories.filter (repoMatches info)).length = 0 →
      repoStore_UpdateTrackingInfo faults fetchedAt updatedAt db info t =
        (db, some ErrRepositoryNotFound)) := by
  refine ⟨?_, ?_, ?_, fun r h => setTrackingInfo_of_not_matches info t fetchedAt updatedAt r h,
    ?_⟩
  · intro hc
    unfold repoStore_UpdateTrackingInfo
    simp [hcount, hc]
  · intro hc hrows
    have hrun : repoStore_UpdateTrackingInfo faults fetchedAt updatedAt db info t =
        ({ db with repositories :=
            db.repositories.map (setTrackingInfo info t fetchedAt updatedAt) }, none) := by
      unfold repoStore_UpdateTrackingInfo
      simp [hcount, hupdate, hc, hrows]
    rw [hrun]
    exact ⟨rfl, cursor_after_update info t fetchedAt updatedAt db.repositories hrows db.commits⟩
  · intro r h
    unfold setTrackingInfo
    simp [h]
  · intro hc hrows
    unfold repoStore_UpdateTrackingInfo
    simp [hcount, hupdate, hc, hrows,
      map_setTrackingInfo_of_absent info t fetchedAt updatedAt db.repositories hrows]

/-- C28 on octo/demo with one stored commit and cursor 10: a call with time 99
succeeds and changes nothing. -/
theorem C28_UpdateTrackingInfo_writes_only_without_commits_witness :
    repoStore_UpdateTrackingInfo noFaults 50 51
        { repositories := [trackedRepo "octo" "demo" (some 10)],
          commits := [commitAt "octo" "demo" "a1" 10] } octoDemo 99 =
      ({ repositories := [trackedRepo "octo" "demo" (some 10)],
         commits := [commitAt "octo" "demo" "a1" 10] }, none) :=
  (C28_UpdateTrackingInfo_writes_only_without_commits noFaults 50 51
    { repositories := [trackedRepo "octo" "demo" (some 10)],
      commits := [commitAt "octo" "demo" "a1" 10] } octoDemo 99 rfl rfl).1 (by decide)

/-! ### A sweep that fails -/

theorem startLoop_prefix (env : ServiceEnv) :
    ∀ (before rest : List Repository) (w : World),
      (∀ j, j < (activeRepos before).length →
        env.taskCreateErr (w.handled + j) = none ∧ env.publishErr (w.handled + j) = none) →
      startLoop env w (before ++ rest) =
        startLoop env
          { w with
            tasks := w.tasks ++ sweepTasks env w.handled (activeRepos before),
            published := w.published ++ sweepRequests env w.handled (activeRepos before),
            handled := w.handled + (activeRepos before).length } rest := by
  intro before
  induction before with
  | nil =>
    intro rest w _
    simp [activeRepos, sweepTasks, sweepRequests]
  | cons repo more ih =>
    intro rest w hok
    by_cases hactive : repo.IsActive = true
    · have hfilter : activeRepos (repo :: more) = repo :: activeRepos more := by
        unfold activeRepos
        rw [List.filter_cons_of_pos (by simpa using hactive)]
      rw [hfilter] at hok
      have h0 := hok 0 (by simp)
      rw [Nat.add_zero] at h0
      rw [List.cons_append]
      conv_lhs => unfold startLoop
      simp only [hactive, Bool.not_true, Bool.false_eq_true, if_false]
      rw [handleTask_ok env w repo repo.LastFetchedCommitTime h0.1 h0.2]
      simp only []
      rw [ih rest _ (fun j hj => by
        have := hok (j + 1) (by simpa using hj)
        simpa [Nat.add_assoc, Nat.add_comm 1 j] using this)]
      simp only [hfilter, sweepTasks, sweepRequests, List.length_cons, List.append_assoc,
        List.singleton_append]
      rw [show w.handled + 1 + (activeRepos more).length =
        w.handled + ((activeRepos more).length + 1) by omega]
    · have hfilter : activeRepos (repo :: more) = activeRepos more := by
        unfold activeRepos
        rw [List.filter_cons_of_neg (by simpa using hactive)]
      have hfalse : repo.IsActive = false := by simpa using hactive
      rw [hfilter] at hok
      rw [List.cons_append]
      conv_lhs => unfold startLoop
      simp only [hfalse, Bool.not_false, if_true]
      rw [ih rest w hok, hfilter]

/-- C30: when the repository list can be read and is `before ++ repo :: after`
with `repo` active, the task creation and the publish succeed for the active
repositories of `before`, and the call for `repo` fails.  If the task creation
fails, `StartTasks` returns an error and the world holds, beyond what it held,
exactly the tasks and the fetch-requests of the active repositories of
`before`: nothing for `repo`, nothing for `after`.  If the task creation
succeeds and the publish fails, `StartTasks` returns an error and the world
holds in addition the task of `repo`, in status pending, and no fetch-request
for it; nothing for `after`.  Nothing is rolled back in either case. -/
theorem C30_sweep_stops_at_the_first_failure (env : ServiceEnv) (w : World)
    (before after : List Repository) (repo : Repository) (hlist : env.listErr = none)
    (hrepos : w.db.repositories = before ++ repo :: after) (hactive : repo.IsActive = true)
    (hok : ∀ j, j < (activeRepos before).length →
      env.taskCreateErr (w.handled + j) = none ∧ env.publishErr (w.handled + j) = none) :
    (∀ e : GoError,
      env.taskCreateErr (w.handled + (activeRepos before).length) = some e →
      StartTasks env w =
        ({ w with
            tasks := w.tasks ++ sweepTasks env w.handled (activeRepos before),
            published := w.published ++ sweepRequests env w.handled (activeRepos before),
            handled := w.handled + (activeRepos before).length + 1 },
          some (wrap "error starting task" (plain "failed to create task")))) ∧
    (env.taskCreateErr (w.handled + (activeRepos before).length) = none →
      ∀ e : GoError, env.publishErr (w.handled + (activeRepos before).length) = some e →
      StartTasks env w =
        ({ w with
            tasks := w.tasks ++ sweepTasks env w.handled (activeRepos before) ++
              [newTask env (w.handled + (activeRepos before).length) repo],
            published := w.published ++ sweepRequests env w.handled (activeRepos before),
            handled := w.handled + (activeRepos before).length + 1 },
          some (wrap "error starting task" (plain "failed to publish event")))) ∧
    (newTask env (w.handled + (activeRepos before).length) repo).Status = TaskStatusPending ∧
    (sweepTasks env w.handled (activeRepos before)).length = (activeRepos before).length ∧
    (sweepRequests env w.handled (activeRepos before)).length = (activeRepos before).length := by
  have hrun : StartTasks env w =
      startLoop env
        { w with
          tasks := w.tasks ++ sweepTasks env w.handled (activeRepos before),
          published := w.published ++ sweepRequests env w.handled (activeRepos before),
          handled := w.handled + (activeRepos before).length } (repo :: after) := by
    unfold StartTasks
    rw [hlist, hrepos]
    exact startLoop_prefix env before (repo :: after) w hok
  refine ⟨?_, ?_, rfl, ?_, ?_⟩
  · intro e hcreate
    rw [hrun]
    unfold startLoop handleTask
    simp [hactive, hcreate]
  · intro hcreate e hpublish
    rw [hrun]
    unfold startLoop handleTask
    simp [hactive, hcreate, hpublish]
  · have h := congrArg List.length (sweepTasks_fields env (activeRepos before) w.handled)
    simpa using h
  · have h := congrArg List.length (sweepRequests_fields env (activeRepos before) w.handled)
    simpa using h

/-- C30 on a sweep over octo/demo, an inactive repository, octo/fresh and
octo/late in which the publish for octo/fresh fails: the tasks of octo/demo
and octo/fresh exist, only the request of octo/demo is published, and
octo/late gets neither. -/
theorem C30_sweep_stops_at_the_first_failure_witness :
    (StartTasks (publishFailsAt 1) (worldOf [trackedRepo "octo" "demo" (some 10),
        inactiveRepo "octo" "idle", trackedRepo "octo" "fresh" none,
        trackedRepo "octo" "late" none])).1.tasks.map (fun t => (t.RepoName, t.ID, t.Status)) =
      [("demo", "task-0", "pending"), ("fresh", "task-1", "pending")] ∧
    (StartTasks (publishFailsAt 1) (worldOf [trackedRepo "octo" "demo" (some 10),
        inactiveRepo "octo" "idle", trackedRepo "octo" "fresh" none,
        trackedRepo "octo" "late" none])).1.published.map (fun e => (e.RepoInfo.Name, e.TaskID)) =
      [("demo", "task-0")] ∧
    (StartTasks (publishFailsAt 1) (worldOf [trackedRepo "octo" "demo" (some 10),
        inactiveRepo "octo" "idle", trackedRepo "octo" "fresh" none,
        trackedRepo "octo" "late" none])).2 =
      some (wrap "error starting task" (plain "failed to publish event")) := by
  rw [(C30_sweep_stops_at_the_first_failure (publishFailsAt 1)
    (worldOf [trackedRepo "octo" "demo" (some 10), inactiveRepo "octo" "idle",
      trackedRepo "octo" "fresh" none, trackedRepo "octo" "late" none])
    [trackedRepo "octo" "demo" (some 10), inactiveRepo "octo" "idle"]
    [trackedRepo "octo" "late" none] (trackedRepo "octo" "fresh" none) rfl rfl rfl
    (fun j hj => by
      have hj0 : j = 0 := by
        have hlen : (activeRepos [trackedRepo "octo" "demo" (some 10),
          inactiveRepo "octo" "idle"]).length = 1 := by decide
        omega
      subst hj0
      exact ⟨rfl, rfl⟩)).2.1 rfl (plain "channel is not initialized") rfl]
  decide

/-! ### The in-memory bus: publishing never fails for a full or absent queue -/

theorem store_bufferSize (bus : InMemoryEventBus) (topic : String) (chs : List Chan) :
    (bus.store topic chs).bufferSize = bus.bufferSize := by
  unfold InMemoryEventBus.store
  split <;> rfl

theorem mem_store (bus : InMemoryEventBus) (topic : String) (chs : List Chan)
    (kv : String × List Chan) (h : kv ∈ (bus.store topic chs).subscribers) :
    kv ∈ bus.subscribers ∨ kv = (topic, chs) := by
  unfold InMemoryEventBus.store at h
  split at h
  · simp only [List.mem_map] at h
    obtain ⟨kv0, hmem, heq⟩ := h
    by_cases hk : (kv0.1 == topic) = true
    · rw [if_pos hk] at heq
      exact Or.inr heq.symm
    · rw [if_neg hk] at heq
      exact Or.inl (heq ▸ hmem)
  · simp only [List.mem_append, List.mem_singleton] at h
    exact h

theorem load_mem (bus : InMemoryEventBus) (topic : String) (chs : List Chan)
    (h : bus.load topic = some chs) : ∃ kv ∈ bus.subscribers, kv.2 = chs := by
  unfold InMemoryEventBus.load at h
  cases hf : bus.subscribers.find? (fun kv => kv.1 == topic) with
  | none => simp [hf] at h
  | some kv =>
    simp only [hf, Option.map_some', Option.some.injEq] at h
    exact ⟨kv, List.mem_of_find?_eq_some hf, h⟩

theorem bounded_store (bus : InMemoryEventBus) (topic : String) (chs : List Chan)
    (hb : bus.bounded) (hchs : ∀ ch ∈ chs, ch.queue.length ≤ bus.bufferSize) :
    (bus.store topic chs).bounded := by
  intro kv hkv ch hch
  rw [store_bufferSize]
  rcases mem_store bus topic chs kv hkv with h | h
  · exact hb kv h ch hch
  · subst h
    exact hchs ch hch

theorem trySend_of_full (bufferSize : Nat) (body : String) (ch : Chan)
    (h : bufferSize ≤ ch.queue.length) : InMemoryEventBus.trySend bufferSize body ch = ch := by
  unfold InMemoryEventBus.trySend
  rw [if_neg (by omega)]

theorem trySend_le (bufferSize : Nat) (body : String) (ch : Chan)
    (h : ch.queue.length ≤ bufferSize) :
    (InMemoryEventBus.trySend bufferSize body ch).queue.length ≤ bufferSize := by
  unfold InMemoryEventBus.trySend
  split
  · simp only [List.length_append, List.length_singleton]
    omega
  · exact h

theorem receiveAt_le (bufferSize : Nat) :
    ∀ (chs : List Chan) (i : Nat), (∀ ch ∈ chs, ch.queue.length ≤ bufferSize) →
      ∀ ch ∈ receiveAt i chs, ch.queue.length ≤ bufferSize := by
  intro chs
  induction chs with
  | nil =>
    intro i _ ch hch
    simp [receiveAt] at hch
  | cons c rest ih =>
    intro i h ch hch
    cases i with
    | zero =>
      simp only [receiveAt, List.mem_cons] at hch
      rcases hch with rfl | hch
      · have := h c (List.mem_cons_self c rest)
        simp only [List.length_tail]
        omega
      · exact h ch (List.mem_cons_of_mem c hch)
    | succ j =>
      simp only [receiveAt, List.mem_cons] at hch
      rcases hch with rfl | hch
      · exact h ch (List.mem_cons_self ch rest)
      · exact ih j (fun u hu => h u (List.mem_cons_of_mem c hu)) ch hch

theorem bounded_of_load (bus : InMemoryEventBus) (topic : String) (chs : List Chan)
    (hb : bus.bounded) (h : bus.load topic = some chs) :
    ∀ ch ∈ chs, ch.queue.length ≤ bus.bufferSize := by
  obtain ⟨kv, hkv, rfl⟩ := load_mem bus topic chs h
  exact hb kv hkv

theorem bounded_Publish {μ : Type} (marshal : μ → Except GoError String)
    (ctxErr : Option GoError) (bus : InMemoryEventBus) (topic : String) (message : μ)
    (hb : bus.bounded) : (bus.Publish marshal ctxErr topic message).1.bounded := by
  unfold InMemoryEventBus.Publish
  cases ctxErr with
  | some e => exact hb
  | none =>
    cases marshal message with
    | error e => exact hb
    | ok body =>
      cases hl : bus.load topic with
      | none => exact hb
      | some chs =>
        refine bounded_store bus topic _ hb ?_
        intro ch hch
        obtain ⟨c0, hc0, rfl⟩ := List.mem_map.1 hch
        exact trySend_le bus.bufferSize body c0 (bounded_of_load bus topic chs hb hl c0 hc0)

theorem bounded_Subscribe (handlerNil : Bool) (bus : InMemoryEventBus) (topic : String)
    (hb : bus.bounded) : (bus.Subscribe handlerNil topic).1.bounded := by
  unfold InMemoryEventBus.Subscribe
  cases handlerNil with
  | true => exact hb
  | false =>
    refine bounded_store bus topic _ hb ?_
    intro ch hch
    rcases List.mem_append.1 hch with h | h
    · cases hl : bus.load topic with
      | none => simp [hl] at h
      | some chs =>
        rw [hl] at h
        exact bounded_of_load bus topic chs hb hl ch h
    · rw [List.mem_singleton.1 h]
      exact Nat.zero_le _

theorem bounded_step (bus : InMemoryEventBus) (s : BusStep) (hb : bus.bounded) :
    (bus.step s).bounded := by
  cases s with
  | publish ctxErr topic marshalled => exact bounded_Publish _ ctxErr bus topic marshalled hb
  | subscribe handlerNil topic => exact bounded_Subscribe handlerNil bus topic hb
  | receive topic i =>
    simp only [InMemoryEventBus.step]
    cases hl : bus.load topic with
    | none => exact hb
    | some chs =>
      exact bounded_store bus topic _ hb
        (receiveAt_le bus.bufferSize chs i (bounded_of_load bus topic chs hb hl))

theorem bounded_run (steps : List BusStep) :
    ∀ bus : InMemoryEventBus, bus.bounded → (bus.run steps).bounded := by
  induction steps with
  | nil =>
    intro bus hb
    exact hb
  | cons s rest ih =>
    intro bus hb
    exact ih (bus.step s) (bounded_step bus s hb)

/-- C29: with a live context and a payload that `json.Marshal` accepts,
`Publish` returns nil.  When the topic has no subscriber the bus is left as it
was, so nothing is kept for a later subscriber; otherwise the body is offered
to each channel of the topic, and a channel whose queue already holds
`bufferSize` bodies is left as it was.  Starting from a new bus, after any
sequence of `Publish`, `Subscribe` and receive operations no queue holds more
than `bufferSize` bodies. -/
theorem C29_Publish_never_fails_and_queues_stay_bounded :
    (∀ (μ : Type) (marshal : μ → Except GoError String) (bus : InMemoryEventBus)
        (topic : String) (message : μ) (body : String), marshal message = .ok body →
      (bus.Publish marshal none topic message).2 = none ∧
        (bus.load topic = none → bus.Publish marshal none topic message = (bus, none)) ∧
        (∀ chs, bus.load topic = some chs →
          bus.Publish marshal none topic message =
            (bus.store topic (chs.map (InMemoryEventBus.trySend bus.bufferSize body)), none))) ∧
    (∀ (bufferSize : Nat) (body : String) (ch : Chan), bufferSize ≤ ch.queue.length →
      InMemoryEventBus.trySend bufferSize body ch = ch) ∧
    (∀ (bufferSize : Nat) (steps : List BusStep) (kv : String × List Chan) (ch : Chan),
      kv ∈ ((NewInMemoryEventBus bufferSize).run steps).subscribers → ch ∈ kv.2 →
      ch.queue.length ≤ bufferSize) := by
  refine ⟨?_, trySend_of_full, ?_⟩
  · intro μ marshal bus topic message body hbody
    unfold InMemoryEventBus.Publish
    simp only [hbody]
    refine ⟨?_, ?_, ?_⟩
    · cases bus.load topic <;> rfl
    · intro hl
      rw [hl]
    · intro chs hl
      rw [hl]
  · intro bufferSize steps kv ch hkv hch
    have hb : ((NewInMemoryEventBus bufferSize).run steps).bounded :=
      bounded_run steps (NewInMemoryEventBus bufferSize) (by
        intro kv0 hkv0
        simp [NewInMemoryEventBus] at hkv0)
    have hsize : ∀ (l : List BusStep) (bus : InMemoryEventBus),
        (bus.run l).bufferSize = bus.bufferSize := by
      intro l
      induction l with
      | nil =>
        intro bus
        rfl
      | cons s rest ih =>
        intro bus
        have hstep : (bus.step s).bufferSize = bus.bufferSize := by
          cases s with
          | publish ctxErr topic marshalled =>
            simp only [InMemoryEventBus.step, InMemoryEventBus.Publish]
            cases ctxErr with
            | some e => rfl
            | none =>
              cases marshalled with
              | error e => rfl
              | ok b =>
                cases bus.load topic with
                | none => rfl
                | some chs => exact store_bufferSize bus topic _
          | subscribe handlerNil topic =>
            simp only [InMemoryEventBus.step, InMemoryEventBus.Subscribe]
            cases handlerNil with
            | true => rfl
            | false => exact store_bufferSize bus topic _
          | receive topic i =>
            simp only [InMemoryEventBus.step]
            cases bus.load topic with
            | none => rfl
            | some chs => exact store_bufferSize bus topic _
        exact (ih (bus.step s)).trans hstep
    have := hb kv hkv ch hch
    rw [hsize steps (NewInMemoryEventBus bufferSize)] at this
    exact this

/-- C29 on a bus with buffer size 1 and one subscriber of the topic: the
second `Publish` meets a full queue, returns nil just the same, and leaves the
queue with the first body only. -/
theorem C29_Publish_never_fails_and_queues_stay_bounded_witness :
    ((NewInMemoryEventBus 1).run [.subscribe false "fetch_commit_event",
        .publish none "fetch_commit_event" (.ok "first")]).load "fetch_commit_event" =
        some [{ queue := ["first"] }] ∧
      (((NewInMemoryEventBus 1).run [.subscribe false "fetch_commit_event",
          .publish none "fetch_commit_event" (.ok "first")]).Publish
        (fun (m : String) => Except.ok m) none "fetch_commit_event" "second").2 = none ∧
      ((((NewInMemoryEventBus 1).run [.subscribe false "fetch_commit_event",
          .publish none "fetch_commit_event" (.ok "first")]).Publish
        (fun (m : String) => Except.ok m) none "fetch_commit_event" "second").1).load
          "fetch_commit_event" = some [{ queue := ["first"] }] :=
  ⟨by decide,
    (C29_Publish_never_fails_and_queues_stay_bounded.1 String (fun m => Except.ok m)
      ((NewInMemoryEventBus 1).run [.subscribe false "fetch_commit_event",
        .publish none "fetch_commit_event" (.ok "first")])
      "fetch_commit_event" "second" "second" rfl).1,
    by decide⟩

/-! ### Paging through the commits of a repository -/

theorem threeStored_first_page :
    commitStore_List none timeString threeStored octoDemo { Cursor := "", Limit := 2 } =
      ([commitAt "octo" "demo" "c3" (newYear2024 + 30),
        commitAt "octo" "demo" "b2" (newYear2024 + 20)], "2024-01-01T00:00:20Z", none) := by
  decide

theorem threeStored_next_page :
    commitStore_List none timeString threeStored octoDemo
        { Cursor := "2024-01-01T00:00:20Z", Limit := 2 } =
      ([commitAt "octo" "demo" "c3" (newYear2024 + 30),
        commitAt "octo" "demo" "b2" (newYear2024 + 20)], "2024-01-01T00:00:20Z", none) := by
  decide

theorem threeStored_loop :
    ∀ fuel : Nat,
      listAll timeString threeStored octoDemo 2 fuel "2024-01-01T00:00:20Z" =
        List.replicate fuel [commitAt "octo" "demo" "c3" (newYear2024 + 30),
          commitAt "octo" "demo" "b2" (newYear2024 + 20)] := by
  intro fuel
  induction fuel with
  | zero => rfl
  | succ n ih =>
    conv_lhs => unfold listAll
    rw [threeStored_next_page]
    simp only [ih, List.replicate_succ]

/-- C27 (evaluation at the failing input): octo/demo has three commits, made
10, 20 and 30 seconds into January 1, 2024, which the driver stored as
"2024-01-01 00:00:10 +0000 UTC" and so on.  `List` with limit 2 and the empty
cursor returns the commits of second 30 and 20 and the cursor
"2024-01-01T00:00:20Z".  As texts, every stored date of that day is below this
cursor (a space comes before the letter T), so `List` with the cursor returns
the same page and the same cursor again: however many calls the client makes,
every page is this one, no page is empty, and the commit of second 10 is never
returned. -/
theorem C27_next_cursor_returns_the_same_page :
    timeString (newYear2024 + 30) = "2024-01-01 00:00:30 +0000 UTC" ∧
    textLess (timeString (newYear2024 + 30)) "2024-01-01T00:00:20Z" = true ∧
    commitStore_List none timeString threeStored octoDemo { Cursor := "", Limit := 2 } =
      ([commitAt "octo" "demo" "c3" (newYear2024 + 30),
        commitAt "octo" "demo" "b2" (newYear2024 + 20)], "2024-01-01T00:00:20Z", none) ∧
    commitStore_List none timeString threeStored octoDemo
        { Cursor := "2024-01-01T00:00:20Z", Limit := 2 } =
      ([commitAt "octo" "demo" "c3" (newYear2024 + 30),
        commitAt "octo" "demo" "b2" (newYear2024 + 20)], "2024-01-01T00:00:20Z", none) ∧
    (∀ fuel : Nat,
      listAll timeString threeStored octoDemo 2 fuel "" =
        List.replicate fuel [commitAt "octo" "demo" "c3" (newYear2024 + 30),
          commitAt "octo" "demo" "b2" (newYear2024 + 20)]) ∧
    (∀ fuel : Nat,
      commitAt "octo" "demo" "a1" (newYear2024 + 10) ∉
        (listAll timeString threeStored octoDemo 2 fuel "").flatten) := by
  have hall : ∀ fuel : Nat,
      listAll timeString threeStored octoDemo 2 fuel "" =
        List.replicate fuel [commitAt "octo" "demo" "c3" (newYear2024 + 30),
          commitAt "octo" "demo" "b2" (newYear2024 + 20)] := by
    intro fuel
    cases fuel with
    | zero => rfl
    | succ n =>
      conv_lhs => unfold listAll
      rw [threeStored_first_page]
      simp only [threeStored_loop, List.replicate_succ]
  refine ⟨by decide, by decide, threeStored_first_page, threeStored_next_page, hall, ?_⟩
  intro fuel hmem
  rw [hall fuel, List.mem_flatten] at hmem
  obtain ⟨page, hpage, ha⟩ := hmem
  rw [List.eq_of_mem_replicate hpage] at ha
  revert ha
  decide

end GitMonitor
